import Mathlib

/-!
Controle de hidrômetros: ledger operations of `src/App.js`.

A shallow embedding of the handlers of the `LoteManager` component (`handleSave`,
`handleDelete`, `prepararProximoFormulario`, `handleCarregarLote`, `handleExportCSV`),
of the `dashboardData` aggregation of `DashboardView` and of the import script
`importLotes.js`, together with the JavaScript built-ins they rely on (`parseFloat`,
`parseInt`, `Number`, `isNaN`, `Array.prototype.sort`, `String.prototype.split`,
`padStart`, `toFixed`, `Date` parsing).

Modelling conventions

* A JavaScript string is a `List Char` (`JSString`).
* A JavaScript number is a `JSNum`: `NaN`, the two infinities, or a finite value.
  Finite values are exact rationals: IEEE-754 rounding, overflow to infinity and
  the sign of zero are not represented.
* React state is passed explicitly (`LoteManager`); a handler returns an
  `Outcome` holding the next state, the alerts shown and the store writes issued.
* `Date.now()` is an explicit argument.
-/

namespace Hidrometros

/-! ## JavaScript numbers -/

/-- JavaScript number values. -/
inductive JSNum where
  | nan
  | posInf
  | negInf
  | fin (q : ℚ)
  deriving DecidableEq

namespace JSNum

/-- The global `isNaN` applied to a number. -/
def isNaN : JSNum → Bool
  | nan => true
  | _ => false

/-- Unary minus. -/
def neg : JSNum → JSNum
  | nan => nan
  | posInf => negInf
  | negInf => posInf
  | fin q => fin (-q)

/-- Number addition `a + b`. On finite operands this is the exact sum: the rounding of
binary64 and its overflow to an infinity are not represented. -/
def add : JSNum → JSNum → JSNum
  | nan, _ => nan
  | _, nan => nan
  | posInf, negInf => nan
  | negInf, posInf => nan
  | posInf, _ => posInf
  | _, posInf => posInf
  | negInf, _ => negInf
  | _, negInf => negInf
  | fin a, fin b => fin (a + b)

/-- Number subtraction `a - b`. -/
def sub (a b : JSNum) : JSNum := add a (neg b)

/-- Sign of an infinite or finite operand when multiplied by an infinity:
`none` for a zero (the product is `NaN`), otherwise whether it is negative. -/
def signo : JSNum → Option Bool
  | nan => none
  | posInf => some false
  | negInf => some true
  | fin q => if q = 0 then none else some (decide (q < 0))

/-- Number multiplication `a * b`. On finite operands this is the exact product: the
rounding of binary64 and its overflow to an infinity are not represented. -/
def mul : JSNum → JSNum → JSNum
  | nan, _ => nan
  | _, nan => nan
  | fin a, fin b => fin (a * b)
  | a, b =>
    match signo a, signo b with
    | some sa, some sb => if sa = sb then posInf else negInf
    | _, _ => nan

/-- Number division `a / b`. -/
def div : JSNum → JSNum → JSNum
  | nan, _ => nan
  | _, nan => nan
  | fin a, fin b =>
    if b = 0 then (if a = 0 then nan else if 0 < a then posInf else negInf)
    else fin (a / b)
  | fin _, _ => fin 0
  | posInf, fin b => if b < 0 then negInf else posInf
  | negInf, fin b => if b < 0 then posInf else negInf
  | _, _ => nan

/-- The relational operator `a < b` on numbers (false whenever an operand is `NaN`). -/
def lt : JSNum → JSNum → Bool
  | nan, _ => false
  | _, nan => false
  | fin a, fin b => decide (a < b)
  | negInf, negInf => false
  | negInf, _ => true
  | _, negInf => false
  | posInf, _ => false
  | fin _, posInf => true

/-- The relational operator `a > b` on numbers. -/
def gt (a b : JSNum) : Bool := lt b a

/-- The relational operator `a >= b` on numbers (false whenever an operand is `NaN`). -/
def ge (a b : JSNum) : Bool := !(isNaN a) && !(isNaN b) && !(lt a b)

/-- A non-negative integer as a number. -/
def ofNat (n : Nat) : JSNum := fin (n : ℚ)

/-- An integer as a number. -/
def ofInt (n : Int) : JSNum := fin (n : ℚ)

end JSNum

/-! ## JavaScript strings and numeric literals -/

/-- JavaScript strings, as lists of characters. -/
abbrev JSString := List Char

/-- `WhiteSpace` and `LineTerminator` code points, stripped by `parseFloat`,
`parseInt` and `Number`. -/
def isWhiteSpace (c : Char) : Bool :=
  let n := c.toNat
  n = 9 || n = 10 || n = 11 || n = 12 || n = 13 || n = 32 || n = 160 || n = 5760 ||
  (8192 ≤ n && n ≤ 8202) || n = 8232 || n = 8233 || n = 8239 || n = 8287 ||
  n = 12288 || n = 65279

/-- Leading white space removed. -/
def trimStart (s : JSString) : JSString := s.dropWhile isWhiteSpace

/-- Leading and trailing white space removed. -/
def trim (s : JSString) : JSString :=
  ((trimStart s).reverse.dropWhile isWhiteSpace).reverse

/-- `s.startsWith(p)`, returning the remainder after `p`. -/
def stripStart : JSString → JSString → Option JSString
  | [], s => some s
  | _ :: _, [] => none
  | p :: ps, c :: cs => if p = c then stripStart ps cs else none

/-- Value of a run of decimal digits. -/
def digitsVal (ds : JSString) : Nat :=
  ds.foldl (fun acc c => 10 * acc + (c.toNat - 48)) 0

/-- A parsed `StrDecimalLiteral`: an infinity, or `± mant × 10 ^ exp`. -/
inductive StrLit where
  | inf (negative : Bool)
  | dec (negative : Bool) (mant : Nat) (exp : Int)
  deriving DecidableEq

/-- `StringNumericValue` of a parsed literal. -/
def StrLit.value : StrLit → JSNum
  | .inf false => .posInf
  | .inf true => .negInf
  | .dec false m e => .fin ((m : ℚ) * (10 : ℚ) ^ e)
  | .dec true m e => .fin (-((m : ℚ) * (10 : ℚ) ^ e))

/-- An optional sign at the head of `s`: whether it is a minus, and the rest. -/
def scanSign (s : JSString) : Bool × JSString :=
  match s with
  | '+' :: r => (false, r)
  | '-' :: r => (true, r)
  | _ => (false, s)

/-- The optional `ExponentPart` at the head of `s`: the exponent and the rest of
the string; exponent `0` and `s` itself when no exponent part is present. -/
def scanExponent (s : JSString) : Int × JSString :=
  match s with
  | c :: t =>
    if c = 'e' ∨ c = 'E' then
      let sg := scanSign t
      let ds := sg.2.takeWhile Char.isDigit
      if ds = [] then (0, s)
      else ((if sg.1 then -(digitsVal ds : Int) else (digitsVal ds : Int)),
            sg.2.dropWhile Char.isDigit)
    else (0, s)
  | [] => (0, s)

/-- An optional dot followed by digits at the head of `s`: the digits and the rest. -/
def scanFraction (s : JSString) : JSString × JSString :=
  match s with
  | '.' :: t => (t.takeWhile Char.isDigit, t.dropWhile Char.isDigit)
  | _ => ([], s)

/-- The longest initial segment of `s` that is a `StrDecimalLiteral`, parsed,
together with the unread rest; `none` when no initial segment is one. -/
def scanStrDecimalLiteral (s : JSString) : Option (StrLit × JSString) :=
  let sg := scanSign s
  match stripStart "Infinity".toList sg.2 with
  | some rest => some (.inf sg.1, rest)
  | none =>
    let ip := sg.2.takeWhile Char.isDigit
    let fr := scanFraction (sg.2.dropWhile Char.isDigit)
    if ip = [] ∧ fr.1 = [] then none
    else
      let ex := scanExponent fr.2
      some (.dec sg.1 (digitsVal (ip ++ fr.1)) (ex.1 - (fr.1.length : Int)), ex.2)

/-- The global `parseFloat` applied to a string. -/
def parseFloat (s : JSString) : JSNum :=
  match scanStrDecimalLiteral (trimStart s) with
  | some (l, _) => l.value
  | none => .nan

/-- Value of a digit in a radix up to 16, if it is one. -/
def digitIn (radix : Nat) (c : Char) : Option Nat :=
  let n := c.toNat
  let v : Option Nat :=
    if 48 ≤ n ∧ n ≤ 57 then some (n - 48)
    else if 97 ≤ n ∧ n ≤ 102 then some (n - 87)
    else if 65 ≤ n ∧ n ≤ 70 then some (n - 55)
    else none
  v.bind (fun d => if d < radix then some d else none)

/-- Value of a string made only of digits of the radix; `none` if empty or if
some character is not such a digit. -/
def radixVal (radix : Nat) (s : JSString) : Option Nat :=
  if s = [] then none
  else s.foldl (fun acc c => acc.bind (fun a => (digitIn radix c).map (fun d => radix * a + d)))
    (some 0)

/-- A `NonDecimalIntegerLiteral` (`0x`, `0o`, `0b` forms), as accepted by `Number`. -/
def nonDecimalLiteral (s : JSString) : Option Nat :=
  match s with
  | '0' :: 'x' :: t => radixVal 16 t
  | '0' :: 'X' :: t => radixVal 16 t
  | '0' :: 'o' :: t => radixVal 8 t
  | '0' :: 'O' :: t => radixVal 8 t
  | '0' :: 'b' :: t => radixVal 2 t
  | '0' :: 'B' :: t => radixVal 2 t
  | _ => none

/-- `Number(s)` for a string `s` (the `StringToNumber` conversion that the global
`isNaN` and the `-` operator apply to string operands). -/
def toNumber (s : JSString) : JSNum :=
  let t := trim s
  if t = [] then .fin 0
  else
    match nonDecimalLiteral t with
    | some n => .ofNat n
    | none =>
      match scanStrDecimalLiteral t with
      | some (l, []) => l.value
      | _ => .nan

/-- The radix `parseInt` infers, and the digits to read: 16 after a `0x` or `0X`
marker, else 10. -/
def scanRadix (s : JSString) : Nat × JSString :=
  match s with
  | '0' :: 'x' :: u => (16, u)
  | '0' :: 'X' :: u => (16, u)
  | _ => (10, s)

/-- The global `parseInt` with no radix argument; `none` is `NaN`. -/
def parseInt (s : JSString) : Option Int :=
  let sg := scanSign (trimStart s)
  let rx := scanRadix sg.2
  let ds := rx.2.takeWhile (fun c => (digitIn rx.1 c).isSome)
  match radixVal rx.1 ds with
  | some n => some (if sg.1 then -(n : Int) else (n : Int))
  | none => none

/-- Decimal digits of a natural number, most significant first (`fuel` bounds the
number of digits produced). -/
def natDigits : Nat → Nat → JSString → JSString
  | 0, _, acc => acc
  | fuel + 1, n, acc =>
    let acc1 := Char.ofNat (48 + n % 10) :: acc
    if n / 10 = 0 then acc1 else natDigits fuel (n / 10) acc1

/-- `String(n)` for an integer-valued number or `NaN` (`none`). Integers are
written in plain decimal, as JavaScript does below `10 ^ 21`. -/
def intToString : Option Int → JSString
  | none => "NaN".toList
  | some (Int.ofNat n) => natDigits (n + 1) n []
  | some (Int.negSucc n) => '-' :: natDigits (n + 2) (n + 1) []

/-- `s.padStart(2, '0')`. -/
def padStart2 (s : JSString) : JSString :=
  List.replicate (2 - s.length) '0' ++ s

/-- `s.split(sep)` for a one-character separator. -/
def split (sep : Char) : JSString → List JSString
  | [] => [[]]
  | c :: cs =>
    if c = sep then [] :: split sep cs
    else
      match split sep cs with
      | [] => [[c]]
      | p :: ps => (c :: p) :: ps

/-- `parts.join(sep)` for a one-character separator. -/
def join (sep : Char) (parts : List JSString) : JSString :=
  List.intercalate [sep] parts

/-- UTF-16 code units of a string, the units JavaScript compares strings by. -/
def utf16 (s : JSString) : List Nat :=
  s.flatMap (fun c =>
    let n := c.toNat
    if n < 65536 then [n]
    else [55296 + (n - 65536) / 1024, 56320 + (n - 65536) % 1024])

/-- Lexicographic `<` on code-unit sequences. -/
def unitsLt : List Nat → List Nat → Bool
  | [], [] => false
  | [], _ :: _ => true
  | _ :: _, [] => false
  | a :: as, b :: bs => if a < b then true else if b < a then false else unitsLt as bs

/-- The relational operator `a > b` on strings. -/
def strGt (a b : JSString) : Bool := unitsLt (utf16 b) (utf16 a)

/-! ## Sorting and dates -/

/-- `Array.prototype.sort(comparefn)`: a stable sort. `positivo a b` tells whether
`comparefn(a, b) > 0` (a `NaN` result counts as `0`, so it is not positive). For a
consistent comparator this is the order every conforming engine produces. For an
inconsistent one (here: `b.consumo - a.consumo` when some `consumo` is `NaN`)
ECMAScript leaves the order to the engine; the result is then still a permutation of
the input, and this definition gives the order of a sort by insertion. -/
def sort {α : Type} (positivo : α → α → Bool) (l : List α) : List α :=
  l.insertionSort (fun a b => positivo a b = false)

/-- Whether a year is a leap year. -/
def isLeap (y : Int) : Bool :=
  y % 4 = 0 && (y % 100 != 0 || y % 400 = 0)

/-- `DayFromYear(y)`: day number of 1 January of year `y`, counted from 1970. -/
def dayFromYear (y : Int) : Int :=
  365 * (y - 1970) + (y - 1969) / 4 - (y - 1901) / 100 + (y - 1601) / 400

/-- Days of the year that precede the first day of month `m` (1..12). -/
def daysBeforeMonth (y : Int) (m : Nat) : Int :=
  let base : Int :=
    match m with
    | 1 => 0 | 2 => 31 | 3 => 59 | 4 => 90 | 5 => 120 | 6 => 151
    | 7 => 181 | 8 => 212 | 9 => 243 | 10 => 273 | 11 => 304 | _ => 334
  if isLeap y && decide (2 < m) then base + 1 else base

/-- Number of days of month `m` (1..12) of year `y`. -/
def daysInMonth (y : Int) (m : Nat) : Nat :=
  match m with
  | 2 => if isLeap y then 29 else 28
  | 4 => 30 | 6 => 30 | 9 => 30 | 11 => 30
  | _ => 31

/-- Time value in milliseconds of `new Date(s)` for a date-only string
`YYYY-MM-DD` (read as UTC midnight); `none` is an invalid date, whose time value
is `NaN`. Strings of any other shape are left to the engine by ECMAScript and are
treated as invalid here. -/
def dateParse (s : JSString) : Option Int :=
  match s with
  | [y1, y2, y3, y4, '-', m1, m2, '-', d1, d2] =>
    if [y1, y2, y3, y4, m1, m2, d1, d2].all Char.isDigit then
      let y : Int := (digitsVal [y1, y2, y3, y4] : Int)
      let m := digitsVal [m1, m2]
      let d := digitsVal [d1, d2]
      if 1 ≤ m ∧ m ≤ 12 ∧ 1 ≤ d ∧ d ≤ daysInMonth y m then
        some ((dayFromYear y + daysBeforeMonth y m + ((d : Int) - 1)) * 86400000)
      else none
    else none
  | _ => none

/-! ## Data model -/

/-- A reading record (`registro`) of one lot for one month, with the fields
`handleSave` stores. `mes` and `ano` are absent on records that were not written
by `handleSave`. -/
structure Registro where
  id : Nat
  mesAno : JSString
  consumo : JSNum
  custo : JSNum
  mes : Option JSString
  ano : Option JSString
  leituraAnterior : JSNum
  leituraAtual : JSNum
  tarifa : JSNum
  deriving DecidableEq

/-- The ledger `allData`: an object from lot keys to record arrays, as the list of
its own properties in property order. -/
abbrev Ledger := List (JSString × List Registro)

/-- `Object.keys(allData)`. -/
def keys (l : Ledger) : List JSString := l.map Prod.fst

/-- Property read `allData[k]`; `none` is `undefined`. -/
def getProp : Ledger → JSString → Option (List Registro)
  | [], _ => none
  | (k1, v) :: t, k => if k1 = k then some v else getProp t k

/-- The idiom `allData[k] || []`. -/
def getOrEmpty (l : Ledger) (k : JSString) : List Registro :=
  (getProp l k).getD []

/-- The array index a property key denotes, if it is one (a canonical decimal
numeral below `2 ^ 32 - 1`); such keys are enumerated first, in numeric order. -/
def arrayIndex (s : JSString) : Option Nat :=
  if s ≠ [] ∧ s.all Char.isDigit = true ∧ (s.head? ≠ some '0' ∨ s.length = 1) ∧
      digitsVal s < 4294967295 then some (digitsVal s)
  else none

/-- Assignment to an existing property: the value changes, the position does not. -/
def replaceProp (k : JSString) (v : List Registro) : Ledger → Ledger
  | [] => []
  | (k1, v1) :: t => if k1 = k then (k1, v) :: t else (k1, v1) :: replaceProp k v t

/-- Creation of a property whose key is the array index `n`: it is placed among
the index keys, in ascending order. -/
def insertIndex (n : Nat) (k : JSString) (v : List Registro) : Ledger → Ledger
  | [] => [(k, v)]
  | (k1, v1) :: t =>
    match arrayIndex k1 with
    | some m => if m < n then (k1, v1) :: insertIndex n k v t else (k, v) :: (k1, v1) :: t
    | none => (k, v) :: (k1, v1) :: t

/-- The object `{ ...allData, [k]: v }`. -/
def setProp (l : Ledger) (k : JSString) (v : List Registro) : Ledger :=
  if (getProp l k).isSome then replaceProp k v l
  else
    match arrayIndex k with
    | some n => insertIndex n k v l
    | none => l ++ [(k, v)]

/-- A value held by a form field: the text typed by the user, or the number a
pre-fill copied from a record. -/
inductive Campo where
  | texto (s : JSString)
  | numero (n : JSNum)
  deriving DecidableEq

/-- `parseFloat(v)` for a form value. A number is first converted to its string
form, which reads back as the same number. -/
def Campo.parseFloat : Campo → JSNum
  | .texto s => Hidrometros.parseFloat s
  | .numero n => n

/-- The form state `formData`. -/
structure FormData where
  mes : JSString
  ano : JSString
  leituraAnterior : Campo
  leituraAtual : Campo
  tarifa : Campo
  deriving DecidableEq

/-- The views of `LoteManager`. -/
inductive View where
  | selecao
  | lancamento
  | analise
  deriving DecidableEq

/-- State read and written by the handlers of `LoteManager`: the ledger `allData`
of the application context and the component's own state variables. -/
structure LoteManager where
  allData : Ledger
  view : View
  loteInput : JSString
  selectedLote : Option JSString
  editingRecord : Option Registro
  recordToDelete : Option Nat
  formData : FormData
  deriving DecidableEq

/-- The messages shown with `alert`. -/
inductive Alerta where
  | camposIncompletos
  | leituraMenorQueAnterior
  | periodoDuplicado
  | loteInvalido
  | nenhumRegistro
  deriving DecidableEq

/-- Effect of one handler call: the next state, the alerts shown and the store
writes (`setDoc` on `lotes/<key>`, with the record array written) in order. -/
structure Outcome where
  state : LoteManager
  alertas : List Alerta
  escritas : List (JSString × List Registro)
  deriving DecidableEq

/-- A property key computed from `selectedLote` (`null` becomes the key `"null"`). -/
def propKey : Option JSString → JSString
  | some k => k
  | none => "null".toList

/-- `updateAllData(newData)`: one store write per lot of `newData`, then the
ledger state is replaced by `newData`. -/
def updateAllData (s : LoteManager) (newData : Ledger) : Outcome :=
  { state := { s with allData := newData }
    alertas := []
    escritas := (keys newData).map (fun loteId => (loteId, (getProp newData loteId).getD [])) }

/-- A handler return after `alert(a)`: nothing else happens. -/
def rejeitar (s : LoteManager) (a : Alerta) : Outcome :=
  { state := s, alertas := [a], escritas := [] }

/-! ## `LoteManager` handlers -/

/-- The object `parsedData` built at the start of `handleSave`. -/
structure ParsedData where
  mes : JSString
  ano : JSString
  leituraAnterior : JSNum
  leituraAtual : JSNum
  tarifa : JSNum
  deriving DecidableEq

/-- Construction of `parsedData` from the form data. -/
def parseData (data : FormData) : ParsedData :=
  { mes := data.mes
    ano := data.ano
    leituraAnterior := data.leituraAnterior.parseFloat
    leituraAtual := data.leituraAtual.parseFloat
    tarifa := data.tarifa.parseFloat }

/-- The test `v === '' || isNaN(v)` on a string value. -/
def invalidoStr (v : JSString) : Bool :=
  decide (v = []) || (toNumber v).isNaN

/-- The test `Object.values(parsedData).some(v => v === '' || isNaN(v))`. -/
def camposInvalidos (p : ParsedData) : Bool :=
  invalidoStr p.mes || invalidoStr p.ano || p.leituraAnterior.isNaN ||
  p.leituraAtual.isNaN || p.tarifa.isNaN

/-- Truthiness of the `id` argument of `handleSave` (`null` and `0` are falsy). -/
def idTruthy : Option Nat → Bool
  | some n => decide (n ≠ 0)
  | none => false

/-- The strict inequality `r.id !== id`. -/
def idDiffers (rid : Nat) (id : Option Nat) : Bool :=
  decide (some rid ≠ id)

/-- The object `{ ...r, mesAno, consumo, custo, ...parsedData }`. -/
def atualizado (r : Registro) (mesAno : JSString) (consumo custo : JSNum)
    (p : ParsedData) : Registro :=
  { r with
    mesAno := mesAno
    consumo := consumo
    custo := custo
    mes := some p.mes
    ano := some p.ano
    leituraAnterior := p.leituraAnterior
    leituraAtual := p.leituraAtual
    tarifa := p.tarifa }

/-- The object `{ id: Date.now(), mesAno, consumo, custo, ...parsedData }`. -/
def novoRegistro (now : Nat) (mesAno : JSString) (consumo custo : JSNum)
    (p : ParsedData) : Registro :=
  { id := now
    mesAno := mesAno
    consumo := consumo
    custo := custo
    mes := some p.mes
    ano := some p.ano
    leituraAnterior := p.leituraAnterior
    leituraAtual := p.leituraAtual
    tarifa := p.tarifa }

/-- `handleSave(data, id)` in state `s`, with `now` the value of `Date.now()`. -/
def handleSave (s : LoteManager) (data : FormData) (id : Option Nat) (now : Nat) : Outcome :=
  let parsedData := parseData data
  if camposInvalidos parsedData then rejeitar s .camposIncompletos
  else if parsedData.leituraAtual.lt parsedData.leituraAnterior then
    rejeitar s .leituraMenorQueAnterior
  else
    let mesAno := parsedData.ano ++ '-' :: parsedData.mes
    let consumo := parsedData.leituraAtual.sub parsedData.leituraAnterior
    let custo := consumo.mul parsedData.tarifa
    let currentRegistros := getOrEmpty s.allData (propKey s.selectedLote)
    if idTruthy id then
      if currentRegistros.any (fun r => decide (r.mesAno = mesAno) && idDiffers r.id id) then
        rejeitar s .periodoDuplicado
      else
        let updatedRegistros := currentRegistros.map (fun r =>
          if some r.id = id then atualizado r mesAno consumo custo parsedData else r)
        updateAllData { s with editingRecord := none }
          (setProp s.allData (propKey s.selectedLote) updatedRegistros)
    else
      if currentRegistros.any (fun r => decide (r.mesAno = mesAno)) then
        rejeitar s .periodoDuplicado
      else
        let newRecord := novoRegistro now mesAno consumo custo parsedData
        let updatedRegistros := currentRegistros ++ [newRecord]
        updateAllData s (setProp s.allData (propKey s.selectedLote) updatedRegistros)

/-- The value `lote || loteInput` of `handleCarregarLote`: the argument when it is a
non-empty string, else the text of the lot input (`none` is a call without argument). -/
def loteEscolhido (s : LoteManager) (lote : Option JSString) : JSString :=
  match lote with
  | some l => if l = [] then s.loteInput else l
  | none => s.loteInput

/-- `handleCarregarLote(lote)` in state `s`. -/
def handleCarregarLote (s : LoteManager) (lote : Option JSString) : Outcome :=
  let loteId := loteEscolhido s lote
  if loteId = [] ∨ (parseInt loteId).isNone = true then rejeitar s .loteInvalido
  else
    { state := { s with selectedLote := some loteId, loteInput := loteId, view := .lancamento }
      alertas := []
      escritas := [] }

/-- The derived value `registros` of `LoteManager`: the records of the selected
lot, or the empty array when no lot is selected. -/
def registros (s : LoteManager) : List Registro :=
  match s.selectedLote with
  | some k => if k = [] then [] else getOrEmpty s.allData k
  | none => []

/-- `handleDelete()` in state `s`. -/
def handleDelete (s : LoteManager) : Outcome :=
  let newRegistros := (registros s).filter (fun r => idDiffers r.id s.recordToDelete)
  let o := updateAllData s (setProp s.allData (propKey s.selectedLote) newRegistros)
  { o with state := { o.state with recordToDelete := none } }

/-- Whether `new Date(a + "-01") - new Date(b + "-01")` is positive, for two
periods `a` and `b`. -/
def dataPosterior (a b : JSString) : Bool :=
  match dateParse (a ++ "-01".toList), dateParse (b ++ "-01".toList) with
  | some x, some y => decide (0 < x - y)
  | _, _ => false

/-- The values `hoje.getMonth()` and `hoje.getFullYear()` of `new Date()`. -/
structure Hoje where
  month : Nat
  fullYear : Int
  deriving DecidableEq

/-- The form data that `prepararProximoFormulario(currentRegistros)` passes to
`setFormData`. -/
def proximoFormulario (currentRegistros : List Registro) (hoje : Hoje) : FormData :=
  let sorted := sort (fun a b => dataPosterior a.mesAno b.mesAno) currentRegistros
  match sorted.getLast? with
  | some ultimo =>
    let partes := split '-' ultimo.mesAno
    let ultimoAno := partes.head?
    let ultimoMes := partes.tail.head?
    let proximoMes0 := (ultimoMes.bind parseInt).map (fun m => m + 1)
    let proximoAno0 := ultimoAno.bind parseInt
    let passou : Bool :=
      match proximoMes0 with
      | some m => decide (12 < m)
      | none => false
    let proximoMes := if passou then some 1 else proximoMes0
    let proximoAno := if passou then proximoAno0.map (fun a => a + 1) else proximoAno0
    { mes := padStart2 (intToString proximoMes)
      ano := intToString proximoAno
      leituraAnterior := .numero ultimo.leituraAtual
      leituraAtual := .texto []
      tarifa := .numero ultimo.tarifa }
  | none =>
    { mes := padStart2 (intToString (some ((hoje.month : Int) + 1)))
      ano := intToString (some hoje.fullYear)
      leituraAnterior := .texto []
      leituraAtual := .texto []
      tarifa := .texto [] }

/-- `prepararProximoFormulario(currentRegistros)` in state `s`. -/
def prepararProximoFormulario (s : LoteManager) (currentRegistros : List Registro)
    (hoje : Hoje) : LoteManager :=
  { s with formData := proximoFormulario currentRegistros hoje }

/-! ## `DashboardView` aggregation -/

/-- An element `{ loteId, ...r }` of `dadosUltimoMes`. -/
structure Entrada where
  loteId : JSString
  reg : Registro
  deriving DecidableEq

/-- The object computed by `dashboardData`. -/
structure DashboardData where
  totalLotes : Nat
  verificados : Nat
  consumoTotal : JSNum
  consumoMedio : JSNum
  ranking : List Entrada
  altas : List Entrada
  baixas : List Entrada
  allLotesList : List JSString
  verificadosList : List JSString
  ultimoMesAno : JSString
  deriving DecidableEq

/-- The initial value of `data` in `dashboardData`. -/
def dashboardVazio : DashboardData :=
  { totalLotes := 0, verificados := 0, consumoTotal := .fin 0, consumoMedio := .fin 0
    ranking := [], altas := [], baixas := [], allLotesList := [], verificadosList := []
    ultimoMesAno := [] }

/-- Whether the comparator `(a, b) => a - b` is positive on two lot keys. -/
def lotePosterior (a b : JSString) : Bool :=
  ((toNumber a).sub (toNumber b)).gt (.fin 0)

/-- The array `lotes` after `lotes.sort((a, b) => a - b)`, which sorts it in place. -/
def lotesOrdenados (allData : Ledger) : List JSString :=
  sort lotePosterior (keys allData)

/-- The string `ultimoMesAno` after the two nested `forEach` loops: the greatest
`mesAno` over all records, or the empty string. -/
def ultimoMesAno (allData : Ledger) : JSString :=
  (lotesOrdenados allData).foldl
    (fun acc loteId =>
      (getOrEmpty allData loteId).foldl (fun u r => if strGt r.mesAno u then r.mesAno else u) acc)
    []

/-- The array `dadosUltimoMes`: for each lot, in the order of `lotes`, its first
record of period `ultimo`, when it has one. -/
def dadosUltimoMes (allData : Ledger) (ultimo : JSString) : List Entrada :=
  (lotesOrdenados allData).filterMap (fun loteId =>
    match (getProp allData loteId).bind (fun regs => regs.find? (fun reg => reg.mesAno = ultimo)) with
    | some r => some { loteId := loteId, reg := r }
    | none => none)

/-- The `reduce` that sums `consumo` over `dadosUltimoMes`. -/
def somaConsumo (dados : List Entrada) : JSNum :=
  dados.foldl (fun acc curr => acc.add curr.reg.consumo) (.fin 0)

/-- The body of the `useMemo` that computes `dashboardData` from `allData`. -/
def dashboardData (allData : Ledger) : DashboardData :=
  let lotes := lotesOrdenados allData
  let data := { dashboardVazio with totalLotes := lotes.length, allLotesList := lotes }
  if data.totalLotes = 0 then data
  else
    let ultimo := ultimoMesAno allData
    if ultimo = [] then data
    else
      let data := { data with ultimoMesAno := join '/' (split '-' ultimo).reverse }
      let dados := dadosUltimoMes allData ultimo
      if dados.length = 0 then data
      else
        let verificados := dados.length
        let consumoTotal := somaConsumo dados
        let consumoMedio :=
          if 0 < verificados then consumoTotal.div (.ofNat verificados) else .fin 0
        let ranking := sort (fun a b => (b.reg.consumo.sub a.reg.consumo).gt (.fin 0)) dados
        let thresholdAlto := consumoMedio.mul (.fin (3 / 2))
        let thresholdBaixo := consumoMedio.mul (.fin (1 / 2))
        { data with
          verificados := verificados
          verificadosList := sort lotePosterior (dados.map (fun d => d.loteId))
          consumoTotal := consumoTotal
          consumoMedio := consumoMedio
          ranking := ranking
          altas := ranking.filter (fun r => r.reg.consumo.gt thresholdAlto)
          baixas := ranking.filter (fun r =>
            r.reg.consumo.gt (.fin 0) && r.reg.consumo.lt thresholdBaixo) }

/-! ## CSV export -/

/-- The digits of `n` with a dot before the last `f` of them, zero-padded on the left so
that at least one digit precedes the dot (no dot when `f = 0`). -/
def fixedDigits (n f : Nat) : JSString :=
  let m := natDigits (n + 1) n []
  let m2 := List.replicate (f + 1 - m.length) '0' ++ m
  if f = 0 then m2 else m2.take (m2.length - f) ++ '.' :: m2.drop (m2.length - f)

/-- `x.toFixed(f)`. The integer `n` with `n / 10 ^ f` nearest to `|x|` is taken, the
larger one on a tie. From `10 ^ 21` on, `toFixed` falls back to `String`, rendered by
`toStr`. -/
def toFixed (toStr : JSNum → JSString) (f : Nat) : JSNum → JSString
  | .nan => "NaN".toList
  | .posInf => "Infinity".toList
  | .negInf => "-Infinity".toList
  | .fin q =>
    let sinal : JSString := if q < 0 then ['-'] else []
    if (10 : ℚ) ^ 21 ≤ |q| then sinal ++ toStr (.fin |q|)
    else sinal ++ fixedDigits (Int.toNat (Int.floor (|q| * (10 : ℚ) ^ f + 1 / 2))) f

/-- The array `headers` of `handleExportCSV`. -/
def headers : List JSString :=
  ["Mes/Ano".toList, "Leitura Anterior (m³)".toList, "Leitura Atual (m³)".toList,
   "Consumo (m³)".toList, "Consumo (litros)".toList, "Tarifa (R$/m³)".toList,
   "Custo Total (R$)".toList]

/-- The period shown as `r.mesAno.split('-').reverse().join('/')`. -/
def periodoInvertido (mesAno : JSString) : JSString :=
  join '/' (split '-' mesAno).reverse

/-- The array that `handleExportCSV` builds for one record, each element converted to
a string as `join` does (`toStr` renders the two numbers that are passed as numbers). -/
def camposCSV (toStr : JSNum → JSString) (r : Registro) : List JSString :=
  [ '"' :: periodoInvertido r.mesAno ++ ['"'],
    toStr r.leituraAnterior,
    toStr r.leituraAtual,
    toFixed toStr 2 r.consumo,
    toFixed toStr 0 (r.consumo.mul (.fin 1000)),
    toFixed toStr 2 r.tarifa,
    toFixed toStr 2 r.custo ]

/-- The string `titleRow` without its two line feeds. -/
def tituloCSV (selectedLote : Option JSString) : JSString :=
  '"' :: "Relatório para o Lote: ".toList ++ propKey selectedLote ++ ['"']

/-- The text that follows the `data:` header in `csvContent`. -/
def textoCSV (toStr : JSNum → JSString) (selectedLote : Option JSString)
    (regs : List Registro) : JSString :=
  (tituloCSV selectedLote ++ ['\n', '\n']) ++ join ';' headers ++ ['\n'] ++
    List.intercalate ['\n'] (regs.map (fun r => join ';' (camposCSV toStr r)))

/-- The download started by `handleExportCSV`: the string given to `encodeURI` for the
link target, and the file name. -/
structure Exportacao where
  csvContent : JSString
  download : JSString
  deriving DecidableEq

/-- `handleExportCSV()` in state `s`: the alert shown, or the download started. -/
def handleExportCSV (toStr : JSNum → JSString) (s : LoteManager) : Except Alerta Exportacao :=
  if (registros s).length = 0 then .error .nenhumRegistro
  else
    .ok { csvContent := "data:text/csv;charset=utf-8,".toList ++
            textoCSV toStr s.selectedLote (registros s)
          download := "historico_lote_".toList ++ propKey s.selectedLote ++ ".csv".toList }

/-! ## Import script `importLotes.js` -/

/-- A row of the array `registros` of the import script. -/
structure LinhaImport where
  periodo : JSString
  lote : JSString
  anterior : JSString
  atual : JSString
  consumo : JSString
  deriving DecidableEq

/-- The table `mapa` of `periodoParaMesAno`. -/
def mapa : List (JSString × JSString) :=
  [("Janeiro / Fevereiro".toList, "2025-01".toList),
   ("Fevereiro / Março".toList, "2025-02".toList),
   ("Março / Abril".toList, "2025-03".toList),
   ("Abril / Maio".toList, "2025-04".toList),
   ("Maio / Junho".toList, "2025-05".toList),
   ("Julho / Agosto".toList, "2025-07".toList)]

/-- `periodoParaMesAno(periodo)`: the entry of `mapa` for the label, or `"2025-01"`. -/
def periodoParaMesAno (periodo : JSString) : JSString :=
  match mapa.lookup periodo with
  | some m => m
  | none => "2025-01".toList

/-- The idiom `Number(x) || 0`. -/
def numeroOuZero (x : JSString) : JSNum :=
  if (toNumber x).isNaN then .fin 0 else toNumber x

/-- The loop of `importarLotes` that groups the rows by lot, from row number `i` on;
`idDe i` is the value of `Date.now() + Math.floor(Math.random() * 100000)` for row
`i`. -/
def agruparLinhas (idDe : Nat → Nat) : Nat → List LinhaImport → Ledger → Ledger
  | _, [], lotes => lotes
  | i, reg :: rest, lotes =>
    if reg.lote = [] ∨ (toNumber reg.lote).isNaN = true then
      agruparLinhas idDe (i + 1) rest lotes
    else
      agruparLinhas idDe (i + 1) rest
        (setProp lotes reg.lote
          (getOrEmpty lotes reg.lote ++
            [{ id := idDe i
               mesAno := periodoParaMesAno reg.periodo
               leituraAnterior := numeroOuZero reg.anterior
               leituraAtual := numeroOuZero reg.atual
               consumo := numeroOuZero reg.consumo
               tarifa := .fin 0
               custo := .fin 0
               mes := none
               ano := none }]))

/-- `importarLotes()` on the rows `linhas`: the documents written to the store, one per
lot, in the order of `Object.entries(lotes)`. -/
def importarLotes (idDe : Nat → Nat) (linhas : List LinhaImport) : Ledger :=
  agruparLinhas idDe 0 linhas []

/-- The period string `${ano}-${mes}` that `handleSave` builds from the form. -/
def periodoDe (data : FormData) : JSString := data.ano ++ '-' :: data.mes

/-! ## Sample data -/

/-- A stored record of March 2025: readings 90 and 100, tariff 5. -/
def registroMarco : Registro :=
  { id := 1741000000000, mesAno := "2025-03".toList, consumo := .fin 10, custo := .fin 50
    mes := some "03".toList, ano := some "2025".toList
    leituraAnterior := .fin 90, leituraAtual := .fin 100, tarifa := .fin 5 }

/-- An empty form. -/
def formVazio : FormData :=
  { mes := [], ano := [], leituraAnterior := .texto [], leituraAtual := .texto [],
    tarifa := .texto [] }

/-- The data-entry state of lot 12, which holds the record of March 2025. -/
def estadoLote12 : LoteManager :=
  { allData := [("12".toList, [registroMarco])], view := .lancamento
    loteInput := "12".toList, selectedLote := some "12".toList
    editingRecord := none, recordToDelete := none, formData := formVazio }

/-- A form for April 2025 filled by typing: readings 100 and 130, tariff 5. -/
def formAbril : FormData :=
  { mes := "04".toList, ano := "2025".toList, leituraAnterior := .texto "100".toList
    leituraAtual := .texto "130".toList, tarifa := .texto "5".toList }

/-- A form for April 2025 whose current reading 80 is below the previous reading 100. -/
def formAbrilMenor : FormData :=
  { formAbril with leituraAtual := .texto "80".toList }

/-- A stored record of April 2025: readings 100 and 130, tariff 5. -/
def registroAbril : Registro :=
  { id := 1743500000000, mesAno := "2025-04".toList, consumo := .fin 30, custo := .fin 150
    mes := some "04".toList, ano := some "2025".toList
    leituraAnterior := .fin 100, leituraAtual := .fin 130, tarifa := .fin 5 }

/-- The data-entry state of lot 12 holding the records of March and April 2025. -/
def estadoDoisMeses : LoteManager :=
  { estadoLote12 with allData := [("12".toList, [registroMarco, registroAbril])] }

/-- A form for March 2025 with readings 100 and 130, tariff 5. -/
def formMarco : FormData :=
  { formAbril with mes := "03".toList }

/-- A form for March 2025 whose current reading 80 is below the previous reading 100. -/
def formMarcoMenor : FormData :=
  { formAbrilMenor with mes := "03".toList }

/-- A form of 2025 whose month is a single blank. -/
def formMesBranco : FormData :=
  { formAbril with mes := " ".toList }

/-- A form for April 2025 whose current reading is typed as `130abc`. -/
def formLetras : FormData :=
  { formAbril with leituraAtual := .texto "130abc".toList }

/-- A record of April 2025 that carries the same id as the record of March 2025. -/
def registroAbrilMesmoId : Registro :=
  { registroAbril with id := registroMarco.id }

/-- Lot 12 holding two records of different periods under one id. -/
def estadoIdRepetido : LoteManager :=
  { estadoLote12 with allData := [("12".toList, [registroMarco, registroAbrilMesmoId])] }

/-- A form for May 2025 with readings 100 and 130, tariff 5. -/
def formMaio : FormData :=
  { formAbril with mes := "05".toList }

/-- A form for April 2025 with negative numbers typed: readings -5 and 3, tariff -1. -/
def formNegativo : FormData :=
  { formAbril with leituraAnterior := .texto "-5".toList, leituraAtual := .texto "3".toList
                   tarifa := .texto "-1".toList }

/-- A form for April 2025 with both readings typed as `Infinity`. -/
def formInfinito : FormData :=
  { formAbril with leituraAnterior := .texto "Infinity".toList
                   leituraAtual := .texto "Infinity".toList }

/-- The state of lot 12 with March and April 2025, the April record marked for deletion. -/
def estadoRemover : LoteManager :=
  { estadoDoisMeses with recordToDelete := some registroAbril.id }

/-! ## Well-formed periods -/

/-- A period of the zero-padded form `YYYY-MM`: four digits, a dash, and two digits
that denote a month from 01 to 12. -/
def periodoBemFormado (p : JSString) : Bool :=
  match p with
  | [y1, y2, y3, y4, '-', m1, m2] =>
    [y1, y2, y3, y4, m1, m2].all Char.isDigit &&
      decide (1 ≤ digitsVal [m1, m2]) && decide (digitsVal [m1, m2] ≤ 12)
  | _ => false

/-- The year a well-formed period denotes. -/
def anoDe (p : JSString) : Nat := digitsVal (p.take 4)

/-- The month a well-formed period denotes. -/
def mesDe (p : JSString) : Nat := digitsVal (p.drop 5)

/-- A stored record of November 2025 with current reading 100 and tariff 5. -/
def registroNovembro : Registro :=
  { registroMarco with mesAno := "2025-11".toList, mes := some "11".toList }

/-- A stored record of December 2025 with current reading 100 and tariff 5. -/
def registroDezembro : Registro :=
  { registroMarco with mesAno := "2025-12".toList, mes := some "12".toList }

/-- A value of `new Date()` in January 2026. -/
def hojeJaneiro : Hoje := { month := 0, fullYear := 2026 }

/-- Day number, counted from 1 January 1970, of the first day of a period. -/
def diaDoPeriodo (p : JSString) : Int :=
  dayFromYear (anoDe p) + daysBeforeMonth (anoDe p) (mesDe p)

/-! ## Periods read by the dashboard -/

/-- The periods that the two nested `forEach` loops of `dashboardData` read, in the
order in which they read them. -/
def periodosLidos (allData : Ledger) : List JSString :=
  (lotesOrdenados allData).flatMap (fun loteId =>
    (getOrEmpty allData loteId).map (fun r => r.mesAno))

/-- The update `if (r.mesAno > ultimoMesAno) ultimoMesAno = r.mesAno` of the loops. -/
def maiorPeriodo (u p : JSString) : JSString := if strGt p u then p else u

/-- A record of March 2025 with `consumo` 10. -/
def registroConsumo10 : Registro :=
  { id := 1741000000001, mesAno := "2025-03".toList, consumo := .fin 10, custo := .fin 50
    mes := some "03".toList, ano := some "2025".toList
    leituraAnterior := .fin 90, leituraAtual := .fin 100, tarifa := .fin 5 }

/-- A record of March 2025 with `consumo` 50. -/
def registroConsumo50 : Registro :=
  { id := 1741000000002, mesAno := "2025-03".toList, consumo := .fin 50, custo := .fin 250
    mes := some "03".toList, ano := some "2025".toList
    leituraAnterior := .fin 100, leituraAtual := .fin 150, tarifa := .fin 5 }

/-- The ledger of the specification's example: lot 1 with `consumo` 10 and lot 2 with
`consumo` 50 in March 2025, and lot 3 without records. -/
def ledgerExemplo : Ledger :=
  [("1".toList, [registroConsumo10]), ("2".toList, [registroConsumo50]), ("3".toList, [])]

/-- A ledger of two lots without records. -/
def ledgerSemRegistros : Ledger :=
  [("1".toList, []), ("2".toList, [])]

/-- A record of November 2024. -/
def registroNov2024 : Registro :=
  { registroMarco with id := 1730000000000, mesAno := "2024-11".toList
                       mes := some "11".toList, ano := some "2024".toList }

/-- A ledger whose lots hold March 2025, November 2024 and April 2025. -/
def ledgerTresPeriodos : Ledger :=
  [("1".toList, [registroMarco, registroNov2024]), ("2".toList, [registroAbril])]

/-- The entry of lot 1 in the latest-period data of the example ledger. -/
def entradaLote1 : Entrada := { loteId := "1".toList, reg := registroConsumo10 }

/-- The entry of lot 2 in the latest-period data of the example ledger. -/
def entradaLote2 : Entrada := { loteId := "2".toList, reg := registroConsumo50 }

/-! ## Order of number values -/

/-- Position of a number on the extended line: infinities at the ends, finite values
by their value. `NaN`, which compares with nothing, is placed at the bottom. -/
def JSNum.ordem : JSNum → WithBot (WithTop ℚ)
  | .nan => ⊥
  | .negInf => ⊥
  | .fin q => ((q : WithTop ℚ) : WithBot (WithTop ℚ))
  | .posInf => ((⊤ : WithTop ℚ) : WithBot (WithTop ℚ))

/-- A record of March 2025 whose `consumo` is `NaN`. -/
def registroConsumoNaN : Registro :=
  { registroConsumo10 with id := 1741000000003, consumo := .nan, custo := .nan }

/-- A ledger of March 2025 in which lot 1 has `consumo` 10, lot 2 `NaN` and lot 3 50. -/
def ledgerComNaN : Ledger :=
  [("1".toList, [registroConsumo10]), ("2".toList, [registroConsumoNaN]),
   ("3".toList, [registroConsumo50])]

/-- The lot selection screen before any lot is chosen. -/
def estadoSelecao : LoteManager :=
  { allData := ledgerExemplo, view := .selecao, loteInput := [], selectedLote := none
    editingRecord := none, recordToDelete := none, formData := formVazio }

/-- The data-entry state of lot 12 in a ledger that also holds lot 15. -/
def estadoDoisLotes : LoteManager :=
  { estadoLote12 with
    allData := [("12".toList, [registroMarco]), ("15".toList, [registroAbril])] }

/-- A row of lot 78 for the label `Janeiro / Fevereiro`. -/
def linhaJaneiro : LinhaImport :=
  { periodo := "Janeiro / Fevereiro".toList, lote := "78".toList, anterior := "472".toList
    atual := "482".toList, consumo := "10".toList }

/-- A row of lot 78 for the label `Junho / Julho`. -/
def linhaJunho : LinhaImport :=
  { periodo := "Junho / Julho".toList, lote := "78".toList, anterior := "520".toList
    atual := "531".toList, consumo := "11".toList }

/-- Ids given to the imported rows. -/
def idImportado (i : Nat) : Nat := 1750000000000 + i

/-- `String(x)` for `NaN`, the infinities and the integers below `10 ^ 21`, which are
the values of the sample data. Other finite values, whose digits depend on their
binary representation, are left without digits. -/
def textoDeNumero : JSNum → JSString
  | .nan => "NaN".toList
  | .posInf => "Infinity".toList
  | .negInf => "-Infinity".toList
  | .fin q => if q.den = 1 then intToString (some q.num) else []

/-- The data-entry state of lot 12 holding one record whose `consumo` is `NaN`. -/
def estadoConsumoNaN : LoteManager :=
  { estadoLote12 with allData := [("12".toList, [registroConsumoNaN])] }

/-! ## Ledger lemmas -/

theorem getProp_replaceProp_self (k : JSString) (v : List Registro) (l : Ledger)
    (h : (getProp l k).isSome = true) : getProp (replaceProp k v l) k = some v := by
  induction l with
  | nil => simp [getProp] at h
  | cons p t ih =>
    obtain ⟨k1, v1⟩ := p
    by_cases hk : k1 = k
    · simp [replaceProp, getProp, hk]
    · simp only [getProp, hk, if_false] at h
      simp [replaceProp, getProp, hk, ih h]

theorem getProp_replaceProp_ne (k k2 : JSString) (v : List Registro) (l : Ledger)
    (hne : k2 ≠ k) : getProp (replaceProp k v l) k2 = getProp l k2 := by
  induction l with
  | nil => rfl
  | cons p t ih =>
    obtain ⟨k1, v1⟩ := p
    by_cases hk : k1 = k
    · subst hk
      simp [replaceProp, getProp, Ne.symm hne]
    · by_cases hk2 : k1 = k2
      · subst hk2
        simp [replaceProp, getProp, hk]
      · simp [replaceProp, getProp, hk, hk2, ih]

theorem getProp_insertIndex_self (n : Nat) (k : JSString) (v : List Registro) (l : Ledger)
    (h : getProp l k = none) : getProp (insertIndex n k v l) k = some v := by
  induction l with
  | nil => simp [insertIndex, getProp]
  | cons p t ih =>
    obtain ⟨k1, v1⟩ := p
    by_cases hk : k1 = k
    · simp [getProp, hk] at h
    · simp only [getProp, hk, if_false] at h
      unfold insertIndex
      split
      · split
        · simp [getProp, hk, ih h]
        · simp [getProp]
      · simp [getProp]

theorem getProp_insertIndex_ne (n : Nat) (k k2 : JSString) (v : List Registro) (l : Ledger)
    (hne : k2 ≠ k) : getProp (insertIndex n k v l) k2 = getProp l k2 := by
  induction l with
  | nil => simp [insertIndex, getProp, Ne.symm hne]
  | cons p t ih =>
    obtain ⟨k1, v1⟩ := p
    unfold insertIndex
    split
    · split
      · by_cases hk2 : k1 = k2
        · simp [getProp, hk2]
        · simp [getProp, hk2, ih]
      · simp [getProp, Ne.symm hne]
    · simp [getProp, Ne.symm hne]

theorem getProp_append (l1 l2 : Ledger) (k : JSString) :
    getProp (l1 ++ l2) k = (getProp l1 k).orElse (fun _ => getProp l2 k) := by
  induction l1 with
  | nil => simp [getProp]
  | cons p t ih =>
    obtain ⟨k1, v1⟩ := p
    by_cases hk : k1 = k
    · simp [getProp, hk]
    · simp [getProp, hk, ih]

theorem getProp_setProp_self (l : Ledger) (k : JSString) (v : List Registro) :
    getProp (setProp l k v) k = some v := by
  unfold setProp
  split
  · next h => exact getProp_replaceProp_self k v l h
  · next h =>
    have hn : getProp l k = none := by
      cases hg : getProp l k with
      | none => rfl
      | some x => simp [hg] at h
    split
    · exact getProp_insertIndex_self _ k v l hn
    · simp [getProp_append, hn, getProp]

theorem getProp_setProp_ne (l : Ledger) (k k2 : JSString) (v : List Registro) (hne : k2 ≠ k) :
    getProp (setProp l k v) k2 = getProp l k2 := by
  unfold setProp
  split
  · exact getProp_replaceProp_ne k k2 v l hne
  · split
    · exact getProp_insertIndex_ne _ k k2 v l hne
    · rw [getProp_append]
      cases hg : getProp l k2 with
      | none => simp [getProp, Ne.symm hne]
      | some x => simp

theorem getOrEmpty_setProp_self (l : Ledger) (k : JSString) (v : List Registro) :
    getOrEmpty (setProp l k v) k = v := by
  simp [getOrEmpty, getProp_setProp_self]

theorem getOrEmpty_setProp_ne (l : Ledger) (k k2 : JSString) (v : List Registro) (hne : k2 ≠ k) :
    getOrEmpty (setProp l k v) k2 = getOrEmpty l k2 := by
  simp [getOrEmpty, getProp_setProp_ne l k k2 v hne]



/-! ## The branches of `handleSave` -/

theorem handleSave_of_invalidos (s : LoteManager) (data : FormData) (id : Option Nat) (now : Nat)
    (h : camposInvalidos (parseData data) = true) :
    handleSave s data id now = rejeitar s .camposIncompletos := by
  simp [handleSave, h]

theorem handleSave_of_menor (s : LoteManager) (data : FormData) (id : Option Nat) (now : Nat)
    (h1 : camposInvalidos (parseData data) = false)
    (h2 : data.leituraAtual.parseFloat.lt data.leituraAnterior.parseFloat = true) :
    handleSave s data id now = rejeitar s .leituraMenorQueAnterior := by
  simp only [parseData] at h1
  simp [handleSave, h1, parseData, h2]

theorem handleSave_of_dup_edit (s : LoteManager) (data : FormData) (id : Option Nat) (now : Nat)
    (h1 : camposInvalidos (parseData data) = false)
    (h2 : data.leituraAtual.parseFloat.lt data.leituraAnterior.parseFloat = false)
    (h3 : idTruthy id = true)
    (h4 : (getOrEmpty s.allData (propKey s.selectedLote)).any
      (fun r => decide (r.mesAno = periodoDe data) && idDiffers r.id id) = true) :
    handleSave s data id now = rejeitar s .periodoDuplicado := by
  unfold periodoDe at h4
  simp only [parseData] at h1
  simp only [handleSave, h1, parseData, h2, h3, h4]
  simp

theorem handleSave_of_ok_edit (s : LoteManager) (data : FormData) (id : Option Nat) (now : Nat)
    (h1 : camposInvalidos (parseData data) = false)
    (h2 : data.leituraAtual.parseFloat.lt data.leituraAnterior.parseFloat = false)
    (h3 : idTruthy id = true)
    (h4 : (getOrEmpty s.allData (propKey s.selectedLote)).any
      (fun r => decide (r.mesAno = periodoDe data) && idDiffers r.id id) = false) :
    handleSave s data id now =
      updateAllData { s with editingRecord := none }
        (setProp s.allData (propKey s.selectedLote)
          ((getOrEmpty s.allData (propKey s.selectedLote)).map (fun r =>
            if some r.id = id then
              atualizado r (periodoDe data)
                (data.leituraAtual.parseFloat.sub data.leituraAnterior.parseFloat)
                ((data.leituraAtual.parseFloat.sub data.leituraAnterior.parseFloat).mul
                  data.tarifa.parseFloat)
                (parseData data)
            else r))) := by
  unfold periodoDe at h4 ⊢
  simp only [parseData] at h1
  simp only [handleSave, h1, parseData, h2, h3, h4]
  simp

theorem handleSave_of_dup_create (s : LoteManager) (data : FormData) (id : Option Nat) (now : Nat)
    (h1 : camposInvalidos (parseData data) = false)
    (h2 : data.leituraAtual.parseFloat.lt data.leituraAnterior.parseFloat = false)
    (h3 : idTruthy id = false)
    (h4 : (getOrEmpty s.allData (propKey s.selectedLote)).any
      (fun r => decide (r.mesAno = periodoDe data)) = true) :
    handleSave s data id now = rejeitar s .periodoDuplicado := by
  unfold periodoDe at h4
  simp only [parseData] at h1
  simp only [handleSave, h1, parseData, h2, h3, h4]
  simp

theorem handleSave_of_ok_create (s : LoteManager) (data : FormData) (id : Option Nat) (now : Nat)
    (h1 : camposInvalidos (parseData data) = false)
    (h2 : data.leituraAtual.parseFloat.lt data.leituraAnterior.parseFloat = false)
    (h3 : idTruthy id = false)
    (h4 : (getOrEmpty s.allData (propKey s.selectedLote)).any
      (fun r => decide (r.mesAno = periodoDe data)) = false) :
    handleSave s data id now =
      updateAllData s
        (setProp s.allData (propKey s.selectedLote)
          (getOrEmpty s.allData (propKey s.selectedLote) ++
            [novoRegistro now (periodoDe data)
              (data.leituraAtual.parseFloat.sub data.leituraAnterior.parseFloat)
              ((data.leituraAtual.parseFloat.sub data.leituraAnterior.parseFloat).mul
                data.tarifa.parseFloat)
              (parseData data)])) := by
  unfold periodoDe at h4 ⊢
  simp only [parseData] at h1
  simp only [handleSave, h1, parseData, h2, h3, h4]
  simp

/-- Acceptance of a save: the three validations all pass. -/
theorem handleSave_alertas_nil_iff (s : LoteManager) (data : FormData) (id : Option Nat)
    (now : Nat) :
    (handleSave s data id now).alertas = [] ↔
      camposInvalidos (parseData data) = false ∧
      data.leituraAtual.parseFloat.lt data.leituraAnterior.parseFloat = false ∧
      (getOrEmpty s.allData (propKey s.selectedLote)).any
        (fun r => decide (r.mesAno = periodoDe data) &&
          (if idTruthy id then idDiffers r.id id else true)) = false := by
  cases h1 : camposInvalidos (parseData data) with
  | true => simp [handleSave_of_invalidos s data id now h1, rejeitar]
  | false =>
    cases h2 : data.leituraAtual.parseFloat.lt data.leituraAnterior.parseFloat with
    | true => simp [handleSave_of_menor s data id now h1 h2, rejeitar]
    | false =>
      cases h3 : idTruthy id with
      | true =>
        cases h4 : (getOrEmpty s.allData (propKey s.selectedLote)).any
            (fun r => decide (r.mesAno = periodoDe data) && idDiffers r.id id) with
        | true =>
          simp only [handleSave_of_dup_edit s data id now h1 h2 h3 h4, rejeitar]
          simp [h4]
        | false =>
          simp only [handleSave_of_ok_edit s data id now h1 h2 h3 h4, updateAllData]
          simp [h4]
      | false =>
        cases h4 : (getOrEmpty s.allData (propKey s.selectedLote)).any
            (fun r => decide (r.mesAno = periodoDe data)) with
        | true =>
          simp only [handleSave_of_dup_create s data id now h1 h2 h3 h4, rejeitar]
          simp at h4 ⊢
          exact h4
        | false =>
          simp only [handleSave_of_ok_create s data id now h1 h2 h3 h4, updateAllData]
          simp at h4 ⊢
          exact h4

/-! ## Evaluation of numeric input -/

theorem parseFloat_of_scan (s : JSString) (l : StrLit) (rest : JSString)
    (h : scanStrDecimalLiteral (trimStart s) = some (l, rest)) : parseFloat s = l.value := by
  simp [parseFloat, h]

theorem parseFloat_100 : parseFloat "100".toList = .fin 100 := by
  rw [parseFloat_of_scan _ (.dec false 100 0) [] (by decide)]
  simp [StrLit.value]

theorem parseFloat_130 : parseFloat "130".toList = .fin 130 := by
  rw [parseFloat_of_scan _ (.dec false 130 0) [] (by decide)]
  simp [StrLit.value]

theorem parseFloat_80 : parseFloat "80".toList = .fin 80 := by
  rw [parseFloat_of_scan _ (.dec false 80 0) [] (by decide)]
  simp [StrLit.value]

theorem parseFloat_5 : parseFloat "5".toList = .fin 5 := by
  rw [parseFloat_of_scan _ (.dec false 5 0) [] (by decide)]
  simp [StrLit.value]

/-! ## C1 -/

/-- C1: every save that `handleSave` accepts stores a record whose `consumo` is
`leituraAtual - leituraAnterior` and whose `custo` is `consumo * tarifa`, computed on
the parsed inputs kept in that same record. A create appends that record; an edit
rewrites the records carrying the edited id. -/
theorem handleSave_stores_formula (s : LoteManager) (data : FormData) (id : Option Nat)
    (now : Nat) (h : (handleSave s data id now).alertas = []) :
    (idTruthy id = false →
      ∃ r, getOrEmpty (handleSave s data id now).state.allData (propKey s.selectedLote) =
        getOrEmpty s.allData (propKey s.selectedLote) ++ [r]) ∧
    ∀ r ∈ getOrEmpty (handleSave s data id now).state.allData (propKey s.selectedLote),
      ((idTruthy id = true ∧ some r.id = id) ∨
        (idTruthy id = false ∧
          getOrEmpty (handleSave s data id now).state.allData (propKey s.selectedLote) =
            getOrEmpty s.allData (propKey s.selectedLote) ++ [r])) →
      r.leituraAnterior = data.leituraAnterior.parseFloat ∧
      r.leituraAtual = data.leituraAtual.parseFloat ∧
      r.tarifa = data.tarifa.parseFloat ∧
      r.consumo = r.leituraAtual.sub r.leituraAnterior ∧
      r.custo = r.consumo.mul r.tarifa := by
  obtain ⟨h1, h2, h4⟩ := (handleSave_alertas_nil_iff s data id now).1 h
  cases h3 : idTruthy id with
  | true =>
    simp only [h3, if_true] at h4
    rw [handleSave_of_ok_edit s data id now h1 h2 h3 h4]
    simp only [updateAllData, getOrEmpty_setProp_self]
    refine ⟨by simp, ?_⟩
    intro r hr hsel
    rcases hsel with ⟨_, hid⟩ | ⟨hf, _⟩
    · rw [List.mem_map] at hr
      obtain ⟨r0, _, hr0⟩ := hr
      by_cases hc : some r0.id = id
      · rw [if_pos hc] at hr0
        subst hr0
        simp [atualizado, parseData]
      · rw [if_neg hc] at hr0
        subst hr0
        exact absurd hid hc
    · simp at hf
  | false =>
    simp only [h3] at h4
    have h4' : (getOrEmpty s.allData (propKey s.selectedLote)).any
        (fun r => decide (r.mesAno = periodoDe data)) = false := by
      simpa using h4
    rw [handleSave_of_ok_create s data id now h1 h2 h3 h4']
    simp only [updateAllData, getOrEmpty_setProp_self]
    refine ⟨fun _ => ⟨_, rfl⟩, ?_⟩
    intro r _ hsel
    rcases hsel with ⟨hf, _⟩ | ⟨_, heq⟩
    · simp at hf
    · have := List.append_cancel_left heq
      simp only [List.cons.injEq, and_true] at this
      subst this
      simp [novoRegistro, parseData]

theorem formAbril_aceito : (handleSave estadoLote12 formAbril none 1743500000000).alertas = [] := by
  rw [handleSave_alertas_nil_iff]
  refine ⟨by decide, ?_, by decide⟩
  show JSNum.lt (parseFloat "130".toList) (parseFloat "100".toList) = false
  rw [parseFloat_130, parseFloat_100]
  simp [JSNum.lt]
  norm_num

/-- Instance of `handleSave_stores_formula`: creating April 2025 for lot 12. -/
theorem handleSave_stores_formula_witness :
    (handleSave estadoLote12 formAbril none 1743500000000).alertas = [] ∧
    ((idTruthy none = false →
      ∃ r, getOrEmpty (handleSave estadoLote12 formAbril none 1743500000000).state.allData
          (propKey estadoLote12.selectedLote) =
        getOrEmpty estadoLote12.allData (propKey estadoLote12.selectedLote) ++ [r]) ∧
    ∀ r ∈ getOrEmpty (handleSave estadoLote12 formAbril none 1743500000000).state.allData
        (propKey estadoLote12.selectedLote),
      ((idTruthy none = true ∧ some r.id = none) ∨
        (idTruthy none = false ∧
          getOrEmpty (handleSave estadoLote12 formAbril none 1743500000000).state.allData
              (propKey estadoLote12.selectedLote) =
            getOrEmpty estadoLote12.allData (propKey estadoLote12.selectedLote) ++ [r])) →
      r.leituraAnterior = formAbril.leituraAnterior.parseFloat ∧
      r.leituraAtual = formAbril.leituraAtual.parseFloat ∧
      r.tarifa = formAbril.tarifa.parseFloat ∧
      r.consumo = r.leituraAtual.sub r.leituraAnterior ∧
      r.custo = r.consumo.mul r.tarifa) :=
  ⟨formAbril_aceito,
    handleSave_stores_formula estadoLote12 formAbril none 1743500000000 formAbril_aceito⟩

/-! ## C2 -/

/-- C2: a complete numeric input whose current reading is below the previous one is
rejected with the negative-consumption alert, whether creating or editing; no store
write is issued and the state, hence the lot's record list and the whole ledger, is
unchanged. -/
theorem handleSave_rejects_negative_consumption (s : LoteManager) (data : FormData)
    (id : Option Nat) (now : Nat)
    (hc : camposInvalidos (parseData data) = false)
    (hlt : data.leituraAtual.parseFloat.lt data.leituraAnterior.parseFloat = true) :
    (handleSave s data id now).alertas = [.leituraMenorQueAnterior] ∧
    (handleSave s data id now).escritas = [] ∧
    (handleSave s data id now).state = s ∧
    (handleSave s data id now).state.allData = s.allData ∧
    getOrEmpty (handleSave s data id now).state.allData (propKey s.selectedLote) =
      getOrEmpty s.allData (propKey s.selectedLote) := by
  rw [handleSave_of_menor s data id now hc hlt]
  simp [rejeitar]

theorem formAbrilMenor_lt :
    formAbrilMenor.leituraAtual.parseFloat.lt formAbrilMenor.leituraAnterior.parseFloat = true := by
  show JSNum.lt (parseFloat "80".toList) (parseFloat "100".toList) = true
  rw [parseFloat_80, parseFloat_100]
  simp [JSNum.lt]
  norm_num

/-- Instance of `handleSave_rejects_negative_consumption`: reading 80 after 100. -/
theorem handleSave_rejects_negative_consumption_witness :
    camposInvalidos (parseData formAbrilMenor) = false ∧
    formAbrilMenor.leituraAtual.parseFloat.lt formAbrilMenor.leituraAnterior.parseFloat = true ∧
    (handleSave estadoLote12 formAbrilMenor none 1743500000000).alertas =
      [.leituraMenorQueAnterior] ∧
    (handleSave estadoLote12 formAbrilMenor none 1743500000000).escritas = [] ∧
    (handleSave estadoLote12 formAbrilMenor none 1743500000000).state = estadoLote12 ∧
    (handleSave estadoLote12 formAbrilMenor none 1743500000000).state.allData =
      estadoLote12.allData ∧
    getOrEmpty (handleSave estadoLote12 formAbrilMenor none 1743500000000).state.allData
        (propKey estadoLote12.selectedLote) =
      getOrEmpty estadoLote12.allData (propKey estadoLote12.selectedLote) :=
  ⟨by decide, formAbrilMenor_lt,
    handleSave_rejects_negative_consumption estadoLote12 formAbrilMenor none 1743500000000
      (by decide) formAbrilMenor_lt⟩

/-! ## C3 -/

theorem formMarcoMenor_lt :
    formMarcoMenor.leituraAtual.parseFloat.lt formMarcoMenor.leituraAnterior.parseFloat = true := by
  show JSNum.lt (parseFloat "80".toList) (parseFloat "100".toList) = true
  rw [parseFloat_80, parseFloat_100]
  simp [JSNum.lt]
  norm_num

theorem formMarco_not_lt :
    formMarco.leituraAtual.parseFloat.lt formMarco.leituraAnterior.parseFloat = false := by
  show JSNum.lt (parseFloat "130".toList) (parseFloat "100".toList) = false
  rw [parseFloat_130, parseFloat_100]
  simp [JSNum.lt]
  norm_num

/-- C3, as stated, fails: lot 12 already holds March 2025, and a create for March 2025
whose current reading 80 is below the previous reading 100 is rejected with the
negative-consumption alert, not with the duplicate-period alert. -/
theorem handleSave_duplicate_masked_by_earlier_check :
    (∃ r ∈ getOrEmpty estadoLote12.allData (propKey estadoLote12.selectedLote),
      r.mesAno = periodoDe formMarcoMenor) ∧
    (handleSave estadoLote12 formMarcoMenor none 1743500000000).alertas =
      [.leituraMenorQueAnterior] ∧
    (handleSave estadoLote12 formMarcoMenor none 1743500000000).alertas ≠
      [.periodoDuplicado] := by
  refine ⟨⟨registroMarco, by decide, by decide⟩, ?_⟩
  rw [handleSave_of_menor estadoLote12 formMarcoMenor none 1743500000000 (by decide)
    formMarcoMenor_lt]
  simp [rejeitar]

/-- C3, amended: a save whose period collides with a record of the lot (any record on
a create, a record with another id on an edit) is always rejected with the state
unchanged and no store write; the alert is the duplicate-period one whenever the input
passes the two earlier validations. An edit whose period is held by no record other
than the edited one passes the duplicate check. -/
theorem handleSave_duplicate_period (s : LoteManager) (data : FormData) (id : Option Nat)
    (now : Nat) :
    (((idTruthy id = false ∧
        ∃ r ∈ getOrEmpty s.allData (propKey s.selectedLote), r.mesAno = periodoDe data) ∨
      (idTruthy id = true ∧
        ∃ r ∈ getOrEmpty s.allData (propKey s.selectedLote),
          r.mesAno = periodoDe data ∧ some r.id ≠ id)) →
      (handleSave s data id now).state = s ∧
      (handleSave s data id now).escritas = [] ∧
      (handleSave s data id now).alertas ≠ [] ∧
      (camposInvalidos (parseData data) = false →
        data.leituraAtual.parseFloat.lt data.leituraAnterior.parseFloat = false →
        (handleSave s data id now).alertas = [.periodoDuplicado])) ∧
    (idTruthy id = true →
      camposInvalidos (parseData data) = false →
      data.leituraAtual.parseFloat.lt data.leituraAnterior.parseFloat = false →
      (∀ r ∈ getOrEmpty s.allData (propKey s.selectedLote),
        r.mesAno = periodoDe data → some r.id = id) →
      (handleSave s data id now).alertas = []) := by
  constructor
  · intro hdup
    cases h1 : camposInvalidos (parseData data) with
    | true => simp [handleSave_of_invalidos s data id now h1, rejeitar]
    | false =>
      cases h2 : data.leituraAtual.parseFloat.lt data.leituraAnterior.parseFloat with
      | true => simp [handleSave_of_menor s data id now h1 h2, rejeitar]
      | false =>
        rcases hdup with ⟨h3, r, hr, hp⟩ | ⟨h3, r, hr, hp, hne⟩
        · have h4 : (getOrEmpty s.allData (propKey s.selectedLote)).any
              (fun r => decide (r.mesAno = periodoDe data)) = true := by
            rw [List.any_eq_true]
            exact ⟨r, hr, by simp [hp]⟩
          simp [handleSave_of_dup_create s data id now h1 h2 h3 h4, rejeitar]
        · have h4 : (getOrEmpty s.allData (propKey s.selectedLote)).any
              (fun r => decide (r.mesAno = periodoDe data) && idDiffers r.id id) = true := by
            rw [List.any_eq_true]
            exact ⟨r, hr, by simp [hp, idDiffers, hne]⟩
          simp [handleSave_of_dup_edit s data id now h1 h2 h3 h4, rejeitar]
  · intro h3 h1 h2 hown
    rw [handleSave_alertas_nil_iff]
    refine ⟨h1, h2, ?_⟩
    rw [List.any_eq_false]
    intro r hr
    simp only [h3, if_true, idDiffers]
    by_cases hp : r.mesAno = periodoDe data
    · simp [hown r hr hp]
    · simp [hp]

/-- Instance of `handleSave_duplicate_period`: with March and April 2025 stored for lot
12, a create for March and an edit of the April record to March are rejected as
duplicates, and an edit of the March record that keeps March is accepted. -/
theorem handleSave_duplicate_period_witness :
    (handleSave estadoDoisMeses formMarco none 1746000000000).alertas = [.periodoDuplicado] ∧
    (handleSave estadoDoisMeses formMarco none 1746000000000).state = estadoDoisMeses ∧
    (handleSave estadoDoisMeses formMarco (some registroAbril.id) 1746000000000).alertas =
      [.periodoDuplicado] ∧
    (handleSave estadoDoisMeses formMarco (some registroAbril.id) 1746000000000).state =
      estadoDoisMeses ∧
    (handleSave estadoDoisMeses formMarco (some registroMarco.id) 1746000000000).alertas = [] :=
  ⟨((handleSave_duplicate_period estadoDoisMeses formMarco none 1746000000000).1
      (Or.inl ⟨by decide, registroMarco, by decide, by decide⟩)).2.2.2 (by decide)
      formMarco_not_lt,
    ((handleSave_duplicate_period estadoDoisMeses formMarco none 1746000000000).1
      (Or.inl ⟨by decide, registroMarco, by decide, by decide⟩)).1,
    ((handleSave_duplicate_period estadoDoisMeses formMarco (some registroAbril.id)
      1746000000000).1
      (Or.inr ⟨by decide, registroMarco, by decide, by decide, by decide⟩)).2.2.2 (by decide)
      formMarco_not_lt,
    ((handleSave_duplicate_period estadoDoisMeses formMarco (some registroAbril.id)
      1746000000000).1
      (Or.inr ⟨by decide, registroMarco, by decide, by decide, by decide⟩)).1,
    (handleSave_duplicate_period estadoDoisMeses formMarco (some registroMarco.id)
      1746000000000).2 (by decide) (by decide) formMarco_not_lt (by decide)⟩

/-! ## C4 -/

theorem JSNum.isNaN_eq_true_iff (x : JSNum) : x.isNaN = true ↔ x = .nan := by
  cases x <;> simp [JSNum.isNaN]

theorem stripStart_infinity_none (c : Char) (t : JSString) (h : c ≠ 'I') :
    stripStart "Infinity".toList (c :: t) = none := by
  have : "Infinity".toList = 'I' :: "nfinity".toList := by decide
  rw [this]
  simp [stripStart, Ne.symm h]

theorem scan_none_of_head (u : JSString)
    (h : ∀ c ∈ u.head?, c.isDigit = false ∧ c ≠ '+' ∧ c ≠ '-' ∧ c ≠ '.' ∧ c ≠ 'I') :
    scanStrDecimalLiteral u = none := by
  cases u with
  | nil => decide
  | cons c t =>
    obtain ⟨hd, hp, hm, hdot, hI⟩ := h c (by simp)
    have h1 : scanSign (c :: t) = (false, c :: t) := by
      unfold scanSign
      split
      · next heq => simp at heq; exact absurd heq.1 hp
      · next heq => simp at heq; exact absurd heq.1 hm
      · rfl
    have h2 : (c :: t).takeWhile Char.isDigit = [] := by simp [List.takeWhile, hd]
    have h3 : (c :: t).dropWhile Char.isDigit = c :: t := by simp [List.dropWhile, hd]
    have h4 : scanFraction (c :: t) = ([], c :: t) := by
      unfold scanFraction
      split
      · next heq => simp at heq; exact absurd heq.1 hdot
      · rfl
    unfold scanStrDecimalLiteral
    simp only [h1, stripStart_infinity_none c t hI, h2, h3, h4]
    simp

theorem parseFloat_130abc : parseFloat "130abc".toList = .fin 130 := by
  rw [parseFloat_of_scan _ (.dec false 130 0) "abc".toList (by decide)]
  simp [StrLit.value]

theorem formLetras_aceito :
    (handleSave estadoLote12 formLetras none 1743500000000).alertas = [] := by
  rw [handleSave_alertas_nil_iff]
  refine ⟨by decide, ?_, by decide⟩
  show JSNum.lt (parseFloat "130abc".toList) (parseFloat "100".toList) = false
  rw [parseFloat_130abc, parseFloat_100]
  simp [JSNum.lt]
  norm_num

theorem formMesBranco_aceito :
    (handleSave estadoLote12 formMesBranco none 1743500000000).alertas = [] := by
  rw [handleSave_alertas_nil_iff]
  refine ⟨by decide, ?_, by decide⟩
  show JSNum.lt (parseFloat "130".toList) (parseFloat "100".toList) = false
  rw [parseFloat_130, parseFloat_100]
  simp [JSNum.lt]
  norm_num

/-- C4, as stated, fails: the current reading `130abc` is not entirely a number, yet
the save is accepted and a record with `leituraAtual = 130` is appended to lot 12.
Likewise a month made of one blank is not a number, yet the save is accepted. -/
theorem handleSave_accepts_trailing_letters :
    formLetras.leituraAtual = .texto "130abc".toList ∧
    (handleSave estadoLote12 formLetras none 1743500000000).alertas = [] ∧
    (∃ r, getOrEmpty (handleSave estadoLote12 formLetras none 1743500000000).state.allData
        "12".toList = [registroMarco, r] ∧ r.leituraAtual = .fin 130) ∧
    formMesBranco.mes = " ".toList ∧
    (handleSave estadoLote12 formMesBranco none 1743500000000).alertas = [] := by
  refine ⟨rfl, formLetras_aceito, ?_, rfl, formMesBranco_aceito⟩
  obtain ⟨h1, h2, h4⟩ := (handleSave_alertas_nil_iff _ _ _ _).1 formLetras_aceito
  have h4' : (getOrEmpty estadoLote12.allData (propKey estadoLote12.selectedLote)).any
      (fun r => decide (r.mesAno = periodoDe formLetras)) = false := by decide
  rw [handleSave_of_ok_create _ _ _ _ h1 h2 (by decide) h4']
  refine ⟨novoRegistro 1743500000000 (periodoDe formLetras)
    (formLetras.leituraAtual.parseFloat.sub formLetras.leituraAnterior.parseFloat)
    ((formLetras.leituraAtual.parseFloat.sub formLetras.leituraAnterior.parseFloat).mul
      formLetras.tarifa.parseFloat) (parseData formLetras), ?_, ?_⟩
  · show getOrEmpty (setProp estadoLote12.allData "12".toList _) "12".toList = _
    rw [getOrEmpty_setProp_self]
    rfl
  · show parseFloat "130abc".toList = .fin 130
    exact parseFloat_130abc

/-- C4, amended: `handleSave` answers with the incomplete-input alert, with the state
unchanged and no store write, exactly when the month or the year is empty or converts
to `NaN` under `Number`, or `parseFloat` of a reading or of the tariff is `NaN`. The
latter holds for the empty string and for every text whose first non-blank character
is not a digit, a sign, a dot or `I`; a text that starts with a number is read as
that number, whatever follows it. -/
theorem handleSave_incomplete_input (s : LoteManager) (data : FormData) (id : Option Nat)
    (now : Nat) :
    (handleSave s data id now =
        { state := s, alertas := [.camposIncompletos], escritas := [] } ↔
      data.mes = [] ∨ toNumber data.mes = .nan ∨ data.ano = [] ∨ toNumber data.ano = .nan ∨
      data.leituraAnterior.parseFloat = .nan ∨ data.leituraAtual.parseFloat = .nan ∨
      data.tarifa.parseFloat = .nan) ∧
    (∀ t : JSString,
      (∀ c ∈ (trimStart t).head?, c.isDigit = false ∧ c ≠ '+' ∧ c ≠ '-' ∧ c ≠ '.' ∧ c ≠ 'I') →
      (Campo.texto t).parseFloat = .nan) ∧
    (∀ (t rest : JSString) (l : StrLit),
      scanStrDecimalLiteral (trimStart t) = some (l, rest) →
      (Campo.texto t).parseFloat = l.value) := by
  refine ⟨?_, ?_, ?_⟩
  · have hchar : camposInvalidos (parseData data) = true ↔
        (data.mes = [] ∨ toNumber data.mes = .nan ∨ data.ano = [] ∨ toNumber data.ano = .nan ∨
        data.leituraAnterior.parseFloat = .nan ∨ data.leituraAtual.parseFloat = .nan ∨
        data.tarifa.parseFloat = .nan) := by
      simp only [camposInvalidos, invalidoStr, parseData, Bool.or_eq_true, decide_eq_true_eq,
        JSNum.isNaN_eq_true_iff]
      tauto
    rw [← hchar]
    constructor
    · intro h
      have ha : (handleSave s data id now).alertas = [.camposIncompletos] := by rw [h]
      cases h1 : camposInvalidos (parseData data) with
      | true => rfl
      | false =>
        exfalso
        cases h2 : data.leituraAtual.parseFloat.lt data.leituraAnterior.parseFloat with
        | true =>
          rw [handleSave_of_menor s data id now h1 h2] at ha
          simp [rejeitar] at ha
        | false =>
          cases h3 : idTruthy id with
          | true =>
            cases h4 : (getOrEmpty s.allData (propKey s.selectedLote)).any
                (fun r => decide (r.mesAno = periodoDe data) && idDiffers r.id id) with
            | true =>
              rw [handleSave_of_dup_edit s data id now h1 h2 h3 h4] at ha
              simp [rejeitar] at ha
            | false =>
              rw [handleSave_of_ok_edit s data id now h1 h2 h3 h4] at ha
              simp [updateAllData] at ha
          | false =>
            cases h4 : (getOrEmpty s.allData (propKey s.selectedLote)).any
                (fun r => decide (r.mesAno = periodoDe data)) with
            | true =>
              rw [handleSave_of_dup_create s data id now h1 h2 h3 h4] at ha
              simp [rejeitar] at ha
            | false =>
              rw [handleSave_of_ok_create s data id now h1 h2 h3 h4] at ha
              simp [updateAllData] at ha
    · intro h
      rw [handleSave_of_invalidos s data id now h]
      rfl
  · intro t ht
    show parseFloat t = .nan
    simp [parseFloat, scan_none_of_head _ ht]
  · intro t rest l h
    exact parseFloat_of_scan t l rest h

/-- Instances of `handleSave_incomplete_input`: an empty tariff and a current reading
`abc` are rejected as incomplete, and nothing is stored. -/
theorem handleSave_incomplete_input_witness :
    handleSave estadoLote12 { formAbril with tarifa := .texto [] } none 1743500000000 =
      { state := estadoLote12, alertas := [.camposIncompletos], escritas := [] } ∧
    handleSave estadoLote12 { formAbril with leituraAtual := .texto "abc".toList } none
        1743500000000 =
      { state := estadoLote12, alertas := [.camposIncompletos], escritas := [] } :=
  ⟨(handleSave_incomplete_input estadoLote12 { formAbril with tarifa := .texto [] } none
      1743500000000).1.2
      (Or.inr (Or.inr (Or.inr (Or.inr (Or.inr (Or.inr
        ((handleSave_incomplete_input estadoLote12 formAbril none 0).2.1 [] (by decide)))))))),
    (handleSave_incomplete_input estadoLote12
      { formAbril with leituraAtual := .texto "abc".toList } none 1743500000000).1.2
      (Or.inr (Or.inr (Or.inr (Or.inr (Or.inr (Or.inl
        ((handleSave_incomplete_input estadoLote12 formAbril none 0).2.1 "abc".toList
          (by decide))))))))⟩

/-! ## C5 -/

theorem updateAllData_allData (s : LoteManager) (d : Ledger) :
    (updateAllData s d).state.allData = d := rfl

/-- The ledger after any call of `handleSave`: unchanged, or the selected lot's list
replaced by the edited or extended list. -/
theorem handleSave_allData (s : LoteManager) (data : FormData) (id : Option Nat) (now : Nat) :
    (handleSave s data id now).state.allData = s.allData ∨
    (idTruthy id = true ∧
      (getOrEmpty s.allData (propKey s.selectedLote)).any
        (fun r => decide (r.mesAno = periodoDe data) && idDiffers r.id id) = false ∧
      (handleSave s data id now).state.allData =
        setProp s.allData (propKey s.selectedLote)
          ((getOrEmpty s.allData (propKey s.selectedLote)).map (fun r =>
            if some r.id = id then
              atualizado r (periodoDe data)
                (data.leituraAtual.parseFloat.sub data.leituraAnterior.parseFloat)
                ((data.leituraAtual.parseFloat.sub data.leituraAnterior.parseFloat).mul
                  data.tarifa.parseFloat)
                (parseData data)
            else r))) ∨
    (idTruthy id = false ∧
      (getOrEmpty s.allData (propKey s.selectedLote)).any
        (fun r => decide (r.mesAno = periodoDe data)) = false ∧
      (handleSave s data id now).state.allData =
        setProp s.allData (propKey s.selectedLote)
          (getOrEmpty s.allData (propKey s.selectedLote) ++
            [novoRegistro now (periodoDe data)
              (data.leituraAtual.parseFloat.sub data.leituraAnterior.parseFloat)
              ((data.leituraAtual.parseFloat.sub data.leituraAnterior.parseFloat).mul
                data.tarifa.parseFloat)
              (parseData data)])) := by
  cases h1 : camposInvalidos (parseData data) with
  | true => left; rw [handleSave_of_invalidos s data id now h1]; rfl
  | false =>
    cases h2 : data.leituraAtual.parseFloat.lt data.leituraAnterior.parseFloat with
    | true => left; rw [handleSave_of_menor s data id now h1 h2]; rfl
    | false =>
      cases h3 : idTruthy id with
      | true =>
        cases h4 : (getOrEmpty s.allData (propKey s.selectedLote)).any
            (fun r => decide (r.mesAno = periodoDe data) && idDiffers r.id id) with
        | true => left; rw [handleSave_of_dup_edit s data id now h1 h2 h3 h4]; rfl
        | false =>
          right; left
          rw [handleSave_of_ok_edit s data id now h1 h2 h3 h4]
          exact ⟨rfl, rfl, rfl⟩
      | false =>
        cases h4 : (getOrEmpty s.allData (propKey s.selectedLote)).any
            (fun r => decide (r.mesAno = periodoDe data)) with
        | true => left; rw [handleSave_of_dup_create s data id now h1 h2 h3 h4]; rfl
        | false =>
          right; right
          rw [handleSave_of_ok_create s data id now h1 h2 h3 h4]
          exact ⟨rfl, rfl, rfl⟩

theorem formMaio_not_lt :
    formMaio.leituraAtual.parseFloat.lt formMaio.leituraAnterior.parseFloat = false := by
  show JSNum.lt (parseFloat "130".toList) (parseFloat "100".toList) = false
  rw [parseFloat_130, parseFloat_100]
  simp [JSNum.lt]
  norm_num

/-- C5, as stated, fails: lot 12 holds March and April 2025 (distinct periods) under
the same id; editing that id to May 2025 is accepted and leaves two records of May
2025. -/
theorem edit_breaks_period_uniqueness_when_ids_repeat :
    ((getOrEmpty estadoIdRepetido.allData "12".toList).map (fun r => r.mesAno)).Nodup ∧
    (handleSave estadoIdRepetido formMaio (some registroMarco.id) 1746000000000).alertas = [] ∧
    (getOrEmpty (handleSave estadoIdRepetido formMaio (some registroMarco.id)
        1746000000000).state.allData "12".toList).map (fun r => r.mesAno) =
      ["2025-05".toList, "2025-05".toList] ∧
    ¬ ((getOrEmpty (handleSave estadoIdRepetido formMaio (some registroMarco.id)
        1746000000000).state.allData "12".toList).map (fun r => r.mesAno)).Nodup := by
  have hacc : (handleSave estadoIdRepetido formMaio (some registroMarco.id)
      1746000000000).alertas = [] := by
    rw [handleSave_alertas_nil_iff]
    exact ⟨by decide, formMaio_not_lt, by decide⟩
  obtain ⟨h1, h2, _⟩ := (handleSave_alertas_nil_iff _ _ _ _).1 hacc
  have hl : (getOrEmpty (handleSave estadoIdRepetido formMaio (some registroMarco.id)
        1746000000000).state.allData "12".toList).map (fun r => r.mesAno) =
      ["2025-05".toList, "2025-05".toList] := by
    rw [handleSave_of_ok_edit _ _ _ _ h1 h2 (by decide) (by decide), updateAllData_allData]
    show (getOrEmpty (setProp estadoIdRepetido.allData "12".toList _) "12".toList).map _ = _
    rw [getOrEmpty_setProp_self]
    decide
  refine ⟨by decide, hacc, hl, ?_⟩
  rw [hl]
  decide

/-- C5, amended: if the records of a lot have pairwise distinct periods then they still
have after any `handleSave`, provided that on an edit the records of the selected lot
have pairwise distinct ids; and they still have after any `handleDelete`, with no
condition on the ids. -/
theorem period_uniqueness_preserved (s : LoteManager) (data : FormData) (id : Option Nat)
    (now : Nat) (k : JSString)
    (hper : ((getOrEmpty s.allData k).map (fun r => r.mesAno)).Nodup) :
    ((idTruthy id = true →
        ((getOrEmpty s.allData (propKey s.selectedLote)).map (fun r => r.id)).Nodup) →
      ((getOrEmpty (handleSave s data id now).state.allData k).map (fun r => r.mesAno)).Nodup) ∧
    ((getOrEmpty (handleDelete s).state.allData k).map (fun r => r.mesAno)).Nodup := by
  constructor
  · intro hids
    rcases handleSave_allData s data id now with h | ⟨h3, h4, h⟩ | ⟨h3, h4, h⟩
    · rw [h]; exact hper
    · rw [h]
      by_cases hk : k = propKey s.selectedLote
      · subst hk
        rw [getOrEmpty_setProp_self, List.map_map]
        refine List.Nodup.map_on ?_ (List.Nodup.of_map _ hper)
        intro x hx y hy hxy
        rw [List.any_eq_false] at h4
        have hpx := h4 x hx
        have hpy := h4 y hy
        simp only [Function.comp] at hxy
        by_cases hcx : some x.id = id <;> by_cases hcy : some y.id = id
        · have : x.id = y.id := Option.some.inj (hcx.trans hcy.symm)
          exact List.inj_on_of_nodup_map (hids h3) hx hy this
        · rw [if_pos hcx, if_neg hcy] at hxy
          simp [atualizado] at hxy
          simp [idDiffers, hcy, ← hxy] at hpy
        · rw [if_neg hcx, if_pos hcy] at hxy
          simp [atualizado] at hxy
          simp [idDiffers, hcx, hxy] at hpx
        · rw [if_neg hcx, if_neg hcy] at hxy
          exact List.inj_on_of_nodup_map hper hx hy hxy
      · rw [getOrEmpty_setProp_ne _ _ _ _ hk]; exact hper
    · rw [h]
      by_cases hk : k = propKey s.selectedLote
      · subst hk
        rw [getOrEmpty_setProp_self, List.map_append, List.nodup_append]
        refine ⟨hper, by simp, ?_⟩
        rw [List.any_eq_false] at h4
        intro p hp1 hp2
        rw [List.mem_map] at hp1
        obtain ⟨r, hr, hrp⟩ := hp1
        simp [novoRegistro] at hp2
        have := h4 r hr
        simp [hrp, hp2] at this
      · rw [getOrEmpty_setProp_ne _ _ _ _ hk]; exact hper
  · show ((getOrEmpty (setProp s.allData (propKey s.selectedLote) _) k).map _).Nodup
    by_cases hk : k = propKey s.selectedLote
    · subst hk
      rw [getOrEmpty_setProp_self]
      have hreg : ((registros s).map (fun r => r.mesAno)).Nodup := by
        unfold registros
        cases hs : s.selectedLote with
        | none => simp
        | some l =>
          simp only
          split
          · simp
          · simpa [hs, propKey] using hper
      exact hreg.sublist (List.Sublist.map _ (List.filter_sublist _))
    · rw [getOrEmpty_setProp_ne _ _ _ _ hk]; exact hper

/-- Instance of `period_uniqueness_preserved`: lot 12 with March and April 2025, under a
create for May 2025 and under a delete. -/
theorem period_uniqueness_preserved_witness :
    ((getOrEmpty estadoDoisMeses.allData "12".toList).map (fun r => r.mesAno)).Nodup ∧
    ((getOrEmpty estadoDoisMeses.allData (propKey estadoDoisMeses.selectedLote)).map
      (fun r => r.id)).Nodup ∧
    ((getOrEmpty (handleSave estadoDoisMeses formMaio none 1746000000000).state.allData
      "12".toList).map (fun r => r.mesAno)).Nodup ∧
    ((getOrEmpty (handleDelete estadoDoisMeses).state.allData "12".toList).map
      (fun r => r.mesAno)).Nodup :=
  ⟨by decide, by decide,
    (period_uniqueness_preserved estadoDoisMeses formMaio none 1746000000000 "12".toList
      (by decide)).1 (fun _ => by decide),
    (period_uniqueness_preserved estadoDoisMeses formMaio none 1746000000000 "12".toList
      (by decide)).2⟩

/-! ## C6 -/

/-- The fields of a record written by an accepted save. -/
theorem handleSave_stored_fields (s : LoteManager) (data : FormData) (id : Option Nat)
    (now : Nat) (h : (handleSave s data id now).alertas = []) (r : Registro)
    (hr : r ∈ getOrEmpty (handleSave s data id now).state.allData (propKey s.selectedLote))
    (hsel : (idTruthy id = true ∧ some r.id = id) ∨
      (idTruthy id = false ∧
        getOrEmpty (handleSave s data id now).state.allData (propKey s.selectedLote) =
          getOrEmpty s.allData (propKey s.selectedLote) ++ [r])) :
    r.mesAno = periodoDe data ∧
    r.leituraAnterior = data.leituraAnterior.parseFloat ∧
    r.leituraAtual = data.leituraAtual.parseFloat ∧
    r.tarifa = data.tarifa.parseFloat ∧
    r.consumo = data.leituraAtual.parseFloat.sub data.leituraAnterior.parseFloat ∧
    r.custo = (data.leituraAtual.parseFloat.sub data.leituraAnterior.parseFloat).mul
      data.tarifa.parseFloat := by
  obtain ⟨h1, h2, h4⟩ := (handleSave_alertas_nil_iff s data id now).1 h
  cases h3 : idTruthy id with
  | true =>
    simp only [h3, if_true] at h4
    rw [handleSave_of_ok_edit s data id now h1 h2 h3 h4] at hr
    simp only [updateAllData, getOrEmpty_setProp_self] at hr
    rcases hsel with ⟨_, hid⟩ | ⟨hf, _⟩
    · rw [List.mem_map] at hr
      obtain ⟨r0, _, hr0⟩ := hr
      by_cases hc : some r0.id = id
      · rw [if_pos hc] at hr0
        subst hr0
        simp [atualizado, parseData]
      · rw [if_neg hc] at hr0
        subst hr0
        exact absurd hid hc
    · simp [h3] at hf
  | false =>
    simp only [h3] at h4
    have h4' : (getOrEmpty s.allData (propKey s.selectedLote)).any
        (fun r => decide (r.mesAno = periodoDe data)) = false := by
      simpa using h4
    rw [handleSave_of_ok_create s data id now h1 h2 h3 h4'] at hsel
    simp only [updateAllData, getOrEmpty_setProp_self] at hsel
    rcases hsel with ⟨hf, _⟩ | ⟨_, heq⟩
    · simp [h3] at hf
    · have := List.append_cancel_left heq
      simp only [List.cons.injEq, and_true] at this
      subst this
      simp [novoRegistro, parseData]

theorem parseFloat_neg5 : parseFloat "-5".toList = .fin (-5) := by
  rw [parseFloat_of_scan _ (.dec true 5 0) [] (by decide)]
  simp [StrLit.value]

theorem parseFloat_3 : parseFloat "3".toList = .fin 3 := by
  rw [parseFloat_of_scan _ (.dec false 3 0) [] (by decide)]
  simp [StrLit.value]

theorem parseFloat_neg1 : parseFloat "-1".toList = .fin (-1) := by
  rw [parseFloat_of_scan _ (.dec true 1 0) [] (by decide)]
  simp [StrLit.value]

theorem parseFloat_infinity : parseFloat "Infinity".toList = .posInf := by
  rw [parseFloat_of_scan _ (.inf false) [] (by decide)]
  rfl

theorem formNegativo_aceito :
    (handleSave estadoLote12 formNegativo none 1743500000000).alertas = [] := by
  rw [handleSave_alertas_nil_iff]
  refine ⟨by decide, ?_, by decide⟩
  show JSNum.lt (parseFloat "3".toList) (parseFloat "-5".toList) = false
  rw [parseFloat_3, parseFloat_neg5]
  simp [JSNum.lt]
  norm_num

theorem formInfinito_aceito :
    (handleSave estadoLote12 formInfinito none 1743500000000).alertas = [] := by
  rw [handleSave_alertas_nil_iff]
  refine ⟨by decide, ?_, by decide⟩
  show JSNum.lt (parseFloat "Infinity".toList) (parseFloat "Infinity".toList) = false
  rw [parseFloat_infinity]
  rfl

/-- C6, as stated, fails: the readings -5 and 3 with tariff -1 are accepted and stored
with `leituraAnterior = -5`, `tarifa = -1` and `custo = -8`; and two readings typed as
`Infinity` are accepted and stored with `consumo = NaN`. -/
theorem handleSave_stores_negative_values :
    ((handleSave estadoLote12 formNegativo none 1743500000000).alertas = [] ∧
      ∃ r, getOrEmpty (handleSave estadoLote12 formNegativo none 1743500000000).state.allData
          "12".toList = [registroMarco, r] ∧
        r.leituraAnterior = .fin (-5) ∧ r.tarifa = .fin (-1) ∧ r.custo = .fin (-8) ∧
        r.leituraAnterior.lt (.fin 0) = true ∧ r.tarifa.lt (.fin 0) = true ∧
        r.custo.lt (.fin 0) = true) ∧
    ((handleSave estadoLote12 formInfinito none 1743500000000).alertas = [] ∧
      ∃ r, getOrEmpty (handleSave estadoLote12 formInfinito none 1743500000000).state.allData
          "12".toList = [registroMarco, r] ∧ r.consumo = .nan) := by
  constructor
  · refine ⟨formNegativo_aceito, ?_⟩
    obtain ⟨h1, h2, _⟩ := (handleSave_alertas_nil_iff _ _ _ _).1 formNegativo_aceito
    rw [handleSave_of_ok_create _ _ _ _ h1 h2 (by decide) (by decide)]
    refine ⟨novoRegistro 1743500000000 (periodoDe formNegativo)
      (formNegativo.leituraAtual.parseFloat.sub formNegativo.leituraAnterior.parseFloat)
      ((formNegativo.leituraAtual.parseFloat.sub formNegativo.leituraAnterior.parseFloat).mul
        formNegativo.tarifa.parseFloat) (parseData formNegativo), ?_, ?_⟩
    · show getOrEmpty (setProp estadoLote12.allData "12".toList _) "12".toList = _
      rw [getOrEmpty_setProp_self]
      rfl
    · have ha : formNegativo.leituraAnterior.parseFloat = .fin (-5) := parseFloat_neg5
      have hb : formNegativo.leituraAtual.parseFloat = .fin 3 := parseFloat_3
      have ht : formNegativo.tarifa.parseFloat = .fin (-1) := parseFloat_neg1
      simp only [novoRegistro, parseData, ha, hb, ht]
      simp only [JSNum.sub, JSNum.neg, JSNum.add, JSNum.mul, JSNum.lt]
      norm_num
  · refine ⟨formInfinito_aceito, ?_⟩
    obtain ⟨h1, h2, _⟩ := (handleSave_alertas_nil_iff _ _ _ _).1 formInfinito_aceito
    rw [handleSave_of_ok_create _ _ _ _ h1 h2 (by decide) (by decide)]
    refine ⟨novoRegistro 1743500000000 (periodoDe formInfinito)
      (formInfinito.leituraAtual.parseFloat.sub formInfinito.leituraAnterior.parseFloat)
      ((formInfinito.leituraAtual.parseFloat.sub formInfinito.leituraAnterior.parseFloat).mul
        formInfinito.tarifa.parseFloat) (parseData formInfinito), ?_, ?_⟩
    · show getOrEmpty (setProp estadoLote12.allData "12".toList _) "12".toList = _
      rw [getOrEmpty_setProp_self]
      rfl
    · have ha : formInfinito.leituraAnterior.parseFloat = .posInf := parseFloat_infinity
      have hb : formInfinito.leituraAtual.parseFloat = .posInf := parseFloat_infinity
      simp only [novoRegistro, ha, hb]
      rfl

theorem JSNum.ge_of_not_lt (a b : JSNum) (ha : a ≠ .nan) (hb : b ≠ .nan)
    (h : a.lt b = false) : a.ge b = true := by
  cases a <;> cases b <;> simp_all [JSNum.ge, JSNum.isNaN]

theorem JSNum.sub_ge_zero (a b : JSNum) (ha : a ≠ .nan) (hb : b ≠ .nan)
    (h : b.lt a = false) (h1 : ¬ (a = .posInf ∧ b = .posInf))
    (h2 : ¬ (a = .negInf ∧ b = .negInf)) : (b.sub a).ge (.fin 0) = true := by
  cases a <;> cases b <;>
    simp_all [JSNum.sub, JSNum.neg, JSNum.add, JSNum.ge, JSNum.isNaN, JSNum.lt]

theorem JSNum.mul_ge_zero (c t : JSNum) (hc : c.ge (.fin 0) = true)
    (ht : t.ge (.fin 0) = true) (h1 : ¬ (c = .fin 0 ∧ t = .posInf))
    (h2 : ¬ (c = .posInf ∧ t = .fin 0)) : (c.mul t).ge (.fin 0) = true := by
  cases c with
  | nan => simp [JSNum.ge, JSNum.isNaN] at hc
  | negInf => simp [JSNum.ge, JSNum.isNaN, JSNum.lt] at hc
  | posInf =>
    cases t with
    | nan => simp [JSNum.ge, JSNum.isNaN] at ht
    | negInf => simp [JSNum.ge, JSNum.isNaN, JSNum.lt] at ht
    | posInf => simp [JSNum.mul, JSNum.signo, JSNum.ge, JSNum.isNaN, JSNum.lt]
    | fin q =>
      have hq : 0 ≤ q := by simpa [JSNum.ge, JSNum.isNaN, JSNum.lt] using ht
      have hq0 : q ≠ 0 := fun e => h2 ⟨rfl, by rw [e]⟩
      have hq1 : ¬ q < 0 := not_lt.mpr hq
      simp [JSNum.mul, JSNum.signo, JSNum.ge, JSNum.isNaN, JSNum.lt, hq0, hq1]
  | fin p =>
    have hp : 0 ≤ p := by simpa [JSNum.ge, JSNum.isNaN, JSNum.lt] using hc
    cases t with
    | nan => simp [JSNum.ge, JSNum.isNaN] at ht
    | negInf => simp [JSNum.ge, JSNum.isNaN, JSNum.lt] at ht
    | posInf =>
      have hp0 : p ≠ 0 := fun e => h1 ⟨by rw [e], rfl⟩
      have hp1 : ¬ p < 0 := not_lt.mpr hp
      simp [JSNum.mul, JSNum.signo, JSNum.ge, JSNum.isNaN, JSNum.lt, hp0, hp1]
    | fin q =>
      have hq : 0 ≤ q := by simpa [JSNum.ge, JSNum.isNaN, JSNum.lt] using ht
      simpa [JSNum.mul, JSNum.ge, JSNum.isNaN, JSNum.lt] using mul_nonneg hp hq

/-- C6, amended: every record that an accepted save stores has readings and tariff that
are not `NaN` and a current reading that is `>=` the previous one; its `consumo` is
`>= 0` (a finite value or `Infinity`) unless both readings are the same infinity; and its
`custo` is `>= 0` whenever its `consumo` and its `tarifa` are `>= 0`, unless one of the
two is `0` and the other `Infinity`. No lower bound is imposed on the previous reading
or on the tariff. The bounds are on the stored values themselves, so they do not depend
on the difference or the product being computed without rounding or overflow. -/
theorem handleSave_stored_record_bounds (s : LoteManager) (data : FormData) (id : Option Nat)
    (now : Nat) (h : (handleSave s data id now).alertas = []) (r : Registro)
    (hr : r ∈ getOrEmpty (handleSave s data id now).state.allData (propKey s.selectedLote))
    (hsel : (idTruthy id = true ∧ some r.id = id) ∨
      (idTruthy id = false ∧
        getOrEmpty (handleSave s data id now).state.allData (propKey s.selectedLote) =
          getOrEmpty s.allData (propKey s.selectedLote) ++ [r])) :
    r.leituraAnterior ≠ .nan ∧ r.leituraAtual ≠ .nan ∧ r.tarifa ≠ .nan ∧
    r.leituraAtual.lt r.leituraAnterior = false ∧
    r.leituraAtual.ge r.leituraAnterior = true ∧
    (¬ (r.leituraAnterior = .posInf ∧ r.leituraAtual = .posInf) →
      ¬ (r.leituraAnterior = .negInf ∧ r.leituraAtual = .negInf) →
      r.consumo.ge (.fin 0) = true) ∧
    (r.consumo.ge (.fin 0) = true → r.tarifa.ge (.fin 0) = true →
      ¬ (r.consumo = .fin 0 ∧ r.tarifa = .posInf) →
      ¬ (r.consumo = .posInf ∧ r.tarifa = .fin 0) →
      r.custo.ge (.fin 0) = true) := by
  obtain ⟨_, hA, hB, hT, hC, hK⟩ := handleSave_stored_fields s data id now h r hr hsel
  obtain ⟨h1, h2, _⟩ := (handleSave_alertas_nil_iff s data id now).1 h
  simp only [camposInvalidos, parseData, Bool.or_eq_false_iff] at h1
  obtain ⟨⟨⟨⟨_, _⟩, hnA⟩, hnB⟩, hnT⟩ := h1
  rw [← hA] at hnA h2 hC hK
  rw [← hB] at hnB h2 hC hK
  rw [← hT] at hnT hK
  have nA : r.leituraAnterior ≠ .nan := by
    intro e; rw [e] at hnA; exact absurd hnA (by decide)
  have nB : r.leituraAtual ≠ .nan := by
    intro e; rw [e] at hnB; exact absurd hnB (by decide)
  have nT : r.tarifa ≠ .nan := by
    intro e; rw [e] at hnT; exact absurd hnT (by decide)
  refine ⟨nA, nB, nT, h2, JSNum.ge_of_not_lt _ _ nB nA h2, ?_, ?_⟩
  · intro e1 e2
    rw [hC]
    exact JSNum.sub_ge_zero _ _ nA nB h2 e1 e2
  · intro hc ht e1 e2
    rw [← hC] at hK
    rw [hK]
    exact JSNum.mul_ge_zero _ _ hc ht e1 e2

/-- Instance of `handleSave_stored_record_bounds`: the record created for April 2025 in
lot 12 from readings 100 and 130 and tariff 5 has `consumo >= 0` and `custo >= 0`. -/
theorem handleSave_stored_record_bounds_witness :
    ∃ r, r ∈ getOrEmpty (handleSave estadoLote12 formAbril none 1743500000000).state.allData
        (propKey estadoLote12.selectedLote) ∧
      r.leituraAnterior = .fin 100 ∧ r.leituraAtual = .fin 130 ∧ r.tarifa = .fin 5 ∧
      r.leituraAtual.ge r.leituraAnterior = true ∧
      r.consumo.ge (.fin 0) = true ∧ r.custo.ge (.fin 0) = true := by
  obtain ⟨h1, h2, _⟩ := (handleSave_alertas_nil_iff _ _ _ _).1 formAbril_aceito
  have hl : getOrEmpty (handleSave estadoLote12 formAbril none 1743500000000).state.allData
        (propKey estadoLote12.selectedLote) =
      getOrEmpty estadoLote12.allData (propKey estadoLote12.selectedLote) ++
        [novoRegistro 1743500000000 (periodoDe formAbril)
          (formAbril.leituraAtual.parseFloat.sub formAbril.leituraAnterior.parseFloat)
          ((formAbril.leituraAtual.parseFloat.sub formAbril.leituraAnterior.parseFloat).mul
            formAbril.tarifa.parseFloat) (parseData formAbril)] := by
    rw [handleSave_of_ok_create _ _ _ _ h1 h2 (by decide) (by decide), updateAllData_allData,
      getOrEmpty_setProp_self]
  have hm : novoRegistro 1743500000000 (periodoDe formAbril)
          (formAbril.leituraAtual.parseFloat.sub formAbril.leituraAnterior.parseFloat)
          ((formAbril.leituraAtual.parseFloat.sub formAbril.leituraAnterior.parseFloat).mul
            formAbril.tarifa.parseFloat) (parseData formAbril) ∈
      getOrEmpty (handleSave estadoLote12 formAbril none 1743500000000).state.allData
        (propKey estadoLote12.selectedLote) := by
    rw [hl]; simp
  have hb := handleSave_stored_record_bounds estadoLote12 formAbril none 1743500000000
    formAbril_aceito _ hm (Or.inr ⟨by decide, hl⟩)
  have hA : (novoRegistro 1743500000000 (periodoDe formAbril)
          (formAbril.leituraAtual.parseFloat.sub formAbril.leituraAnterior.parseFloat)
          ((formAbril.leituraAtual.parseFloat.sub formAbril.leituraAnterior.parseFloat).mul
            formAbril.tarifa.parseFloat) (parseData formAbril)).leituraAnterior = .fin 100 :=
    parseFloat_100
  have hB : (novoRegistro 1743500000000 (periodoDe formAbril)
          (formAbril.leituraAtual.parseFloat.sub formAbril.leituraAnterior.parseFloat)
          ((formAbril.leituraAtual.parseFloat.sub formAbril.leituraAnterior.parseFloat).mul
            formAbril.tarifa.parseFloat) (parseData formAbril)).leituraAtual = .fin 130 :=
    parseFloat_130
  have hT : (novoRegistro 1743500000000 (periodoDe formAbril)
          (formAbril.leituraAtual.parseFloat.sub formAbril.leituraAnterior.parseFloat)
          ((formAbril.leituraAtual.parseFloat.sub formAbril.leituraAnterior.parseFloat).mul
            formAbril.tarifa.parseFloat) (parseData formAbril)).tarifa = .fin 5 :=
    parseFloat_5
  have hc := hb.2.2.2.2.2.1 (by rw [hA]; simp) (by rw [hA]; simp)
  have ht : (novoRegistro 1743500000000 (periodoDe formAbril)
          (formAbril.leituraAtual.parseFloat.sub formAbril.leituraAnterior.parseFloat)
          ((formAbril.leituraAtual.parseFloat.sub formAbril.leituraAnterior.parseFloat).mul
            formAbril.tarifa.parseFloat) (parseData formAbril)).tarifa.ge (.fin 0) = true := by
    rw [hT]
    simp [JSNum.ge, JSNum.isNaN, JSNum.lt]
  exact ⟨_, hm, hA, hB, hT, hb.2.2.2.2.1, hc,
    hb.2.2.2.2.2.2 hc ht (by rw [hT]; simp) (by rw [hT]; simp)⟩

/-! ## C7 -/

/-- C7: a successful edit with id `i` keeps the length and the order of the lot's record
list; at each position, a record with another id is unchanged, and a record with id `i`
keeps its id and takes the period, the parsed readings and tariff of the input and the
`consumo` and `custo` computed from them. -/
theorem handleSave_edit_in_place (s : LoteManager) (data : FormData) (i now : Nat)
    (hi : i ≠ 0) (h : (handleSave s data (some i) now).alertas = []) :
    (getOrEmpty (handleSave s data (some i) now).state.allData (propKey s.selectedLote)).length =
      (getOrEmpty s.allData (propKey s.selectedLote)).length ∧
    ∀ (j : Nat) (r : Registro), (getOrEmpty s.allData (propKey s.selectedLote))[j]? = some r →
      (r.id ≠ i →
        (getOrEmpty (handleSave s data (some i) now).state.allData
          (propKey s.selectedLote))[j]? = some r) ∧
      (r.id = i →
        ∃ r2, (getOrEmpty (handleSave s data (some i) now).state.allData
            (propKey s.selectedLote))[j]? = some r2 ∧
          r2.id = i ∧ r2.mesAno = data.ano ++ '-' :: data.mes ∧
          r2.mes = some data.mes ∧ r2.ano = some data.ano ∧
          r2.leituraAnterior = data.leituraAnterior.parseFloat ∧
          r2.leituraAtual = data.leituraAtual.parseFloat ∧
          r2.tarifa = data.tarifa.parseFloat ∧
          r2.consumo = r2.leituraAtual.sub r2.leituraAnterior ∧
          r2.custo = r2.consumo.mul r2.tarifa) := by
  obtain ⟨h1, h2, h4⟩ := (handleSave_alertas_nil_iff s data (some i) now).1 h
  have h3 : idTruthy (some i) = true := by simp [idTruthy, hi]
  simp only [h3, if_true] at h4
  rw [handleSave_of_ok_edit s data (some i) now h1 h2 h3 h4, updateAllData_allData,
    getOrEmpty_setProp_self]
  refine ⟨List.length_map _ _, ?_⟩
  intro j r hj
  rw [List.getElem?_map, hj]
  constructor
  · intro hne
    have : ¬ (some r.id = some i) := by simpa using hne
    simp only [Option.map_some', if_neg this]
  · intro he
    have : some r.id = some i := by rw [he]
    simp only [Option.map_some', if_pos this]
    refine ⟨_, rfl, ?_⟩
    simp [atualizado, parseData, periodoDe, he]

theorem formMarco_edit_aceito :
    (handleSave estadoDoisMeses formMarco (some registroMarco.id) 1746000000000).alertas = [] := by
  rw [handleSave_alertas_nil_iff]
  exact ⟨by decide, formMarco_not_lt, by decide⟩

/-- Instance of `handleSave_edit_in_place`: editing the March record of lot 12, which also
holds April 2025. -/
theorem handleSave_edit_in_place_witness :
    registroMarco.id ≠ 0 ∧
    (handleSave estadoDoisMeses formMarco (some registroMarco.id) 1746000000000).alertas = [] ∧
    (getOrEmpty (handleSave estadoDoisMeses formMarco (some registroMarco.id)
      1746000000000).state.allData (propKey estadoDoisMeses.selectedLote)).length = 2 ∧
    (getOrEmpty (handleSave estadoDoisMeses formMarco (some registroMarco.id)
      1746000000000).state.allData (propKey estadoDoisMeses.selectedLote))[1]? =
      some registroAbril :=
  ⟨by decide, formMarco_edit_aceito,
    (handleSave_edit_in_place estadoDoisMeses formMarco registroMarco.id 1746000000000
      (by decide) formMarco_edit_aceito).1,
    ((handleSave_edit_in_place estadoDoisMeses formMarco registroMarco.id 1746000000000
      (by decide) formMarco_edit_aceito).2 1 registroAbril (by decide)).1 (by decide)⟩

/-! ## C8 -/

/-- C8: a successful create on the selected lot key maps that key to its previous record
list (empty if the key was absent) followed by exactly one new record, whose id is the
clock value; every other key keeps its record list. -/
theorem handleSave_create_appends (s : LoteManager) (data : FormData) (id : Option Nat)
    (now : Nat) (hid : idTruthy id = false) (h : (handleSave s data id now).alertas = []) :
    ∃ r : Registro, r.id = now ∧ r.mesAno = data.ano ++ '-' :: data.mes ∧
      getProp (handleSave s data id now).state.allData (propKey s.selectedLote) =
        some (getOrEmpty s.allData (propKey s.selectedLote) ++ [r]) ∧
      (getProp s.allData (propKey s.selectedLote) = none →
        getProp (handleSave s data id now).state.allData (propKey s.selectedLote) = some [r]) ∧
      (∀ v, getProp s.allData (propKey s.selectedLote) = some v →
        getProp (handleSave s data id now).state.allData (propKey s.selectedLote) =
          some (v ++ [r])) ∧
      (∀ k, k ≠ propKey s.selectedLote →
        getProp (handleSave s data id now).state.allData k = getProp s.allData k) := by
  obtain ⟨h1, h2, h4⟩ := (handleSave_alertas_nil_iff s data id now).1 h
  simp only [hid] at h4
  have h4' : (getOrEmpty s.allData (propKey s.selectedLote)).any
      (fun r => decide (r.mesAno = periodoDe data)) = false := by
    simpa using h4
  rw [handleSave_of_ok_create s data id now h1 h2 hid h4', updateAllData_allData]
  refine ⟨_, rfl, rfl, getProp_setProp_self _ _ _, ?_, ?_, ?_⟩
  · intro hn
    rw [getProp_setProp_self]
    simp [getOrEmpty, hn]
  · intro v hv
    rw [getProp_setProp_self]
    simp [getOrEmpty, hv]
  · intro k hk
    exact getProp_setProp_ne _ _ _ _ hk

/-- Instance of `handleSave_create_appends`: creating April 2025 for lot 12. -/
theorem handleSave_create_appends_witness :
    idTruthy none = false ∧
    (handleSave estadoLote12 formAbril none 1743500000000).alertas = [] ∧
    ∃ r : Registro, r.id = 1743500000000 ∧ r.mesAno = formAbril.ano ++ '-' :: formAbril.mes ∧
      getProp (handleSave estadoLote12 formAbril none 1743500000000).state.allData
          (propKey estadoLote12.selectedLote) =
        some (getOrEmpty estadoLote12.allData (propKey estadoLote12.selectedLote) ++ [r]) ∧
      (getProp estadoLote12.allData (propKey estadoLote12.selectedLote) = none →
        getProp (handleSave estadoLote12 formAbril none 1743500000000).state.allData
          (propKey estadoLote12.selectedLote) = some [r]) ∧
      (∀ v, getProp estadoLote12.allData (propKey estadoLote12.selectedLote) = some v →
        getProp (handleSave estadoLote12 formAbril none 1743500000000).state.allData
            (propKey estadoLote12.selectedLote) =
          some (v ++ [r])) ∧
      (∀ k, k ≠ propKey estadoLote12.selectedLote →
        getProp (handleSave estadoLote12 formAbril none 1743500000000).state.allData k =
          getProp estadoLote12.allData k) :=
  ⟨by decide, formAbril_aceito,
    handleSave_create_appends estadoLote12 formAbril none 1743500000000 (by decide)
      formAbril_aceito⟩

/-! ## C9 -/

theorem mem_dadosUltimoMes (allData : Ledger) (u : JSString) (e : Entrada)
    (he : e ∈ dadosUltimoMes allData u) :
    ∃ regs, getProp allData e.loteId = some regs ∧ e.reg ∈ regs ∧ e.reg.mesAno = u := by
  unfold dadosUltimoMes at he
  rw [List.mem_filterMap] at he
  obtain ⟨loteId, _, hl⟩ := he
  cases hg : getProp allData loteId with
  | none => simp [hg] at hl
  | some regs =>
    cases hf : regs.find? (fun reg => reg.mesAno = u) with
    | none => simp [hg, hf] at hl
    | some r =>
      simp only [hg, hf, Option.bind, Option.some.injEq] at hl
      subst hl
      refine ⟨regs, hg, List.mem_of_find?_eq_some hf, ?_⟩
      have := List.find?_some hf
      simpa using this

/-- The total that `dashboardData` reports is the sum of `consumo` over entries taken
from the ledger's records. -/
theorem consumoTotal_eq_soma (allData : Ledger) :
    ∃ dados : List Entrada, (dashboardData allData).consumoTotal = somaConsumo dados ∧
      ∀ e ∈ dados, ∃ regs, getProp allData e.loteId = some regs ∧ e.reg ∈ regs := by
  unfold dashboardData
  simp only
  split
  · exact ⟨[], rfl, by simp⟩
  · split
    · exact ⟨[], rfl, by simp⟩
    · split
      · exact ⟨[], rfl, by simp⟩
      · refine ⟨dadosUltimoMes allData (ultimoMesAno allData), rfl, ?_⟩
        intro e he
        obtain ⟨regs, h1, h2, _⟩ := mem_dadosUltimoMes _ _ e he
        exact ⟨regs, h1, h2⟩

/-- The total that `dashboardData` reports: the sum of `consumo` over the latest-period
data of the ledger, or 0 when the ledger has no latest period. -/
theorem consumoTotal_eq (allData : Ledger) :
    (dashboardData allData).consumoTotal =
      if ultimoMesAno allData = [] then .fin 0
      else somaConsumo (dadosUltimoMes allData (ultimoMesAno allData)) := by
  by_cases hu : ultimoMesAno allData = []
  · rw [if_pos hu]
    unfold dashboardData
    simp only [hu, if_true]
    split <;> rfl
  · rw [if_neg hu]
    unfold dashboardData
    simp only [hu, if_false]
    split
    · next h0 =>
      have hnil : lotesOrdenados allData = [] := List.length_eq_zero.mp h0
      have hd : dadosUltimoMes allData (ultimoMesAno allData) = [] := by
        unfold dadosUltimoMes
        rw [hnil]
        rfl
      rw [hd]
      rfl
    · split
      · next hl =>
        rw [List.length_eq_zero.mp hl]
        rfl
      · rfl

/-- C9: with lot `L` selected and `recordToDelete = d`, `handleDelete` maps `L` to the
records of `L` whose id differs from `d`, in their order; exactly one record goes when
exactly one has id `d`; every other lot keeps its list; and on the resulting ledger the
`consumoTotal` of `dashboardData` is the sum of `consumo` over the latest-period data of
that ledger (0 when it has no latest period), in which every entry of lot `L` is one of
the records that remain, so none has id `d`. -/
theorem handleDelete_removes_id (s : LoteManager) (L : JSString) (d : Nat)
    (hL : s.selectedLote = some L) (hne : L ≠ []) (hd : s.recordToDelete = some d) :
    getProp (handleDelete s).state.allData L =
      some ((getOrEmpty s.allData L).filter (fun r => decide (r.id ≠ d))) ∧
    ((getOrEmpty s.allData L).countP (fun r => decide (r.id = d)) = 1 →
      (getOrEmpty (handleDelete s).state.allData L).length + 1 =
        (getOrEmpty s.allData L).length) ∧
    (∀ k, k ≠ L → getProp (handleDelete s).state.allData k = getProp s.allData k) ∧
    (dashboardData (handleDelete s).state.allData).consumoTotal =
      (if ultimoMesAno (handleDelete s).state.allData = [] then .fin 0
       else somaConsumo (dadosUltimoMes (handleDelete s).state.allData
        (ultimoMesAno (handleDelete s).state.allData))) ∧
    (∀ e ∈ dadosUltimoMes (handleDelete s).state.allData
        (ultimoMesAno (handleDelete s).state.allData),
      e.loteId = L →
        e.reg ∈ (getOrEmpty s.allData L).filter (fun r => decide (r.id ≠ d)) ∧
        e.reg.id ≠ d) ∧
    (∀ u, ∀ e ∈ dadosUltimoMes (handleDelete s).state.allData u,
      e.loteId = L → e.reg.id ≠ d) := by
  have hreg : registros s = getOrEmpty s.allData L := by
    simp [registros, hL, hne]
  have hfil : (registros s).filter (fun r => idDiffers r.id s.recordToDelete) =
      (getOrEmpty s.allData L).filter (fun r => decide (r.id ≠ d)) := by
    rw [hreg, hd]
    congr 1
    funext r
    simp [idDiffers]
  have hall : (handleDelete s).state.allData =
      setProp s.allData L ((getOrEmpty s.allData L).filter (fun r => decide (r.id ≠ d))) := by
    show setProp s.allData (propKey s.selectedLote) _ = _
    rw [hfil, hL]
    rfl
  have hget : getProp (handleDelete s).state.allData L =
      some ((getOrEmpty s.allData L).filter (fun r => decide (r.id ≠ d))) := by
    rw [hall, getProp_setProp_self]
  have hmem : ∀ e : Entrada, ∀ regs, getProp (handleDelete s).state.allData e.loteId = some regs →
      e.reg ∈ regs → e.loteId = L →
      e.reg ∈ (getOrEmpty s.allData L).filter (fun r => decide (r.id ≠ d)) ∧ e.reg.id ≠ d := by
    intro e regs h1 h2 h3
    rw [h3, hget] at h1
    cases h1
    refine ⟨h2, ?_⟩
    rw [List.mem_filter] at h2
    simpa using h2.2
  refine ⟨hget, ?_, ?_, consumoTotal_eq _, ?_, ?_⟩
  · intro hc
    simp only [getOrEmpty, hget, Option.getD_some]
    have hlen := List.length_eq_countP_add_countP (fun r : Registro => decide (r.id = d))
      (getOrEmpty s.allData L)
    have hflt : ((getOrEmpty s.allData L).filter (fun r => decide (r.id ≠ d))).length =
        (getOrEmpty s.allData L).countP (fun r => ¬ (decide (r.id = d)) = true) := by
      rw [List.countP_eq_length_filter]
      congr 2
      funext r
      simp
    simp only [getOrEmpty] at hlen hflt hc ⊢
    omega
  · intro k hk
    rw [hall]
    exact getProp_setProp_ne _ _ _ _ hk
  · intro e he hl
    obtain ⟨regs, h1, h2, _⟩ := mem_dadosUltimoMes _ _ e he
    exact hmem e regs h1 h2 hl
  · intro u e he hl
    obtain ⟨regs, h1, h2, _⟩ := mem_dadosUltimoMes _ _ e he
    exact (hmem e regs h1 h2 hl).2

/-- Instance of `handleDelete_removes_id`: lot 12 holds March (`consumo` 10) and April
(`consumo` 30) and `consumoTotal` is 30; deleting the April record leaves the March
record alone, and `consumoTotal` recomputed on the resulting ledger is 10. -/
theorem handleDelete_removes_id_witness :
    estadoRemover.selectedLote = some "12".toList ∧ "12".toList ≠ [] ∧
    estadoRemover.recordToDelete = some registroAbril.id ∧
    getProp (handleDelete estadoRemover).state.allData "12".toList =
      some ((getOrEmpty estadoRemover.allData "12".toList).filter
        (fun r => decide (r.id ≠ registroAbril.id))) ∧
    (getOrEmpty estadoRemover.allData "12".toList).filter
        (fun r => decide (r.id ≠ registroAbril.id)) = [registroMarco] ∧
    (dashboardData estadoRemover.allData).consumoTotal = .fin 30 ∧
    (dashboardData (handleDelete estadoRemover).state.allData).consumoTotal = .fin 10 := by
  have h := handleDelete_removes_id estadoRemover "12".toList registroAbril.id rfl
    (by decide) rfl
  refine ⟨rfl, by decide, rfl, h.1, by decide, ?_, ?_⟩
  · rw [consumoTotal_eq]
    have hu : ultimoMesAno estadoRemover.allData = "2025-04".toList := by decide
    have hd : dadosUltimoMes estadoRemover.allData "2025-04".toList =
        [{ loteId := "12".toList, reg := registroAbril }] := by decide
    rw [hu, hd, if_neg (by decide)]
    show JSNum.fin (0 + 30) = JSNum.fin 30
    norm_num
  · rw [h.2.2.2.1]
    have hu : ultimoMesAno (handleDelete estadoRemover).state.allData = "2025-03".toList := by
      decide
    have hd : dadosUltimoMes (handleDelete estadoRemover).state.allData "2025-03".toList =
        [{ loteId := "12".toList, reg := registroMarco }] := by decide
    rw [hu, hd, if_neg (by decide)]
    show JSNum.fin (0 + 10) = JSNum.fin 10
    norm_num

/-! ## C10 -/

theorem isDigit_cases (c : Char) (h : c.isDigit = true) :
    c ∈ ['0', '1', '2', '3', '4', '5', '6', '7', '8', '9'] := by
  have h1 : 48 ≤ c.toNat ∧ c.toNat ≤ 57 := by
    simp only [Char.isDigit, Bool.and_eq_true, decide_eq_true_eq] at h
    exact ⟨h.1, h.2⟩
  have h2 : c = Char.ofNat c.toNat := by
    simp [Char.ofNat_toNat]
  obtain ⟨ha, hb⟩ := h1
  rw [h2]
  generalize c.toNat = n at ha hb
  interval_cases n <;> decide

/-- What the scanners see in a decimal digit. -/
theorem digit_facts (c : Char) (h : c.isDigit = true) :
    isWhiteSpace c = false ∧ c ≠ '+' ∧ c ≠ '-' ∧ c ≠ 'x' ∧ c ≠ 'X' ∧
    digitIn 10 c = some (c.toNat - 48) := by
  have := isDigit_cases c h
  simp only [List.mem_cons, List.mem_singleton, List.not_mem_nil, or_false] at this
  rcases this with h | h | h | h | h | h | h | h | h | h <;> subst h <;> decide

theorem wf_shape (p : JSString) (h : periodoBemFormado p = true) :
    ∃ y1 y2 y3 y4 m1 m2 : Char, p = [y1, y2, y3, y4, '-', m1, m2] ∧
      y1.isDigit = true ∧ y2.isDigit = true ∧ y3.isDigit = true ∧ y4.isDigit = true ∧
      m1.isDigit = true ∧ m2.isDigit = true ∧
      1 ≤ digitsVal [m1, m2] ∧ digitsVal [m1, m2] ≤ 12 := by
  unfold periodoBemFormado at h
  split at h
  · next y1 y2 y3 y4 m1 m2 =>
    simp only [List.all_cons, List.all_nil, Bool.and_true, Bool.and_eq_true,
      decide_eq_true_eq] at h
    obtain ⟨⟨⟨h1, h2, h3, h4, h5, h6⟩, h7⟩, h8⟩ := h
    exact ⟨y1, y2, y3, y4, m1, m2, rfl, h1, h2, h3, h4, h5, h6, h7, h8⟩
  · simp at h

theorem scanSign_digit (c : Char) (t : JSString) (h : c.isDigit = true) :
    scanSign (c :: t) = (false, c :: t) := by
  obtain ⟨_, hp, hm, _⟩ := digit_facts c h
  unfold scanSign
  split
  · next heq => simp at heq; exact absurd heq.1 hp
  · next heq => simp at heq; exact absurd heq.1 hm
  · rfl

theorem scanRadix_digits (c d : Char) (t : JSString) (hd : d.isDigit = true) :
    scanRadix (c :: d :: t) = (10, c :: d :: t) := by
  obtain ⟨_, _, _, hx, hX, _⟩ := digit_facts d hd
  unfold scanRadix
  split
  · next heq => simp at heq; exact absurd heq.2.1 hx
  · next heq => simp at heq; exact absurd heq.2.1 hX
  · rfl

theorem parseInt_two (a b : Char) (ha : a.isDigit = true) (hb : b.isDigit = true) :
    parseInt [a, b] = some (digitsVal [a, b] : Int) := by
  obtain ⟨wa, _, _, _, _, da⟩ := digit_facts a ha
  obtain ⟨_, _, _, _, _, db⟩ := digit_facts b hb
  have ht : trimStart [a, b] = [a, b] := by simp [trimStart, List.dropWhile, wa]
  unfold parseInt
  simp only [ht, scanSign_digit a [b] ha, scanRadix_digits a b [] hb]
  simp [List.takeWhile, da, db, radixVal, digitsVal]

theorem parseInt_four (a b c d : Char) (ha : a.isDigit = true) (hb : b.isDigit = true)
    (hc : c.isDigit = true) (hd : d.isDigit = true) :
    parseInt [a, b, c, d] = some (digitsVal [a, b, c, d] : Int) := by
  obtain ⟨wa, _, _, _, _, da⟩ := digit_facts a ha
  obtain ⟨_, _, _, _, _, db⟩ := digit_facts b hb
  obtain ⟨_, _, _, _, _, dc⟩ := digit_facts c hc
  obtain ⟨_, _, _, _, _, dd⟩ := digit_facts d hd
  have ht : trimStart [a, b, c, d] = [a, b, c, d] := by simp [trimStart, List.dropWhile, wa]
  unfold parseInt
  simp only [ht, scanSign_digit a [b, c, d] ha, scanRadix_digits a b [c, d] hb]
  simp [List.takeWhile, da, db, dc, dd, radixVal, digitsVal]

theorem split_wf (y1 y2 y3 y4 m1 m2 : Char)
    (h1 : y1.isDigit = true) (h2 : y2.isDigit = true) (h3 : y3.isDigit = true)
    (h4 : y4.isDigit = true) (h5 : m1.isDigit = true) (h6 : m2.isDigit = true) :
    split '-' [y1, y2, y3, y4, '-', m1, m2] = [[y1, y2, y3, y4], [m1, m2]] := by
  have e1 := (digit_facts y1 h1).2.2.1
  have e2 := (digit_facts y2 h2).2.2.1
  have e3 := (digit_facts y3 h3).2.2.1
  have e4 := (digit_facts y4 h4).2.2.1
  have e5 := (digit_facts m1 h5).2.2.1
  have e6 := (digit_facts m2 h6).2.2.1
  simp [split, e1, e2, e3, e4, e5, e6]

theorem dayFromYear_succ (y : Int) : dayFromYear y + 365 ≤ dayFromYear (y + 1) := by
  unfold dayFromYear
  omega

theorem dayFromYear_mono (y : Int) (n : Nat) : dayFromYear y + 365 * n ≤ dayFromYear (y + n) := by
  induction n with
  | zero => simp
  | succ k ih =>
    have := dayFromYear_succ (y + k)
    have e : y + ((k + 1 : Nat) : Int) = y + k + 1 := by push_cast; ring
    rw [e]
    push_cast
    omega

theorem daysBeforeMonth_bounds (y : Int) (m : Nat) (h1 : 1 ≤ m) (h2 : m ≤ 12) :
    0 ≤ daysBeforeMonth y m ∧ daysBeforeMonth y m ≤ 335 := by
  interval_cases m <;> simp only [daysBeforeMonth] <;> split <;> omega

theorem daysBeforeMonth_lt (y : Int) (m n : Nat) (h1 : 1 ≤ m) (h2 : m < n) (h3 : n ≤ 12) :
    daysBeforeMonth y m < daysBeforeMonth y n := by
  have hm : m ≤ 11 := by omega
  cases hl : isLeap y <;> interval_cases m <;> interval_cases n <;>
    simp [daysBeforeMonth, hl]

/-- The first days of two well-formed periods are ordered as the periods are, year
first and month second. -/
theorem diaDoPeriodo_le_iff (a b : JSString)
    (ha1 : 1 ≤ mesDe a) (ha2 : mesDe a ≤ 12) (hb1 : 1 ≤ mesDe b) (hb2 : mesDe b ≤ 12) :
    diaDoPeriodo a ≤ diaDoPeriodo b ↔
      (anoDe a < anoDe b ∨ (anoDe a = anoDe b ∧ mesDe a ≤ mesDe b)) := by
  unfold diaDoPeriodo
  have key : ∀ (y z : Nat) (m n : Nat), 1 ≤ m → m ≤ 12 → 1 ≤ n → n ≤ 12 → y < z →
      dayFromYear y + daysBeforeMonth y m < dayFromYear z + daysBeforeMonth z n := by
    intro y z m n hm1 hm2 hn1 hn2 hyz
    obtain ⟨k, hk⟩ : ∃ k : Nat, z = y + 1 + k := ⟨z - (y + 1), by omega⟩
    have s1 := dayFromYear_succ (y : Int)
    have s2 := dayFromYear_mono ((y : Int) + 1) k
    have e : ((z : Nat) : Int) = (y : Int) + 1 + (k : Int) := by rw [hk]; push_cast; ring
    rw [e]
    have b1 := daysBeforeMonth_bounds (y : Int) m hm1 hm2
    have b2 := daysBeforeMonth_bounds ((y : Int) + 1 + (k : Int)) n hn1 hn2
    omega
  rcases Nat.lt_trichotomy (anoDe a) (anoDe b) with h | h | h
  · have := key _ _ _ _ ha1 ha2 hb1 hb2 h
    constructor
    · intro _; exact Or.inl h
    · intro _; omega
  · rw [h]
    rcases Nat.lt_trichotomy (mesDe a) (mesDe b) with g | g | g
    · have := daysBeforeMonth_lt (anoDe b : Int) _ _ ha1 g hb2
      constructor
      · intro _; exact Or.inr ⟨rfl, by omega⟩
      · intro _; omega
    · rw [g]; simp
    · have := daysBeforeMonth_lt (anoDe b : Int) _ _ hb1 g ha2
      constructor
      · intro hle; omega
      · intro hh; rcases hh with hh | ⟨_, hh⟩ <;> omega
  · have := key _ _ _ _ hb1 hb2 ha1 ha2 h
    constructor
    · intro hle; omega
    · intro hh; rcases hh with hh | ⟨hh, _⟩ <;> omega

theorem wf_mes_bounds (p : JSString) (h : periodoBemFormado p = true) :
    1 ≤ mesDe p ∧ mesDe p ≤ 12 := by
  obtain ⟨y1, y2, y3, y4, m1, m2, rfl, _, _, _, _, _, _, h7, h8⟩ := wf_shape p h
  exact ⟨h7, h8⟩

theorem dateParse_wf (p : JSString) (h : periodoBemFormado p = true) :
    dateParse (p ++ "-01".toList) = some (diaDoPeriodo p * 86400000) := by
  obtain ⟨y1, y2, y3, y4, m1, m2, rfl, h1, h2, h3, h4, h5, h6, h7, h8⟩ := wf_shape p h
  have e : [y1, y2, y3, y4, '-', m1, m2] ++ "-01".toList =
      [y1, y2, y3, y4, '-', m1, m2, '-', '0', '1'] := rfl
  have hd1 : digitsVal ['0', '1'] = 1 := by decide
  have hdim : 1 ≤ daysInMonth (digitsVal [y1, y2, y3, y4] : Int) (digitsVal [m1, m2]) := by
    unfold daysInMonth
    split
    · split <;> omega
    all_goals omega
  rw [e]
  simp only [dateParse, List.all_cons, List.all_nil, h1, h2, h3, h4, h5, h6, Bool.and_true,
    Bool.and_self, if_true, hd1, h7, h8, hdim, true_and, and_self, le_refl]
  simp [diaDoPeriodo, anoDe, mesDe]

theorem dataPosterior_wf (a b : JSString) (ha : periodoBemFormado a = true)
    (hb : periodoBemFormado b = true) :
    dataPosterior a b = decide (diaDoPeriodo b < diaDoPeriodo a) := by
  unfold dataPosterior
  rw [dateParse_wf a ha, dateParse_wf b hb]
  simp only
  congr 1
  apply propext
  constructor <;> intro h <;> omega

theorem orderedInsert_congr {α : Type} (r q : α → α → Prop) [DecidableRel r] [DecidableRel q]
    (a : α) (l : List α) (h : ∀ b ∈ l, (r a b ↔ q a b)) :
    l.orderedInsert r a = l.orderedInsert q a := by
  induction l with
  | nil => rfl
  | cons b t ih =>
    have hb := h b (by simp)
    have ht := ih (fun c hc => h c (by simp [hc]))
    by_cases hr : r a b
    · simp [List.orderedInsert, hr, hb.mp hr]
    · have hq : ¬ q a b := fun x => hr (hb.mpr x)
      simp [List.orderedInsert, hr, hq, ht]

theorem insertionSort_congr {α : Type} (r q : α → α → Prop) [DecidableRel r] [DecidableRel q]
    (l : List α) (h : ∀ a ∈ l, ∀ b ∈ l, (r a b ↔ q a b)) :
    l.insertionSort r = l.insertionSort q := by
  induction l with
  | nil => rfl
  | cons a t ih =>
    have ht := ih (fun x hx y hy => h x (by simp [hx]) y (by simp [hy]))
    simp only [List.insertionSort]
    rw [ht]
    apply orderedInsert_congr
    intro b hb
    have hb2 : b ∈ t := (List.perm_insertionSort q t).mem_iff.mp hb
    exact h a (by simp) b (by simp [hb2])

theorem pairwise_getLast {α : Type} (q : α → α → Prop) (hrefl : ∀ a, q a a) (l : List α)
    (hp : l.Pairwise q) (u : α) (hu : l.getLast? = some u) : ∀ x ∈ l, q x u := by
  induction l with
  | nil => simp
  | cons a t ih =>
    cases t with
    | nil =>
      simp at hu
      subst hu
      intro x hx
      simp at hx
      subst hx
      exact hrefl _
    | cons b t2 =>
      rw [List.getLast?_cons_cons] at hu
      rw [List.pairwise_cons] at hp
      intro x hx
      rcases List.mem_cons.mp hx with h | h
      · subst h
        exact hp.1 u (List.mem_of_getLast?_eq_some hu)
      · exact ih hp.2 hu x h

/-- On well-formed periods the date sort of `prepararProximoFormulario` ends with a
record of the latest first day. -/
theorem sort_data_last (regs : List Registro) (hne : regs ≠ [])
    (hwf : ∀ r ∈ regs, periodoBemFormado r.mesAno = true) :
    ∃ u, (sort (fun a b => dataPosterior a.mesAno b.mesAno) regs).getLast? = some u ∧
      u ∈ regs ∧ ∀ r ∈ regs, diaDoPeriodo r.mesAno ≤ diaDoPeriodo u.mesAno := by
  have hcongr : sort (fun a b => dataPosterior a.mesAno b.mesAno) regs =
      regs.insertionSort (fun a b : Registro => diaDoPeriodo a.mesAno ≤ diaDoPeriodo b.mesAno) := by
    unfold sort
    apply insertionSort_congr
    intro a ha b hb
    show dataPosterior a.mesAno b.mesAno = false ↔ _
    rw [dataPosterior_wf _ _ (hwf a ha) (hwf b hb)]
    simp
  haveI : IsTotal Registro (fun a b : Registro => diaDoPeriodo a.mesAno ≤ diaDoPeriodo b.mesAno) :=
    ⟨fun a b => le_total _ _⟩
  haveI : IsTrans Registro (fun a b : Registro => diaDoPeriodo a.mesAno ≤ diaDoPeriodo b.mesAno) :=
    ⟨fun a b c h1 h2 => le_trans h1 h2⟩
  have hs := List.sorted_insertionSort
    (fun a b : Registro => diaDoPeriodo a.mesAno ≤ diaDoPeriodo b.mesAno) regs
  have hperm := List.perm_insertionSort
    (fun a b : Registro => diaDoPeriodo a.mesAno ≤ diaDoPeriodo b.mesAno) regs
  rw [hcongr]
  have hne2 : regs.insertionSort
      (fun a b : Registro => diaDoPeriodo a.mesAno ≤ diaDoPeriodo b.mesAno) ≠ [] := by
    intro e
    rw [e] at hperm
    exact hne (List.Perm.nil_eq hperm).symm
  obtain ⟨u, hu⟩ : ∃ u, (regs.insertionSort
      (fun a b : Registro => diaDoPeriodo a.mesAno ≤ diaDoPeriodo b.mesAno)).getLast? = some u := by
    cases hg : (regs.insertionSort
      (fun a b : Registro => diaDoPeriodo a.mesAno ≤ diaDoPeriodo b.mesAno)).getLast? with
    | none => rw [List.getLast?_eq_none_iff] at hg; exact absurd hg hne2
    | some u => exact ⟨u, rfl⟩
  refine ⟨u, hu, hperm.mem_iff.mp (List.mem_of_getLast?_eq_some hu), ?_⟩
  intro r hr
  exact pairwise_getLast
    (fun a b : Registro => diaDoPeriodo a.mesAno ≤ diaDoPeriodo b.mesAno)
    (fun a => le_refl _) _ hs u hu r (hperm.mem_iff.mpr hr)

/-- The form that `proximoFormulario` builds when the date sort ends with a record of
well-formed period. -/
theorem proximoFormulario_of_last (regs : List Registro) (hoje : Hoje) (u : Registro)
    (hu : (sort (fun a b => dataPosterior a.mesAno b.mesAno) regs).getLast? = some u)
    (hw : periodoBemFormado u.mesAno = true) :
    proximoFormulario regs hoje =
      { mes := padStart2 (intToString (some
          (if mesDe u.mesAno = 12 then 1 else (mesDe u.mesAno : Int) + 1)))
        ano := intToString (some
          (if mesDe u.mesAno = 12 then (anoDe u.mesAno : Int) + 1 else (anoDe u.mesAno : Int)))
        leituraAnterior := .numero u.leituraAtual
        leituraAtual := .texto []
        tarifa := .numero u.tarifa } := by
  obtain ⟨y1, y2, y3, y4, m1, m2, hp, h1, h2, h3, h4, h5, h6, h7, h8⟩ := wf_shape _ hw
  have hy : anoDe u.mesAno = digitsVal [y1, y2, y3, y4] := by rw [hp]; rfl
  have hm : mesDe u.mesAno = digitsVal [m1, m2] := by rw [hp]; rfl
  unfold proximoFormulario
  simp only [hu, hp, split_wf y1 y2 y3 y4 m1 m2 h1 h2 h3 h4 h5 h6, List.head?_cons,
    List.tail_cons, Option.bind, parseInt_two m1 m2 h5 h6, parseInt_four y1 y2 y3 y4 h1 h2 h3 h4,
    Option.map_some']
  rw [← hp, hy, hm]
  by_cases h12 : digitsVal [m1, m2] = 12
  · simp [h12]
  · have hlt : ¬ ((12 : Int) < (digitsVal [m1, m2] : Int) + 1) := by omega
    simp [h12, hlt]

/-- C10: for a non-empty record list with well-formed `YYYY-MM` periods, in any order,
`prepararProximoFormulario` pre-fills from a record `u` of the chronologically latest
period: the month after `u`'s as two digits (`01` after month 12, with the year
incremented), the year as a decimal numeral, `leituraAnterior = u.leituraAtual`,
`tarifa = u.tarifa` and an empty `leituraAtual`. -/
theorem prepararProximoFormulario_prefill (s : LoteManager) (regs : List Registro)
    (hoje : Hoje) (hne : regs ≠ [])
    (hwf : ∀ r ∈ regs, periodoBemFormado r.mesAno = true) :
    ∃ u ∈ regs,
      (∀ r ∈ regs, anoDe r.mesAno < anoDe u.mesAno ∨
        (anoDe r.mesAno = anoDe u.mesAno ∧ mesDe r.mesAno ≤ mesDe u.mesAno)) ∧
      (prepararProximoFormulario s regs hoje).formData =
        { mes := padStart2 (intToString (some
            (if mesDe u.mesAno = 12 then 1 else (mesDe u.mesAno : Int) + 1)))
          ano := intToString (some
            (if mesDe u.mesAno = 12 then (anoDe u.mesAno : Int) + 1
             else (anoDe u.mesAno : Int)))
          leituraAnterior := .numero u.leituraAtual
          leituraAtual := .texto []
          tarifa := .numero u.tarifa } ∧
      (prepararProximoFormulario s regs hoje).formData.mes =
        [Char.ofNat (48 + (if mesDe u.mesAno = 12 then 1 else mesDe u.mesAno + 1) / 10),
         Char.ofNat (48 + (if mesDe u.mesAno = 12 then 1 else mesDe u.mesAno + 1) % 10)] ∧
      (prepararProximoFormulario s regs hoje).formData.mes ∈
        ["01".toList, "02".toList, "03".toList, "04".toList, "05".toList, "06".toList,
         "07".toList, "08".toList, "09".toList, "10".toList, "11".toList, "12".toList] := by
  obtain ⟨u, hu, hmem, hmax⟩ := sort_data_last regs hne hwf
  have hw := hwf u hmem
  have hform := proximoFormulario_of_last regs hoje u hu hw
  obtain ⟨hu1, hu2⟩ := wf_mes_bounds _ hw
  refine ⟨u, hmem, ?_, ?_, ?_, ?_⟩
  · intro r hr
    obtain ⟨hr1, hr2⟩ := wf_mes_bounds _ (hwf r hr)
    exact (diaDoPeriodo_le_iff _ _ hr1 hr2 hu1 hu2).mp (hmax r hr)
  · exact hform
  · show (proximoFormulario regs hoje).mes = _
    rw [hform]
    simp only
    generalize mesDe u.mesAno = n at hu1 hu2
    interval_cases n <;> decide
  · show (proximoFormulario regs hoje).mes ∈ _
    rw [hform]
    simp only
    generalize mesDe u.mesAno = n at hu1 hu2
    interval_cases n <;> decide

/-- Instances of `prepararProximoFormulario_prefill`, the two examples of the claim: a
single record of 2025-11 with current reading 100 and tariff 5 pre-fills 12/2025, 100
and 5; a single record of 2025-12 pre-fills 01/2026. -/
theorem prepararProximoFormulario_prefill_witness :
    (∃ u ∈ [registroNovembro],
      (prepararProximoFormulario estadoLote12 [registroNovembro] hojeJaneiro).formData =
        { mes := padStart2 (intToString (some
            (if mesDe u.mesAno = 12 then 1 else (mesDe u.mesAno : Int) + 1)))
          ano := intToString (some
            (if mesDe u.mesAno = 12 then (anoDe u.mesAno : Int) + 1
             else (anoDe u.mesAno : Int)))
          leituraAnterior := .numero u.leituraAtual
          leituraAtual := .texto []
          tarifa := .numero u.tarifa }) ∧
    (prepararProximoFormulario estadoLote12 [registroNovembro] hojeJaneiro).formData =
      { mes := "12".toList, ano := "2025".toList, leituraAnterior := .numero (.fin 100)
        leituraAtual := .texto [], tarifa := .numero (.fin 5) } ∧
    (prepararProximoFormulario estadoLote12 [registroDezembro] hojeJaneiro).formData =
      { mes := "01".toList, ano := "2026".toList, leituraAnterior := .numero (.fin 100)
        leituraAtual := .texto [], tarifa := .numero (.fin 5) } := by
  refine ⟨?_, by decide, by decide⟩
  obtain ⟨u, hu, _, hf, _⟩ := prepararProximoFormulario_prefill estadoLote12 [registroNovembro]
    hojeJaneiro (by decide) (by decide)
  exact ⟨u, hu, hf⟩

/-! ## The latest period of the dashboard -/

theorem ultimoMesAno_eq_foldl (allData : Ledger) :
    ultimoMesAno allData = (periodosLidos allData).foldl maiorPeriodo [] := by
  unfold ultimoMesAno periodosLidos
  generalize lotesOrdenados allData = ks
  generalize ([] : JSString) = acc
  induction ks generalizing acc with
  | nil => rfl
  | cons k t ih =>
    simp only [List.foldl_cons, List.flatMap_cons, List.foldl_append]
    rw [ih]
    congr 1
    rw [List.foldl_map]
    rfl

theorem utf16_ne_nil (p : JSString) (h : p ≠ []) : utf16 p ≠ [] := by
  cases p with
  | nil => exact absurd rfl h
  | cons c t =>
    unfold utf16
    simp only [List.flatMap_cons]
    split <;> simp

theorem strGt_nil (p : JSString) (h : p ≠ []) : strGt p [] = true := by
  have := utf16_ne_nil p h
  unfold strGt
  cases hu : utf16 p with
  | nil => exact absurd hu this
  | cons a t => rfl

theorem ne_nil_of_strGt (p u : JSString) (h : strGt p u = true) : p ≠ [] := by
  intro e
  subst e
  unfold strGt at h
  have e : utf16 ([] : JSString) = [] := rfl
  rw [e] at h
  cases hu : utf16 u <;> simp [hu, unitsLt] at h

theorem foldl_maior_mem (P : List JSString) (acc : JSString) :
    P.foldl maiorPeriodo acc = acc ∨ P.foldl maiorPeriodo acc ∈ P := by
  induction P generalizing acc with
  | nil => left; rfl
  | cons p t ih =>
    simp only [List.foldl_cons]
    rcases ih (maiorPeriodo acc p) with h | h
    · rw [h]
      unfold maiorPeriodo
      split
      · right; simp
      · left; rfl
    · right; simp [h]

theorem foldl_maior_ne_nil (P : List JSString) (acc : JSString)
    (h : acc ≠ [] ∨ ∃ p ∈ P, p ≠ []) : P.foldl maiorPeriodo acc ≠ [] := by
  induction P generalizing acc with
  | nil =>
    rcases h with h | ⟨p, hp, _⟩
    · exact h
    · simp at hp
  | cons q t ih =>
    simp only [List.foldl_cons]
    apply ih
    by_cases hacc : maiorPeriodo acc q = []
    · right
      have hq : ¬ strGt q acc = true := by
        intro hg
        have := ne_nil_of_strGt q acc hg
        simp [maiorPeriodo, hg] at hacc
        exact this hacc
      have hacc2 : acc = [] := by simpa [maiorPeriodo, hq] using hacc
      subst hacc2
      have hqnil : q = [] := by
        by_contra hne
        exact hq (strGt_nil q hne)
      rcases h with h | ⟨p, hp, hpne⟩
      · exact absurd rfl h
      · rcases List.mem_cons.mp hp with e | e
        · subst e; exact absurd hqnil hpne
        · exact ⟨p, e, hpne⟩
    · left; exact hacc

theorem mem_keys_of_getProp (l : Ledger) (k : JSString) (v : List Registro)
    (h : getProp l k = some v) : k ∈ keys l := by
  induction l with
  | nil => simp [getProp] at h
  | cons p t ih =>
    obtain ⟨k1, v1⟩ := p
    by_cases hk : k1 = k
    · simp [keys, hk]
    · simp only [getProp, hk, if_false] at h
      have := ih h
      simp only [keys, List.map_cons, List.mem_cons] at this ⊢
      right; exact this

theorem getProp_isSome_of_mem_keys (l : Ledger) (k : JSString) (h : k ∈ keys l) :
    ∃ v, getProp l k = some v := by
  induction l with
  | nil => simp [keys] at h
  | cons p t ih =>
    obtain ⟨k1, v1⟩ := p
    by_cases hk : k1 = k
    · exact ⟨v1, by simp [getProp, hk]⟩
    · simp only [keys, List.map_cons, List.mem_cons] at h
      rcases h with e | e
      · exact absurd e.symm hk
      · obtain ⟨v, hv⟩ := ih e
        exact ⟨v, by simp [getProp, hk, hv]⟩

theorem mem_lotesOrdenados (allData : Ledger) (k : JSString) :
    k ∈ lotesOrdenados allData ↔ k ∈ keys allData := by
  unfold lotesOrdenados sort
  exact (List.perm_insertionSort _ _).mem_iff

theorem mem_periodosLidos (allData : Ledger) (p : JSString) :
    p ∈ periodosLidos allData ↔
      ∃ k regs, getProp allData k = some regs ∧ ∃ r ∈ regs, r.mesAno = p := by
  unfold periodosLidos
  simp only [List.mem_flatMap, List.mem_map, mem_lotesOrdenados]
  constructor
  · rintro ⟨k, hk, r, hr, hrp⟩
    obtain ⟨v, hv⟩ := getProp_isSome_of_mem_keys allData k hk
    refine ⟨k, v, hv, r, ?_, hrp⟩
    simpa [getOrEmpty, hv] using hr
  · rintro ⟨k, regs, hg, r, hr, hrp⟩
    refine ⟨k, mem_keys_of_getProp allData k regs hg, r, ?_, hrp⟩
    simpa [getOrEmpty, hg] using hr

/-- The snapshot of a period that some lot holds is not empty. -/
theorem dadosUltimoMes_ne_nil (allData : Ledger) (u : JSString)
    (h : u ∈ periodosLidos allData) : dadosUltimoMes allData u ≠ [] := by
  rw [mem_periodosLidos] at h
  obtain ⟨k, regs, hg, r, hr, hrp⟩ := h
  have hk : k ∈ lotesOrdenados allData :=
    (mem_lotesOrdenados allData k).mpr (mem_keys_of_getProp allData k regs hg)
  have hfind : (regs.find? (fun reg => decide (reg.mesAno = u))).isSome = true := by
    rw [List.find?_isSome]
    exact ⟨r, hr, by simp [hrp]⟩
  obtain ⟨r2, hr2⟩ := Option.isSome_iff_exists.mp hfind
  intro hnil
  have hmem : ({ loteId := k, reg := r2 } : Entrada) ∈ dadosUltimoMes allData u := by
    unfold dadosUltimoMes
    rw [List.mem_filterMap]
    exact ⟨k, hk, by simp [hg, hr2]⟩
  rw [hnil] at hmem
  simp at hmem

/-- The dashboard in the branch that computes the aggregates. -/
theorem dashboardData_of_ne_nil (allData : Ledger) (hu : ultimoMesAno allData ≠ []) :
    dashboardData allData =
      { totalLotes := (lotesOrdenados allData).length
        allLotesList := lotesOrdenados allData
        ultimoMesAno := join '/' (split '-' (ultimoMesAno allData)).reverse
        verificados := (dadosUltimoMes allData (ultimoMesAno allData)).length
        verificadosList := sort lotePosterior
          ((dadosUltimoMes allData (ultimoMesAno allData)).map (fun d => d.loteId))
        consumoTotal := somaConsumo (dadosUltimoMes allData (ultimoMesAno allData))
        consumoMedio := (somaConsumo (dadosUltimoMes allData (ultimoMesAno allData))).div
          (.ofNat (dadosUltimoMes allData (ultimoMesAno allData)).length)
        ranking := sort (fun a b => (b.reg.consumo.sub a.reg.consumo).gt (.fin 0))
          (dadosUltimoMes allData (ultimoMesAno allData))
        altas := (sort (fun a b => (b.reg.consumo.sub a.reg.consumo).gt (.fin 0))
            (dadosUltimoMes allData (ultimoMesAno allData))).filter (fun r =>
          r.reg.consumo.gt
            (((somaConsumo (dadosUltimoMes allData (ultimoMesAno allData))).div
              (.ofNat (dadosUltimoMes allData (ultimoMesAno allData)).length)).mul
              (.fin (3 / 2))))
        baixas := (sort (fun a b => (b.reg.consumo.sub a.reg.consumo).gt (.fin 0))
            (dadosUltimoMes allData (ultimoMesAno allData))).filter (fun r =>
          r.reg.consumo.gt (.fin 0) &&
          r.reg.consumo.lt
            (((somaConsumo (dadosUltimoMes allData (ultimoMesAno allData))).div
              (.ofNat (dadosUltimoMes allData (ultimoMesAno allData)).length)).mul
              (.fin (1 / 2)))) } := by
  have hmem : ultimoMesAno allData ∈ periodosLidos allData := by
    have := foldl_maior_mem (periodosLidos allData) []
    rw [← ultimoMesAno_eq_foldl] at this
    rcases this with h | h
    · exact absurd h hu
    · exact h
  have hd := dadosUltimoMes_ne_nil allData _ hmem
  have hlen : (dadosUltimoMes allData (ultimoMesAno allData)).length ≠ 0 := by
    intro e
    exact hd (List.length_eq_zero.mp e)
  have hpos : 0 < (dadosUltimoMes allData (ultimoMesAno allData)).length := Nat.pos_of_ne_zero hlen
  have hk : (lotesOrdenados allData).length ≠ 0 := by
    intro e
    have hnil := List.length_eq_zero.mp e
    have : periodosLidos allData = [] := by simp [periodosLidos, hnil]
    rw [this] at hmem
    simp at hmem
  unfold dashboardData
  simp only [hk, hu, hlen, hpos, if_false, if_true, dashboardVazio]

/-- The dashboard in the branches that return before the aggregates. -/
theorem dashboardData_of_nil (allData : Ledger) (hu : ultimoMesAno allData = []) :
    dashboardData allData =
      { dashboardVazio with
        totalLotes := (lotesOrdenados allData).length
        allLotesList := lotesOrdenados allData } := by
  unfold dashboardData
  simp only [hu, if_true]
  split <;> rfl

/-! ## C15 -/

theorem length_lotesOrdenados (allData : Ledger) :
    (lotesOrdenados allData).length = (keys allData).length := by
  unfold lotesOrdenados sort
  exact List.length_insertionSort _ _

/-- C15: when no lot has a record (in particular for the empty ledger) `dashboardData`
returns at one of its first two `return` statements, before the line that divides:
the guard `totalLotes === 0` or `!ultimoMesAno` holds, and the result has
`verificados = 0`, `consumoTotal = 0`, `consumoMedio = 0`, an empty ranking, empty
anomaly lists, an empty `verificadosList` and the empty string as `ultimoMesAno`. -/
theorem dashboardData_without_records (allData : Ledger)
    (h : ∀ k regs, getProp allData k = some regs → regs = []) :
    ((keys allData).length = 0 ∨ ultimoMesAno allData = []) ∧
    dashboardData allData =
      { dashboardVazio with
        totalLotes := (keys allData).length
        allLotesList := lotesOrdenados allData } ∧
    (dashboardData allData).verificados = 0 ∧
    (dashboardData allData).consumoTotal = .fin 0 ∧
    (dashboardData allData).consumoMedio = .fin 0 ∧
    (dashboardData allData).ranking = [] ∧
    (dashboardData allData).altas = [] ∧
    (dashboardData allData).baixas = [] ∧
    (dashboardData allData).verificadosList = [] ∧
    (dashboardData allData).ultimoMesAno = [] ∧
    dashboardData [] = dashboardVazio := by
  have hp : periodosLidos allData = [] := by
    rw [List.eq_nil_iff_forall_not_mem]
    intro p hp
    rw [mem_periodosLidos] at hp
    obtain ⟨k, regs, hg, r, hr, _⟩ := hp
    rw [h k regs hg] at hr
    simp at hr
  have hu : ultimoMesAno allData = [] := by
    rw [ultimoMesAno_eq_foldl, hp]
    rfl
  have hd := dashboardData_of_nil allData hu
  rw [length_lotesOrdenados] at hd
  refine ⟨Or.inr hu, hd, ?_, ?_, ?_, ?_, ?_, ?_, ?_, ?_, by decide⟩ <;> rw [hd] <;> rfl

theorem ledgerSemRegistros_vazio :
    ∀ k regs, getProp ledgerSemRegistros k = some regs → regs = [] := by
  intro k regs h
  unfold ledgerSemRegistros at h
  simp only [getProp] at h
  split at h
  · simp at h; exact h
  · split at h
    · simp at h; exact h
    · simp at h

/-- Instance of `dashboardData_without_records`: two lots without records. -/
theorem dashboardData_without_records_witness :
    (∀ k regs, getProp ledgerSemRegistros k = some regs → regs = []) ∧
    (dashboardData ledgerSemRegistros).totalLotes = 2 ∧
    (dashboardData ledgerSemRegistros).verificados = 0 ∧
    (dashboardData ledgerSemRegistros).consumoTotal = .fin 0 ∧
    (dashboardData ledgerSemRegistros).consumoMedio = .fin 0 ∧
    (dashboardData ledgerSemRegistros).ranking = [] ∧
    (dashboardData ledgerSemRegistros).ultimoMesAno = [] := by
  have h := dashboardData_without_records ledgerSemRegistros ledgerSemRegistros_vazio
  refine ⟨ledgerSemRegistros_vazio, ?_, h.2.2.1, h.2.2.2.1, h.2.2.2.2.1, h.2.2.2.2.2.1,
    h.2.2.2.2.2.2.2.2.2.1⟩
  rw [h.2.1]
  rfl

/-! ## C20 -/

/-- C20: when some record has a non-empty `mesAno`, the latest period is not empty and
is the period of a record, so the latest-period data are not empty: `verificados` is
their positive length, the return on an empty list and the zero-divisor fallback are
not taken, and `consumoMedio` is the quotient by that positive count. -/
theorem dashboardData_verificados_pos (allData : Ledger)
    (h : ∃ k regs r, getProp allData k = some regs ∧ r ∈ regs ∧ r.mesAno ≠ []) :
    ultimoMesAno allData ≠ [] ∧
    dadosUltimoMes allData (ultimoMesAno allData) ≠ [] ∧
    (dashboardData allData).verificados =
      (dadosUltimoMes allData (ultimoMesAno allData)).length ∧
    1 ≤ (dashboardData allData).verificados ∧
    JSNum.ofNat (dashboardData allData).verificados ≠ .fin 0 ∧
    (dashboardData allData).consumoMedio =
      (dashboardData allData).consumoTotal.div (.ofNat (dashboardData allData).verificados) := by
  obtain ⟨k, regs, r, hg, hr, hne⟩ := h
  have hmemP : r.mesAno ∈ periodosLidos allData :=
    (mem_periodosLidos allData _).mpr ⟨k, regs, hg, r, hr, rfl⟩
  have hu : ultimoMesAno allData ≠ [] := by
    rw [ultimoMesAno_eq_foldl]
    exact foldl_maior_ne_nil _ _ (Or.inr ⟨_, hmemP, hne⟩)
  have hmem : ultimoMesAno allData ∈ periodosLidos allData := by
    have := foldl_maior_mem (periodosLidos allData) []
    rw [← ultimoMesAno_eq_foldl] at this
    rcases this with e | e
    · exact absurd e hu
    · exact e
  have hd := dadosUltimoMes_ne_nil allData _ hmem
  have hpos : 1 ≤ (dadosUltimoMes allData (ultimoMesAno allData)).length :=
    List.length_pos.mpr hd
  rw [dashboardData_of_ne_nil allData hu]
  refine ⟨hu, hd, rfl, hpos, ?_, rfl⟩
  simp only [JSNum.ofNat, ne_eq, JSNum.fin.injEq, Nat.cast_eq_zero]
  omega

/-- Instance of `dashboardData_verificados_pos`: the example ledger of three lots. -/
theorem dashboardData_verificados_pos_witness :
    (∃ k regs r, getProp ledgerExemplo k = some regs ∧ r ∈ regs ∧ r.mesAno ≠ []) ∧
    1 ≤ (dashboardData ledgerExemplo).verificados :=
  ⟨⟨"1".toList, [registroConsumo10], registroConsumo10, by decide, by decide, by decide⟩,
    (dashboardData_verificados_pos ledgerExemplo
      ⟨"1".toList, [registroConsumo10], registroConsumo10, by decide, by decide,
        by decide⟩).2.2.2.1⟩

/-! ## C11 -/

theorem isDigit_bounds (c : Char) (h : c.isDigit = true) : 48 ≤ c.toNat ∧ c.toNat ≤ 57 := by
  simp only [Char.isDigit, Bool.and_eq_true, decide_eq_true_eq] at h
  exact ⟨h.1, h.2⟩

theorem utf16_wf (y1 y2 y3 y4 m1 m2 : Char)
    (h1 : y1.isDigit = true) (h2 : y2.isDigit = true) (h3 : y3.isDigit = true)
    (h4 : y4.isDigit = true) (h5 : m1.isDigit = true) (h6 : m2.isDigit = true) :
    utf16 [y1, y2, y3, y4, '-', m1, m2] =
      [y1.toNat, y2.toNat, y3.toNat, y4.toNat, 45, m1.toNat, m2.toNat] := by
  have b1 := isDigit_bounds y1 h1
  have b2 := isDigit_bounds y2 h2
  have b3 := isDigit_bounds y3 h3
  have b4 := isDigit_bounds y4 h4
  have b5 := isDigit_bounds m1 h5
  have b6 := isDigit_bounds m2 h6
  have l1 : y1.toNat < 65536 := by omega
  have l2 : y2.toNat < 65536 := by omega
  have l3 : y3.toNat < 65536 := by omega
  have l4 : y4.toNat < 65536 := by omega
  have l5 : m1.toNat < 65536 := by omega
  have l6 : m2.toNat < 65536 := by omega
  have l7 : '-'.toNat = 45 := by decide
  simp [utf16, List.flatMap, l1, l2, l3, l4, l5, l6, l7]

theorem unitsLt_cons_iff (a b : Nat) (as bs : List Nat) :
    unitsLt (a :: as) (b :: bs) = true ↔ a < b ∨ (a = b ∧ unitsLt as bs = true) := by
  rw [unitsLt]
  split_ifs with h1 h2
  · simp [h1]
  · constructor
    · intro h; simp at h
    · rintro (h | ⟨h, _⟩) <;> omega
  · have : a = b := by omega
    simp [this]

theorem unitsLt_nil_nil : unitsLt [] [] = false := rfl

/-- On well-formed periods the string comparison `a > b` is the chronological one. -/
theorem strGt_wf (a b : JSString) (ha : periodoBemFormado a = true)
    (hb : periodoBemFormado b = true) :
    strGt a b = true ↔ (anoDe b < anoDe a ∨ (anoDe b = anoDe a ∧ mesDe b < mesDe a)) := by
  obtain ⟨a1, a2, a3, a4, a5, a6, rfl, ha1, ha2, ha3, ha4, ha5, ha6, _, _⟩ := wf_shape a ha
  obtain ⟨b1, b2, b3, b4, b5, b6, rfl, hb1, hb2, hb3, hb4, hb5, hb6, _, _⟩ := wf_shape b hb
  have p1 := isDigit_bounds a1 ha1
  have p2 := isDigit_bounds a2 ha2
  have p3 := isDigit_bounds a3 ha3
  have p4 := isDigit_bounds a4 ha4
  have p5 := isDigit_bounds a5 ha5
  have p6 := isDigit_bounds a6 ha6
  have q1 := isDigit_bounds b1 hb1
  have q2 := isDigit_bounds b2 hb2
  have q3 := isDigit_bounds b3 hb3
  have q4 := isDigit_bounds b4 hb4
  have q5 := isDigit_bounds b5 hb5
  have q6 := isDigit_bounds b6 hb6
  unfold strGt
  rw [utf16_wf a1 a2 a3 a4 a5 a6 ha1 ha2 ha3 ha4 ha5 ha6,
    utf16_wf b1 b2 b3 b4 b5 b6 hb1 hb2 hb3 hb4 hb5 hb6]
  have ea : anoDe [a1, a2, a3, a4, '-', a5, a6] =
      10 * (10 * (10 * (a1.toNat - 48) + (a2.toNat - 48)) + (a3.toNat - 48)) + (a4.toNat - 48) := by
    simp [anoDe, digitsVal]
  have eb : anoDe [b1, b2, b3, b4, '-', b5, b6] =
      10 * (10 * (10 * (b1.toNat - 48) + (b2.toNat - 48)) + (b3.toNat - 48)) + (b4.toNat - 48) := by
    simp [anoDe, digitsVal]
  have ma : mesDe [a1, a2, a3, a4, '-', a5, a6] = 10 * (a5.toNat - 48) + (a6.toNat - 48) := by
    simp [mesDe, digitsVal]
  have mb : mesDe [b1, b2, b3, b4, '-', b5, b6] = 10 * (b5.toNat - 48) + (b6.toNat - 48) := by
    simp [mesDe, digitsVal]
  rw [ea, eb, ma, mb]
  simp only [unitsLt_cons_iff, unitsLt_nil_nil, Bool.false_eq_true, and_false, or_false,
    lt_self_iff_false, false_or, true_and]
  omega

theorem strGt_wf_dia (a b : JSString) (ha : periodoBemFormado a = true)
    (hb : periodoBemFormado b = true) :
    strGt a b = true ↔ diaDoPeriodo b < diaDoPeriodo a := by
  obtain ⟨a1, a2⟩ := wf_mes_bounds a ha
  obtain ⟨b1, b2⟩ := wf_mes_bounds b hb
  rw [strGt_wf a b ha hb]
  have h := diaDoPeriodo_le_iff a b a1 a2 b1 b2
  constructor
  · intro hx
    have : ¬ (diaDoPeriodo a ≤ diaDoPeriodo b) := fun hle => by
      have := h.mp hle
      omega
    omega
  · intro hx
    have : ¬ (anoDe a < anoDe b ∨ (anoDe a = anoDe b ∧ mesDe a ≤ mesDe b)) := fun hy => by
      have := h.mpr hy
      omega
    omega

theorem wf_ne_nil (p : JSString) (h : periodoBemFormado p = true) : p ≠ [] := by
  intro e
  subst e
  simp [periodoBemFormado] at h

theorem foldl_maior_wf (P : List JSString) (acc : JSString)
    (hacc : acc = [] ∨ periodoBemFormado acc = true)
    (hP : ∀ p ∈ P, periodoBemFormado p = true) :
    (∀ p ∈ P, diaDoPeriodo p ≤ diaDoPeriodo (P.foldl maiorPeriodo acc)) ∧
    (periodoBemFormado acc = true → diaDoPeriodo acc ≤ diaDoPeriodo (P.foldl maiorPeriodo acc)) := by
  induction P generalizing acc with
  | nil => simp
  | cons q t ih =>
    have hq := hP q (by simp)
    have ht : ∀ p ∈ t, periodoBemFormado p = true := fun p hp => hP p (by simp [hp])
    simp only [List.foldl_cons]
    by_cases hg : strGt q acc = true
    · have e : maiorPeriodo acc q = q := by simp [maiorPeriodo, hg]
      rw [e]
      obtain ⟨i1, i2⟩ := ih q (Or.inr hq) ht
      refine ⟨?_, ?_⟩
      · intro p hp
        rcases List.mem_cons.mp hp with h | h
        · subst h; exact i2 hq
        · exact i1 p h
      · intro hw
        have := (strGt_wf_dia q acc hq hw).mp hg
        have := i2 hq
        omega
    · have e : maiorPeriodo acc q = acc := by simp [maiorPeriodo, hg]
      rw [e]
      obtain ⟨i1, i2⟩ := ih acc hacc ht
      have hw : periodoBemFormado acc = true := by
        rcases hacc with h | h
        · subst h
          exact absurd (strGt_nil q (wf_ne_nil q hq)) hg
        · exact h
      refine ⟨?_, i2⟩
      intro p hp
      rcases List.mem_cons.mp hp with h | h
      · subst h
        have h1 : ¬ diaDoPeriodo acc < diaDoPeriodo p := fun x =>
          hg ((strGt_wf_dia p acc hq hw).mpr x)
        have := i2 hw
        omega
      · exact i1 p h

/-- C11: when every record has a well-formed `YYYY-MM` period and there is a record,
the period that `dashboardData` selects is the period of a record, no record's period
is greater as a string, every record's period is chronologically at most it (year
first, month second), and the `ultimoMesAno` shown is its month, a slash and its year. -/
theorem ultimoMesAno_chronological (allData : Ledger)
    (hwf : ∀ k regs, getProp allData k = some regs →
      ∀ r ∈ regs, periodoBemFormado r.mesAno = true)
    (hne : ∃ k regs r, getProp allData k = some regs ∧ r ∈ regs) :
    (∃ k regs r, getProp allData k = some regs ∧ r ∈ regs ∧
      r.mesAno = ultimoMesAno allData) ∧
    (∀ k regs, getProp allData k = some regs → ∀ r ∈ regs,
      strGt r.mesAno (ultimoMesAno allData) = false) ∧
    (∀ k regs, getProp allData k = some regs → ∀ r ∈ regs,
      anoDe r.mesAno < anoDe (ultimoMesAno allData) ∨
      (anoDe r.mesAno = anoDe (ultimoMesAno allData) ∧
        mesDe r.mesAno ≤ mesDe (ultimoMesAno allData))) ∧
    (dashboardData allData).ultimoMesAno =
      (ultimoMesAno allData).drop 5 ++ '/' :: (ultimoMesAno allData).take 4 := by
  have hP : ∀ p ∈ periodosLidos allData, periodoBemFormado p = true := by
    intro p hp
    rw [mem_periodosLidos] at hp
    obtain ⟨k, regs, hg, r, hr, hrp⟩ := hp
    rw [← hrp]
    exact hwf k regs hg r hr
  obtain ⟨k0, regs0, r0, hg0, hr0⟩ := hne
  have hmem0 : r0.mesAno ∈ periodosLidos allData :=
    (mem_periodosLidos allData _).mpr ⟨k0, regs0, hg0, r0, hr0, rfl⟩
  have hu : ultimoMesAno allData ≠ [] := by
    rw [ultimoMesAno_eq_foldl]
    exact foldl_maior_ne_nil _ _ (Or.inr ⟨_, hmem0, wf_ne_nil _ (hP _ hmem0)⟩)
  have hmem : ultimoMesAno allData ∈ periodosLidos allData := by
    have := foldl_maior_mem (periodosLidos allData) []
    rw [← ultimoMesAno_eq_foldl] at this
    rcases this with e | e
    · exact absurd e hu
    · exact e
  have hwu := hP _ hmem
  have hmax : ∀ p ∈ periodosLidos allData,
      diaDoPeriodo p ≤ diaDoPeriodo (ultimoMesAno allData) := by
    rw [ultimoMesAno_eq_foldl]
    exact (foldl_maior_wf _ [] (Or.inl rfl) hP).1
  refine ⟨?_, ?_, ?_, ?_⟩
  · obtain ⟨k, regs, hg, r, hr, hrp⟩ := (mem_periodosLidos allData _).mp hmem
    exact ⟨k, regs, r, hg, hr, hrp⟩
  · intro k regs hg r hr
    have hp : r.mesAno ∈ periodosLidos allData :=
      (mem_periodosLidos allData _).mpr ⟨k, regs, hg, r, hr, rfl⟩
    have hle := hmax _ hp
    cases hs : strGt r.mesAno (ultimoMesAno allData) with
    | false => rfl
    | true =>
      have := (strGt_wf_dia _ _ (hP _ hp) hwu).mp hs
      omega
  · intro k regs hg r hr
    have hp : r.mesAno ∈ periodosLidos allData :=
      (mem_periodosLidos allData _).mpr ⟨k, regs, hg, r, hr, rfl⟩
    obtain ⟨a1, a2⟩ := wf_mes_bounds _ (hP _ hp)
    obtain ⟨b1, b2⟩ := wf_mes_bounds _ hwu
    exact (diaDoPeriodo_le_iff _ _ a1 a2 b1 b2).mp (hmax _ hp)
  · rw [dashboardData_of_ne_nil allData hu]
    simp only
    obtain ⟨y1, y2, y3, y4, m1, m2, hp, h1, h2, h3, h4, h5, h6, _, _⟩ := wf_shape _ hwu
    rw [hp, split_wf y1 y2 y3 y4 m1 m2 h1 h2 h3 h4 h5 h6]
    rfl

theorem ledgerTresPeriodos_wf : ∀ k regs, getProp ledgerTresPeriodos k = some regs →
    ∀ r ∈ regs, periodoBemFormado r.mesAno = true := by
  intro k regs h
  unfold ledgerTresPeriodos at h
  simp only [getProp] at h
  split at h
  · simp at h; subst h; decide
  · split at h
    · simp at h; subst h; decide
    · simp at h

/-- Instance of `ultimoMesAno_chronological`: with March 2025, November 2024 and April
2025 stored, the dashboard shows `04/2025`. -/
theorem ultimoMesAno_chronological_witness :
    (∃ k regs r, getProp ledgerTresPeriodos k = some regs ∧ r ∈ regs) ∧
    (dashboardData ledgerTresPeriodos).ultimoMesAno =
      (ultimoMesAno ledgerTresPeriodos).drop 5 ++ '/' :: (ultimoMesAno ledgerTresPeriodos).take 4 ∧
    (∀ k regs, getProp ledgerTresPeriodos k = some regs → ∀ r ∈ regs,
      strGt r.mesAno (ultimoMesAno ledgerTresPeriodos) = false) :=
  ⟨⟨"1".toList, [registroMarco, registroNov2024], registroMarco, by decide, by decide⟩,
    (ultimoMesAno_chronological ledgerTresPeriodos ledgerTresPeriodos_wf
      ⟨"1".toList, [registroMarco, registroNov2024], registroMarco, by decide, by decide⟩).2.2.2,
    (ultimoMesAno_chronological ledgerTresPeriodos ledgerTresPeriodos_wf
      ⟨"1".toList, [registroMarco, registroNov2024], registroMarco, by decide, by decide⟩).2.1⟩

/-! ## C12 -/

theorem length_filterMap_eq_countP {α β : Type} (f : α → Option β) (l : List α) :
    (l.filterMap f).length = l.countP (fun a => (f a).isSome) := by
  induction l with
  | nil => rfl
  | cons a t ih =>
    cases h : f a with
    | none => simp [List.filterMap_cons, h, ih]
    | some b => simp [List.filterMap_cons, h, ih]

theorem length_dadosUltimoMes (allData : Ledger) (u : JSString) :
    (dadosUltimoMes allData u).length =
      (keys allData).countP (fun k =>
        (getOrEmpty allData k).any (fun r => decide (r.mesAno = u))) := by
  have hperm : (lotesOrdenados allData).Perm (keys allData) := by
    unfold lotesOrdenados sort
    exact List.perm_insertionSort _ _
  unfold dadosUltimoMes
  rw [length_filterMap_eq_countP, ← hperm.countP_eq]
  apply List.countP_congr
  intro k hk
  obtain ⟨v, hv⟩ := getProp_isSome_of_mem_keys allData k ((mem_lotesOrdenados allData k).mp hk)
  simp only [hv, Option.bind, getOrEmpty, Option.getD_some]
  cases hf : v.find? (fun reg => decide (reg.mesAno = u)) with
  | none =>
    simp only [Option.isSome_none, Bool.false_eq_true, false_iff, Bool.not_eq_true]
    rw [List.find?_eq_none] at hf
    rw [List.any_eq_false]
    exact hf
  | some r =>
    simp only [Option.isSome_some, true_iff]
    rw [List.any_eq_true]
    have hp := List.find?_some hf
    exact ⟨r, List.mem_of_find?_eq_some hf, hp⟩

theorem foldl_add_fin (qs : List ℚ) (a : ℚ) :
    (qs.map JSNum.fin).foldl JSNum.add (.fin a) = .fin (a + qs.sum) := by
  induction qs generalizing a with
  | nil => simp
  | cons q t ih =>
    simp only [List.map_cons, List.foldl_cons, List.sum_cons]
    show List.foldl JSNum.add (JSNum.fin (a + q)) (List.map JSNum.fin t) = _
    rw [ih, add_assoc]

theorem somaConsumo_eq_foldl (dados : List Entrada) :
    somaConsumo dados = (dados.map (fun e => e.reg.consumo)).foldl JSNum.add (.fin 0) := by
  unfold somaConsumo
  rw [List.foldl_map]

/-! ### Periods of stored records

Every record that the program writes carries a non-empty period: `handleSave` stores
`ano + "-" + mes`, `handleDelete` only removes records, and the import script stores an
entry of its table or `"2025-01"`. -/

theorem periodoDe_ne_nil (data : FormData) : periodoDe data ≠ [] := by
  simp [periodoDe]

theorem mem_getOrEmpty (l : Ledger) (k : JSString) (r : Registro) (h : r ∈ getOrEmpty l k) :
    ∃ regs, getProp l k = some regs ∧ r ∈ regs := by
  unfold getOrEmpty at h
  cases hg : getProp l k with
  | none => simp [hg] at h
  | some regs => exact ⟨regs, rfl, by simpa [hg] using h⟩

theorem periodos_setProp (l : Ledger) (k : JSString) (v : List Registro)
    (hl : ∀ k2 regs r, getProp l k2 = some regs → r ∈ regs → r.mesAno ≠ [])
    (hv : ∀ r ∈ v, r.mesAno ≠ []) :
    ∀ k2 regs r, getProp (setProp l k v) k2 = some regs → r ∈ regs → r.mesAno ≠ [] := by
  intro k2 regs r hg hr
  by_cases e : k2 = k
  · rw [e, getProp_setProp_self] at hg
    cases hg
    exact hv r hr
  · rw [getProp_setProp_ne l k k2 v e] at hg
    exact hl k2 regs r hg hr

/-- `handleSave` keeps every stored period non-empty. -/
theorem handleSave_periodos (s : LoteManager) (data : FormData) (id : Option Nat) (now : Nat)
    (hl : ∀ k regs r, getProp s.allData k = some regs → r ∈ regs → r.mesAno ≠ []) :
    ∀ k regs r, getProp (handleSave s data id now).state.allData k = some regs → r ∈ regs →
      r.mesAno ≠ [] := by
  have hold : ∀ r ∈ getOrEmpty s.allData (propKey s.selectedLote), r.mesAno ≠ [] := by
    intro r hr
    obtain ⟨regs, hg, hm⟩ := mem_getOrEmpty _ _ r hr
    exact hl _ regs r hg hm
  rcases handleSave_allData s data id now with h | ⟨_, _, h⟩ | ⟨_, _, h⟩
  · rw [h]
    exact hl
  · rw [h]
    apply periodos_setProp _ _ _ hl
    intro r hr
    obtain ⟨r0, hr0, he⟩ := List.mem_map.mp hr
    by_cases hid : some r0.id = id
    · rw [if_pos hid] at he
      rw [← he]
      exact periodoDe_ne_nil data
    · rw [if_neg hid] at he
      rw [← he]
      exact hold r0 hr0
  · rw [h]
    apply periodos_setProp _ _ _ hl
    intro r hr
    rcases List.mem_append.mp hr with hr | hr
    · exact hold r hr
    · rw [List.mem_singleton.mp hr]
      exact periodoDe_ne_nil data

/-- `handleDelete` keeps every stored period non-empty. -/
theorem handleDelete_periodos (s : LoteManager)
    (hl : ∀ k regs r, getProp s.allData k = some regs → r ∈ regs → r.mesAno ≠ []) :
    ∀ k regs r, getProp (handleDelete s).state.allData k = some regs → r ∈ regs →
      r.mesAno ≠ [] := by
  show ∀ k regs r, getProp (setProp s.allData (propKey s.selectedLote)
    ((registros s).filter (fun r => idDiffers r.id s.recordToDelete))) k = some regs → _
  apply periodos_setProp _ _ _ hl
  intro r hr
  have hr2 : r ∈ registros s := (List.mem_filter.mp hr).1
  unfold registros at hr2
  cases hsel : s.selectedLote with
  | none => simp [hsel] at hr2
  | some k =>
    simp only [hsel] at hr2
    by_cases hk : k = []
    · simp [hk] at hr2
    · rw [if_neg hk] at hr2
      obtain ⟨regs, hg, hm⟩ := mem_getOrEmpty _ _ r hr2
      exact hl _ regs r hg hm

theorem lookup_mem_values (l : List (JSString × JSString)) (a b : JSString)
    (h : l.lookup a = some b) : b ∈ l.map Prod.snd := by
  induction l with
  | nil => simp at h
  | cons p t ih =>
    obtain ⟨k, v⟩ := p
    rw [List.lookup_cons] at h
    split at h
    · cases h
      simp
    · exact List.mem_cons_of_mem _ (ih h)

theorem periodoParaMesAno_ne_nil (p : JSString) : periodoParaMesAno p ≠ [] := by
  unfold periodoParaMesAno
  cases h : mapa.lookup p with
  | none => simp
  | some m =>
    have hm := lookup_mem_values _ _ _ h
    have hall : ∀ x ∈ mapa.map Prod.snd, x ≠ [] := by decide
    exact hall m hm

theorem agruparLinhas_periodos (idDe : Nat → Nat) (linhas : List LinhaImport) (i : Nat)
    (lotes : Ledger)
    (hl : ∀ k regs r, getProp lotes k = some regs → r ∈ regs → r.mesAno ≠ []) :
    ∀ k regs r, getProp (agruparLinhas idDe i linhas lotes) k = some regs → r ∈ regs →
      r.mesAno ≠ [] := by
  induction linhas generalizing i lotes with
  | nil => exact hl
  | cons reg rest ih =>
    unfold agruparLinhas
    split
    · exact ih _ _ hl
    · apply ih
      apply periodos_setProp _ _ _ hl
      intro r hr
      rcases List.mem_append.mp hr with hr | hr
      · obtain ⟨regs, hg, hm⟩ := mem_getOrEmpty _ _ r hr
        exact hl _ regs r hg hm
      · rw [List.mem_singleton.mp hr]
        exact periodoParaMesAno_ne_nil _

/-- Every record that the import script writes has a non-empty period. -/
theorem importarLotes_periodos (idDe : Nat → Nat) (linhas : List LinhaImport) :
    ∀ k regs r, getProp (importarLotes idDe linhas) k = some regs → r ∈ regs →
      r.mesAno ≠ [] := by
  unfold importarLotes
  apply agruparLinhas_periodos
  intro k regs r hg
  simp [getProp] at hg

/-- C12: for a ledger with at least one record, whose records all carry a period (as
every record written by `handleSave` or by the import does), `dashboardData` returns
`totalLotes` = the number of lot keys, `verificados` = the number of lots having a
record of the latest period, `consumoTotal` = the sum, in the order of the lots, of
`consumo` over the record of that period of each such lot (the first one, should a lot
hold several), and `consumoMedio = consumoTotal / verificados`. -/
theorem dashboardData_aggregates (allData : Ledger)
    (hrec : ∃ k regs r, getProp allData k = some regs ∧ r ∈ regs)
    (hper : ∀ k regs r, getProp allData k = some regs → r ∈ regs → r.mesAno ≠ []) :
    (dashboardData allData).totalLotes = (keys allData).length ∧
    (dashboardData allData).verificados =
      (keys allData).countP (fun k =>
        (getOrEmpty allData k).any (fun r => decide (r.mesAno = ultimoMesAno allData))) ∧
    1 ≤ (dashboardData allData).verificados ∧
    (∀ e, e ∈ dadosUltimoMes allData (ultimoMesAno allData) ↔
      (e.loteId ∈ keys allData ∧
        (getOrEmpty allData e.loteId).find? (fun r => decide (r.mesAno = ultimoMesAno allData)) =
          some e.reg)) ∧
    (dashboardData allData).consumoTotal =
      ((dadosUltimoMes allData (ultimoMesAno allData)).map (fun e => e.reg.consumo)).foldl
        JSNum.add (.fin 0) ∧
    (dashboardData allData).consumoMedio =
      (dashboardData allData).consumoTotal.div (.ofNat (dashboardData allData).verificados) := by
  obtain ⟨k, regs, r, hg, hr⟩ := hrec
  have hne : r.mesAno ≠ [] := hper k regs r hg hr
  have hmemP : r.mesAno ∈ periodosLidos allData :=
    (mem_periodosLidos allData _).mpr ⟨k, regs, hg, r, hr, rfl⟩
  have hu : ultimoMesAno allData ≠ [] := by
    rw [ultimoMesAno_eq_foldl]
    exact foldl_maior_ne_nil _ _ (Or.inr ⟨_, hmemP, hne⟩)
  have hmemU : ultimoMesAno allData ∈ periodosLidos allData := by
    have := foldl_maior_mem (periodosLidos allData) []
    rw [← ultimoMesAno_eq_foldl] at this
    rcases this with e | e
    · exact absurd e hu
    · exact e
  have hpos : 1 ≤ (dadosUltimoMes allData (ultimoMesAno allData)).length :=
    List.length_pos.mpr (dadosUltimoMes_ne_nil allData _ hmemU)
  rw [dashboardData_of_ne_nil allData hu]
  refine ⟨length_lotesOrdenados allData, length_dadosUltimoMes allData _, hpos, ?_,
    somaConsumo_eq_foldl _, rfl⟩
  · intro e
    unfold dadosUltimoMes
    rw [List.mem_filterMap]
    constructor
    · rintro ⟨k2, hk2, he⟩
      have hk2' := (mem_lotesOrdenados allData k2).mp hk2
      obtain ⟨v, hv⟩ := getProp_isSome_of_mem_keys allData k2 hk2'
      cases hf : v.find? (fun reg => decide (reg.mesAno = ultimoMesAno allData)) with
      | none => simp [hv, hf] at he
      | some r2 =>
        simp only [hv, hf, Option.bind, Option.some.injEq] at he
        subst he
        exact ⟨hk2', by simp [getOrEmpty, hv, hf]⟩
    · rintro ⟨hk2, hf⟩
      obtain ⟨v, hv⟩ := getProp_isSome_of_mem_keys allData _ hk2
      refine ⟨e.loteId, (mem_lotesOrdenados allData _).mpr hk2, ?_⟩
      simp only [getOrEmpty, hv, Option.getD_some] at hf
      simp [hv, hf]

/-! ## Evaluation of the example ledger -/

theorem toNumber_of_scan (s : JSString) (l : StrLit) (h1 : trim s ≠ [])
    (h2 : nonDecimalLiteral (trim s) = none)
    (h3 : scanStrDecimalLiteral (trim s) = some (l, [])) : toNumber s = l.value := by
  unfold toNumber
  simp only [h1, if_false, h2, h3]

theorem toNumber_1 : toNumber "1".toList = .fin 1 := by
  rw [toNumber_of_scan _ (.dec false 1 0) (by decide) (by decide) (by decide)]
  simp [StrLit.value]

theorem toNumber_2 : toNumber "2".toList = .fin 2 := by
  rw [toNumber_of_scan _ (.dec false 2 0) (by decide) (by decide) (by decide)]
  simp [StrLit.value]

theorem toNumber_3 : toNumber "3".toList = .fin 3 := by
  rw [toNumber_of_scan _ (.dec false 3 0) (by decide) (by decide) (by decide)]
  simp [StrLit.value]

theorem lotePosterior_fin (a b : JSString) (x y : ℚ) (ha : toNumber a = .fin x)
    (hb : toNumber b = .fin y) : lotePosterior a b = decide (y < x) := by
  unfold lotePosterior
  rw [ha, hb]
  show decide ((0 : ℚ) < x + -y) = decide (y < x)
  congr 1
  apply propext
  constructor <;> intro h <;> linarith

theorem lotesOrdenados_exemplo :
    lotesOrdenados ledgerExemplo = ["1".toList, "2".toList, "3".toList] := by
  have h12 : lotePosterior "1".toList "2".toList = false := by
    rw [lotePosterior_fin _ _ 1 2 toNumber_1 toNumber_2]; norm_num
  have h13 : lotePosterior "1".toList "3".toList = false := by
    rw [lotePosterior_fin _ _ 1 3 toNumber_1 toNumber_3]; norm_num
  have h23 : lotePosterior "2".toList "3".toList = false := by
    rw [lotePosterior_fin _ _ 2 3 toNumber_2 toNumber_3]; norm_num
  have hs : List.Sorted (fun a b => lotePosterior a b = false)
      ["1".toList, "2".toList, "3".toList] := by
    refine List.Pairwise.cons ?_ (List.Pairwise.cons ?_ (List.Pairwise.cons ?_ List.Pairwise.nil))
    · intro b hb
      rcases List.mem_cons.mp hb with e | hb
      · rw [e]; exact h12
      · rcases List.mem_cons.mp hb with e | hb
        · rw [e]; exact h13
        · simp at hb
    · intro b hb
      rcases List.mem_cons.mp hb with e | hb
      · rw [e]; exact h23
      · simp at hb
    · intro b hb
      simp at hb
  show sort lotePosterior ["1".toList, "2".toList, "3".toList] = _
  unfold sort
  exact hs.insertionSort_eq

theorem ultimoMesAno_exemplo : ultimoMesAno ledgerExemplo = "2025-03".toList := by
  unfold ultimoMesAno
  rw [lotesOrdenados_exemplo]
  decide

theorem dadosUltimoMes_exemplo :
    dadosUltimoMes ledgerExemplo "2025-03".toList =
      [{ loteId := "1".toList, reg := registroConsumo10 },
       { loteId := "2".toList, reg := registroConsumo50 }] := by
  unfold dadosUltimoMes
  rw [lotesOrdenados_exemplo]
  decide

theorem ledgerExemplo_tem_registro :
    ∃ k regs r, getProp ledgerExemplo k = some regs ∧ r ∈ regs ∧ r.mesAno ≠ [] :=
  ⟨"1".toList, [registroConsumo10], registroConsumo10, by decide, by decide, by decide⟩

theorem ledgerExemplo_registros (k : JSString) (regs : List Registro) (r : Registro)
    (hg : getProp ledgerExemplo k = some regs) (hr : r ∈ regs) :
    r = registroConsumo10 ∨ r = registroConsumo50 := by
  simp only [ledgerExemplo, getProp] at hg
  split_ifs at hg <;> cases hg <;> simp at hr
  · exact Or.inl hr
  · exact Or.inr hr

theorem ledgerExemplo_periodos (k : JSString) (regs : List Registro) (r : Registro)
    (hg : getProp ledgerExemplo k = some regs) (hr : r ∈ regs) : r.mesAno ≠ [] := by
  rcases ledgerExemplo_registros k regs r hg hr with e | e <;> rw [e] <;> decide

theorem somaConsumo_exemplo :
    somaConsumo [{ loteId := "1".toList, reg := registroConsumo10 },
      { loteId := "2".toList, reg := registroConsumo50 }] = .fin 60 := by
  show JSNum.fin (0 + 10 + 50) = JSNum.fin 60
  norm_num

/-- Instance of `dashboardData_aggregates`, the example of the claim: lots 1 and 2 with
`consumo` 10 and 50 in March 2025 and lot 3 without records give `totalLotes = 3`,
`verificados = 2`, `consumoTotal = 60` and `consumoMedio = 30`. -/
theorem dashboardData_aggregates_witness :
    (∃ k regs r, getProp ledgerExemplo k = some regs ∧ r ∈ regs) ∧
    (∀ k regs r, getProp ledgerExemplo k = some regs → r ∈ regs → r.mesAno ≠ []) ∧
    (dashboardData ledgerExemplo).totalLotes = 3 ∧
    (dashboardData ledgerExemplo).verificados = 2 ∧
    (dashboardData ledgerExemplo).consumoTotal = .fin 60 ∧
    (dashboardData ledgerExemplo).consumoMedio = .fin 30 := by
  have hrec : ∃ k regs r, getProp ledgerExemplo k = some regs ∧ r ∈ regs :=
    ⟨"1".toList, [registroConsumo10], registroConsumo10, by decide, by decide⟩
  obtain ⟨h1, h2, _, _, h4, h6⟩ := dashboardData_aggregates ledgerExemplo hrec
    ledgerExemplo_periodos
  have hv : (dashboardData ledgerExemplo).verificados = 2 := by
    rw [h2, ultimoMesAno_exemplo]
    decide
  have ht : (dashboardData ledgerExemplo).consumoTotal = .fin 60 := by
    rw [h4, ultimoMesAno_exemplo, dadosUltimoMes_exemplo, ← somaConsumo_eq_foldl,
      somaConsumo_exemplo]
  refine ⟨hrec, ledgerExemplo_periodos, ?_, hv, ht, ?_⟩
  · rw [h1]; rfl
  · rw [h6, hv, ht]
    show JSNum.div (.fin 60) (.fin ((2 : Nat) : ℚ)) = .fin 30
    simp only [JSNum.div]
    norm_num

/-! ## C14 -/

theorem mem_ranking_iff (allData : Ledger) (hu : ultimoMesAno allData ≠ []) (e : Entrada) :
    e ∈ (dashboardData allData).ranking ↔
      e ∈ dadosUltimoMes allData (ultimoMesAno allData) := by
  rw [dashboardData_of_ne_nil allData hu]
  simp only [sort]
  exact (List.perm_insertionSort _ _).mem_iff

/-- C14: an entry is in `anomalias.altas` exactly when it is an entry of the ranking,
that is of the latest-period data, with `consumo > consumoMedio * 1.5`, and in
`anomalias.baixas` exactly when it is such an entry with `consumo > 0` and
`consumo < consumoMedio * 0.5`; an entry with `consumo = 0` is never in
`anomalias.baixas`. When no latest period exists both lists are empty. -/
theorem dashboardData_anomalias (allData : Ledger) :
    (∀ e, e ∈ (dashboardData allData).altas ↔
      (e ∈ (dashboardData allData).ranking ∧
        e.reg.consumo.gt ((dashboardData allData).consumoMedio.mul (.fin (3 / 2))) = true)) ∧
    (∀ e, e ∈ (dashboardData allData).baixas ↔
      (e ∈ (dashboardData allData).ranking ∧
        e.reg.consumo.gt (.fin 0) = true ∧
        e.reg.consumo.lt ((dashboardData allData).consumoMedio.mul (.fin (1 / 2))) = true)) ∧
    (∀ e ∈ (dashboardData allData).baixas, e.reg.consumo ≠ .fin 0) ∧
    (ultimoMesAno allData ≠ [] → ∀ e, e ∈ (dashboardData allData).ranking ↔
      e ∈ dadosUltimoMes allData (ultimoMesAno allData)) ∧
    (ultimoMesAno allData = [] →
      (dashboardData allData).ranking = [] ∧ (dashboardData allData).altas = [] ∧
      (dashboardData allData).baixas = []) := by
  have hb : ∀ e, e ∈ (dashboardData allData).baixas ↔
      (e ∈ (dashboardData allData).ranking ∧
        e.reg.consumo.gt (.fin 0) = true ∧
        e.reg.consumo.lt ((dashboardData allData).consumoMedio.mul (.fin (1 / 2))) = true) := by
    intro e
    by_cases hu : ultimoMesAno allData = []
    · rw [dashboardData_of_nil allData hu]
      simp [dashboardVazio]
    · rw [dashboardData_of_ne_nil allData hu]
      simp only [List.mem_filter, Bool.and_eq_true]
  refine ⟨?_, hb, ?_, fun hu e => mem_ranking_iff allData hu e, ?_⟩
  · intro e
    by_cases hu : ultimoMesAno allData = []
    · rw [dashboardData_of_nil allData hu]
      simp [dashboardVazio]
    · rw [dashboardData_of_ne_nil allData hu]
      simp only [List.mem_filter]
  · intro e he h0
    have := ((hb e).mp he).2.1
    rw [h0] at this
    simp [JSNum.gt, JSNum.lt] at this
  · intro hu
    rw [dashboardData_of_nil allData hu]
    exact ⟨rfl, rfl, rfl⟩

theorem ultimoMesAno_exemplo_ne : ultimoMesAno ledgerExemplo ≠ [] := by
  rw [ultimoMesAno_exemplo]
  decide

theorem ranking_exemplo :
    (dashboardData ledgerExemplo).ranking = [entradaLote2, entradaLote1] := by
  rw [dashboardData_of_ne_nil ledgerExemplo ultimoMesAno_exemplo_ne]
  simp only [ultimoMesAno_exemplo, dadosUltimoMes_exemplo]
  have hp : (fun a b : Entrada => (b.reg.consumo.sub a.reg.consumo).gt (.fin 0))
      entradaLote1 entradaLote2 = true := by
    show decide ((0 : ℚ) < 50 + -10) = true
    norm_num
  show List.insertionSort _ [entradaLote1, entradaLote2] = _
  simp only [List.insertionSort, List.orderedInsert, hp]
  simp

theorem consumoMedio_exemplo : (dashboardData ledgerExemplo).consumoMedio = .fin 30 := by
  rw [dashboardData_of_ne_nil ledgerExemplo ultimoMesAno_exemplo_ne]
  simp only [ultimoMesAno_exemplo, dadosUltimoMes_exemplo, somaConsumo_exemplo]
  show JSNum.div (.fin 60) (.fin ((2 : Nat) : ℚ)) = .fin 30
  simp only [JSNum.div]
  norm_num

/-- Instance of `dashboardData_anomalias`, the example of the claim: with `consumo` 10
and 50 the mean is 30 and the thresholds are 45 and 15; lot 2 is flagged high and not
low, lot 1 is flagged low and not high. -/
theorem dashboardData_anomalias_witness :
    (dashboardData ledgerExemplo).consumoMedio.mul (.fin (3 / 2)) = .fin 45 ∧
    (dashboardData ledgerExemplo).consumoMedio.mul (.fin (1 / 2)) = .fin 15 ∧
    entradaLote2 ∈ (dashboardData ledgerExemplo).altas ∧
    entradaLote1 ∉ (dashboardData ledgerExemplo).altas ∧
    entradaLote1 ∈ (dashboardData ledgerExemplo).baixas ∧
    entradaLote2 ∉ (dashboardData ledgerExemplo).baixas := by
  have h45 : (dashboardData ledgerExemplo).consumoMedio.mul (.fin (3 / 2)) = .fin 45 := by
    rw [consumoMedio_exemplo]
    show JSNum.fin (30 * (3 / 2)) = .fin 45
    norm_num
  have h15 : (dashboardData ledgerExemplo).consumoMedio.mul (.fin (1 / 2)) = .fin 15 := by
    rw [consumoMedio_exemplo]
    show JSNum.fin (30 * (1 / 2)) = .fin 15
    norm_num
  obtain ⟨ha, hb, _, _, _⟩ := dashboardData_anomalias ledgerExemplo
  refine ⟨h45, h15, ?_, ?_, ?_, ?_⟩
  · rw [ha, h45, ranking_exemplo]
    refine ⟨by simp, ?_⟩
    show decide ((45 : ℚ) < 50) = true
    norm_num
  · rw [ha, h45]
    intro h
    have : decide ((45 : ℚ) < 10) = true := h.2
    norm_num at this
  · rw [hb, h15, ranking_exemplo]
    refine ⟨by simp, ?_, ?_⟩
    · show decide ((0 : ℚ) < 10) = true
      norm_num
    · show decide ((10 : ℚ) < 15) = true
      norm_num
  · rw [hb, h15]
    intro h
    have : decide ((50 : ℚ) < 15) = true := h.2.2
    norm_num at this

/-! ## C13 -/

theorem JSNum.lt_iff_ordem (a b : JSNum) (ha : a ≠ .nan) (hb : b ≠ .nan) :
    a.lt b = true ↔ a.ordem < b.ordem := by
  cases a <;> cases b <;> simp [JSNum.lt, JSNum.ordem] at ha hb ⊢
  exact WithBot.coe_lt_coe.mpr (WithTop.coe_lt_top _)

theorem JSNum.sub_gt_zero (a b : JSNum) (ha : a ≠ .nan) (hb : b ≠ .nan) :
    (b.sub a).gt (.fin 0) = a.lt b := by
  cases a <;> cases b <;>
    simp [JSNum.sub, JSNum.neg, JSNum.add, JSNum.gt, JSNum.lt] at ha hb ⊢

theorem JSNum.sub_self_gt (v : JSNum) : (v.sub v).gt (.fin 0) = false := by
  cases v <;> simp [JSNum.sub, JSNum.neg, JSNum.add, JSNum.gt, JSNum.lt]

theorem filter_orderedInsert {α : Type} (r : α → α → Prop) [DecidableRel r] (p : α → Bool)
    (hp : ∀ a b, p a = true → p b = true → r a b) (a : α) (l : List α) :
    (l.orderedInsert r a).filter p = (a :: l).filter p := by
  induction l with
  | nil => rfl
  | cons b t ih =>
    by_cases hr : r a b
    · simp [List.orderedInsert, hr]
    · have hne : ¬ (p a = true ∧ p b = true) := fun h => hr (hp a b h.1 h.2)
      simp only [List.orderedInsert, hr, if_false, List.filter_cons, ih]
      cases hpa : p a <;> cases hpb : p b <;> simp_all

theorem filter_insertionSort {α : Type} (r : α → α → Prop) [DecidableRel r] (p : α → Bool)
    (hp : ∀ a b, p a = true → p b = true → r a b) (l : List α) :
    (l.insertionSort r).filter p = l.filter p := by
  induction l with
  | nil => rfl
  | cons a t ih =>
    simp only [List.insertionSort]
    rw [filter_orderedInsert r p hp, List.filter_cons, List.filter_cons, ih]

/-- The ranking sort leaves entries in non-increasing order of `consumo` when no
`consumo` is `NaN`. -/
theorem ranking_pairwise (dados : List Entrada) (hn : ∀ e ∈ dados, e.reg.consumo ≠ .nan) :
    (sort (fun a b : Entrada => (b.reg.consumo.sub a.reg.consumo).gt (.fin 0)) dados).Pairwise
      (fun a b => a.reg.consumo.lt b.reg.consumo = false) := by
  have hcongr : sort (fun a b : Entrada => (b.reg.consumo.sub a.reg.consumo).gt (.fin 0)) dados =
      dados.insertionSort
        (fun a b : Entrada => b.reg.consumo.ordem ≤ a.reg.consumo.ordem) := by
    unfold sort
    apply insertionSort_congr
    intro a ha b hb
    show (b.reg.consumo.sub a.reg.consumo).gt (.fin 0) = false ↔ _
    rw [JSNum.sub_gt_zero _ _ (hn a ha) (hn b hb), ← not_lt,
      ← JSNum.lt_iff_ordem _ _ (hn a ha) (hn b hb)]
    simp
  haveI : IsTotal Entrada (fun a b : Entrada => b.reg.consumo.ordem ≤ a.reg.consumo.ordem) :=
    ⟨fun a b => le_total _ _⟩
  haveI : IsTrans Entrada (fun a b : Entrada => b.reg.consumo.ordem ≤ a.reg.consumo.ordem) :=
    ⟨fun a b c h1 h2 => le_trans h2 h1⟩
  have hs := List.sorted_insertionSort
    (fun a b : Entrada => b.reg.consumo.ordem ≤ a.reg.consumo.ordem) dados
  have hperm := List.perm_insertionSort
    (fun a b : Entrada => b.reg.consumo.ordem ≤ a.reg.consumo.ordem) dados
  rw [hcongr]
  refine List.Pairwise.imp_of_mem ?_ hs
  intro a b ha hb hab
  have ha2 := hn a (hperm.mem_iff.mp ha)
  have hb2 := hn b (hperm.mem_iff.mp hb)
  cases hl : a.reg.consumo.lt b.reg.consumo with
  | false => rfl
  | true =>
    have := (JSNum.lt_iff_ordem _ _ ha2 hb2).mp hl
    exact absurd hab (not_le.mpr this)

theorem map_loteId_dadosUltimoMes (allData : Ledger) (u : JSString) :
    (dadosUltimoMes allData u).map (fun e => e.loteId) =
      (lotesOrdenados allData).filter (fun k =>
        ((getProp allData k).bind
          (fun regs => regs.find? (fun reg => decide (reg.mesAno = u)))).isSome) := by
  unfold dadosUltimoMes
  generalize lotesOrdenados allData = ks
  induction ks with
  | nil => rfl
  | cons k t ih =>
    cases h : (getProp allData k).bind
        (fun regs => regs.find? (fun reg => decide (reg.mesAno = u))) with
    | none => simp [List.filterMap_cons, List.filter_cons, h, ih]
    | some r => simp [List.filterMap_cons, List.filter_cons, h, ih]

theorem lotesOrdenados_comNaN :
    lotesOrdenados ledgerComNaN = ["1".toList, "2".toList, "3".toList] := by
  have e : lotesOrdenados ledgerComNaN = lotesOrdenados ledgerExemplo := rfl
  rw [e, lotesOrdenados_exemplo]

theorem ultimoMesAno_comNaN : ultimoMesAno ledgerComNaN = "2025-03".toList := by
  unfold ultimoMesAno
  rw [lotesOrdenados_comNaN]
  decide

theorem dadosUltimoMes_comNaN :
    dadosUltimoMes ledgerComNaN "2025-03".toList =
      [{ loteId := "1".toList, reg := registroConsumo10 },
       { loteId := "2".toList, reg := registroConsumoNaN },
       { loteId := "3".toList, reg := registroConsumo50 }] := by
  unfold dadosUltimoMes
  rw [lotesOrdenados_comNaN]
  decide

/-- A list that holds an entry with `consumo = NaN` and another entry is, in no order,
sorted by `>=` on `consumo`. -/
theorem not_pairwise_ge_of_nan (l : List Entrada) (a b : Entrada) (ha : a ∈ l) (hb : b ∈ l)
    (hab : a ≠ b) (hnan : b.reg.consumo = .nan) :
    ¬ l.Pairwise (fun x y => x.reg.consumo.ge y.reg.consumo = true) := by
  intro hp
  have hs : l.Pairwise (fun x y => x.reg.consumo.ge y.reg.consumo = true ∨
      y.reg.consumo.ge x.reg.consumo = true) := hp.imp (fun h => Or.inl h)
  have hsym : Symmetric (fun x y : Entrada => x.reg.consumo.ge y.reg.consumo = true ∨
      y.reg.consumo.ge x.reg.consumo = true) := fun _ _ h => h.symm
  rcases hs.forall hsym ha hb hab with h | h
  · rw [hnan] at h
    cases hc : a.reg.consumo <;> rw [hc] at h <;> simp [JSNum.ge, JSNum.isNaN] at h
  · rw [hnan] at h
    simp [JSNum.ge, JSNum.isNaN] at h

/-- C13, as stated, fails: with `consumo` 10 for lot 1, `NaN` for lot 2 and 50 for lot 3
no order of the three entries, whichever the engine returns, is non-increasing by `>=`,
since `NaN >= x` and `x >= NaN` are false. With the comparisons in the order of a sort
by insertion, all those made involve lot 2 and give `NaN`, the three entries stay as
they are, and the ranking has lot 1 (10) before lot 3 (50). -/
theorem ranking_unsorted_with_nan :
    (∀ l : List Entrada, l.Perm (dadosUltimoMes ledgerComNaN (ultimoMesAno ledgerComNaN)) →
      ¬ l.Pairwise (fun a b => a.reg.consumo.ge b.reg.consumo = true)) ∧
    (dashboardData ledgerComNaN).ranking =
      [{ loteId := "1".toList, reg := registroConsumo10 },
       { loteId := "2".toList, reg := registroConsumoNaN },
       { loteId := "3".toList, reg := registroConsumo50 }] ∧
    registroConsumo10.consumo.lt registroConsumo50.consumo = true ∧
    ¬ (dashboardData ledgerComNaN).ranking.Pairwise
      (fun a b => a.reg.consumo.lt b.reg.consumo = false) := by
  have hu : ultimoMesAno ledgerComNaN ≠ [] := by
    rw [ultimoMesAno_comNaN]; decide
  have hr : (dashboardData ledgerComNaN).ranking =
      [{ loteId := "1".toList, reg := registroConsumo10 },
       { loteId := "2".toList, reg := registroConsumoNaN },
       { loteId := "3".toList, reg := registroConsumo50 }] := by
    rw [dashboardData_of_ne_nil ledgerComNaN hu]
    simp only [ultimoMesAno_comNaN, dadosUltimoMes_comNaN]
    decide
  have hlt : registroConsumo10.consumo.lt registroConsumo50.consumo = true := by
    show decide ((10 : ℚ) < 50) = true
    norm_num
  refine ⟨?_, hr, hlt, ?_⟩
  · intro l hl
    rw [ultimoMesAno_comNaN, dadosUltimoMes_comNaN] at hl
    exact not_pairwise_ge_of_nan l { loteId := "1".toList, reg := registroConsumo10 }
      { loteId := "2".toList, reg := registroConsumoNaN }
      (hl.mem_iff.mpr (by simp)) (hl.mem_iff.mpr (by simp)) (by decide) rfl
  · rw [hr]
    intro hp
    have := (List.pairwise_cons.mp hp).1 { loteId := "3".toList, reg := registroConsumo50 }
      (by simp)
    rw [hlt] at this
    exact absurd this (by decide)

/-- C13, amended: when a latest period exists, the ranking is a permutation of the
latest-period data, which hold one entry per lot having a record of that period, with
the lot key and the record; and when no `consumo` of these entries is `NaN`, so that
the comparator is consistent, no entry is followed by one of greater `consumo` and
entries of equal `consumo` keep the relative order they have in the latest-period data.
When no latest period exists the ranking is empty. -/
theorem ranking_sorted_stable (allData : Ledger) :
    (ultimoMesAno allData ≠ [] →
      ((dashboardData allData).ranking).Perm (dadosUltimoMes allData (ultimoMesAno allData)) ∧
      (dadosUltimoMes allData (ultimoMesAno allData)).map (fun e => e.loteId) =
        (lotesOrdenados allData).filter (fun k =>
          ((getProp allData k).bind (fun regs =>
            regs.find? (fun reg => decide (reg.mesAno = ultimoMesAno allData)))).isSome) ∧
      (∀ e ∈ dadosUltimoMes allData (ultimoMesAno allData),
        ∃ regs, getProp allData e.loteId = some regs ∧ e.reg ∈ regs ∧
          e.reg.mesAno = ultimoMesAno allData) ∧
      ((∀ e ∈ dadosUltimoMes allData (ultimoMesAno allData), e.reg.consumo ≠ .nan) →
        (dashboardData allData).ranking.Pairwise
          (fun a b => a.reg.consumo.lt b.reg.consumo = false) ∧
        (dashboardData allData).ranking.Pairwise
          (fun a b => a.reg.consumo.ge b.reg.consumo = true) ∧
        ∀ v : JSNum,
          (dashboardData allData).ranking.filter (fun e => decide (e.reg.consumo = v)) =
            (dadosUltimoMes allData (ultimoMesAno allData)).filter
              (fun e => decide (e.reg.consumo = v)))) ∧
    (ultimoMesAno allData = [] → (dashboardData allData).ranking = []) := by
  constructor
  · intro hu
    rw [dashboardData_of_ne_nil allData hu]
    simp only
    refine ⟨?_, map_loteId_dadosUltimoMes allData _, ?_, ?_⟩
    · unfold sort
      exact List.perm_insertionSort _ _
    · intro e he
      exact mem_dadosUltimoMes allData _ e he
    · intro hn
      have hperm : (sort (fun a b : Entrada => (b.reg.consumo.sub a.reg.consumo).gt (.fin 0))
          (dadosUltimoMes allData (ultimoMesAno allData))).Perm
          (dadosUltimoMes allData (ultimoMesAno allData)) := by
        unfold sort
        exact List.perm_insertionSort _ _
      refine ⟨ranking_pairwise _ hn, ?_, ?_⟩
      · refine List.Pairwise.imp_of_mem ?_ (ranking_pairwise _ hn)
        intro a b ha hb hab
        exact JSNum.ge_of_not_lt _ _ (hn a (hperm.mem_iff.mp ha)) (hn b (hperm.mem_iff.mp hb))
          hab
      intro v
      unfold sort
      apply filter_insertionSort
      intro a b ha hb
      simp only [decide_eq_true_eq] at ha hb
      show (b.reg.consumo.sub a.reg.consumo).gt (.fin 0) = false
      rw [ha, hb]
      exact JSNum.sub_self_gt v
  · intro hu
    rw [dashboardData_of_nil allData hu]
    rfl

/-- Instance of `ranking_sorted_stable`, the example of the claim: lots 1 (`consumo`
10), 2 (`consumo` 50) and 3 (no records) give the ranking lot 2, lot 1. -/
theorem ranking_sorted_stable_witness :
    ultimoMesAno ledgerExemplo ≠ [] ∧
    (∀ e ∈ dadosUltimoMes ledgerExemplo (ultimoMesAno ledgerExemplo), e.reg.consumo ≠ .nan) ∧
    (dashboardData ledgerExemplo).ranking = [entradaLote2, entradaLote1] ∧
    ((dashboardData ledgerExemplo).ranking).Perm
      (dadosUltimoMes ledgerExemplo (ultimoMesAno ledgerExemplo)) ∧
    (dashboardData ledgerExemplo).ranking.Pairwise
      (fun a b => a.reg.consumo.ge b.reg.consumo = true) ∧
    (∀ v : JSNum,
      (dashboardData ledgerExemplo).ranking.filter (fun e => decide (e.reg.consumo = v)) =
        (dadosUltimoMes ledgerExemplo (ultimoMesAno ledgerExemplo)).filter
          (fun e => decide (e.reg.consumo = v))) := by
  have hn : ∀ e ∈ dadosUltimoMes ledgerExemplo (ultimoMesAno ledgerExemplo),
      e.reg.consumo ≠ .nan := by
    rw [ultimoMesAno_exemplo, dadosUltimoMes_exemplo]
    decide
  have h := (ranking_sorted_stable ledgerExemplo).1 ultimoMesAno_exemplo_ne
  exact ⟨ultimoMesAno_exemplo_ne, hn, ranking_exemplo, h.1, (h.2.2.2 hn).2.1,
    (h.2.2.2 hn).2.2⟩

/-! ## C16 -/

theorem radixVal_foldl_some (radix : Nat) (ds : JSString) (a : Nat)
    (h : ∀ d ∈ ds, (digitIn radix d).isSome = true) :
    ∃ n, ds.foldl (fun acc c => acc.bind (fun a => (digitIn radix c).map (fun d => radix * a + d)))
      (some a) = some n := by
  induction ds generalizing a with
  | nil => exact ⟨a, rfl⟩
  | cons c t ih =>
    obtain ⟨v, hv⟩ := Option.isSome_iff_exists.mp (h c (by simp))
    simp only [List.foldl_cons, Option.bind, hv, Option.map_some']
    exact ih _ (fun d hd => h d (by simp [hd]))

theorem radixVal_some (radix : Nat) (ds : JSString) (hne : ds ≠ [])
    (h : ∀ d ∈ ds, (digitIn radix d).isSome = true) : ∃ n, radixVal radix ds = some n := by
  unfold radixVal
  simp only [hne, if_false]
  exact radixVal_foldl_some radix ds 0 h

/-- A string that starts with a decimal digit, not being a `0x` marker, parses as an
integer, whatever follows the digits. -/
theorem parseInt_some_of_digit (c : Char) (t : JSString) (hc : c.isDigit = true)
    (hx : c ≠ '0' ∨ ∀ d ∈ t.head?, d ≠ 'x' ∧ d ≠ 'X') : parseInt (c :: t) ≠ none := by
  obtain ⟨wa, _, _, _, _, da⟩ := digit_facts c hc
  have ht : trimStart (c :: t) = c :: t := by simp [trimStart, List.dropWhile, wa]
  have hr : scanRadix (c :: t) = (10, c :: t) := by
    unfold scanRadix
    split
    · next u heq =>
      simp only [List.cons.injEq] at heq
      rcases hx with h | h
      · exact absurd heq.1 h
      · have := h 'x' (by rw [heq.2]; simp)
        exact absurd rfl this.1
    · next u heq =>
      simp only [List.cons.injEq] at heq
      rcases hx with h | h
      · exact absurd heq.1 h
      · have := h 'X' (by rw [heq.2]; simp)
        exact absurd rfl this.2
    · rfl
  have htw : (c :: t).takeWhile (fun c => (digitIn 10 c).isSome) =
      c :: t.takeWhile (fun c => (digitIn 10 c).isSome) := by
    simp [List.takeWhile, da]
  obtain ⟨n, hn⟩ := radixVal_some 10 (c :: t.takeWhile (fun c => (digitIn 10 c).isSome))
    (by simp) (by
      intro d hd
      rcases List.mem_cons.mp hd with e | e
      · rw [e, da]; rfl
      · exact @List.mem_takeWhile_imp _ (fun c => (digitIn 10 c).isSome) t d e)
  unfold parseInt
  simp only [ht, scanSign_digit c t hc, hr, htw, hn]
  simp

/-- A string whose first non-blank character is neither a digit nor a sign does not
parse as an integer. -/
theorem parseInt_none_of_head (s : JSString)
    (h : ∀ c ∈ (trimStart s).head?, c.isDigit = false ∧ c ≠ '+' ∧ c ≠ '-') :
    parseInt s = none := by
  unfold parseInt
  cases hs : trimStart s with
  | nil => decide
  | cons c t =>
    rw [hs] at h
    obtain ⟨hd, hp, hm⟩ := h c (by simp)
    have h1 : scanSign (c :: t) = (false, c :: t) := by
      unfold scanSign
      split
      · next heq => simp at heq; exact absurd heq.1 hp
      · next heq => simp at heq; exact absurd heq.1 hm
      · rfl
    have h0 : c ≠ '0' := by
      intro e; subst e; simp at hd
    have h2 : scanRadix (c :: t) = (10, c :: t) := by
      unfold scanRadix
      split
      · next heq => simp at heq; exact absurd heq.1 h0
      · next heq => simp at heq; exact absurd heq.1 h0
      · rfl
    have h3 : digitIn 10 c = none := by
      have hb : ¬ (48 ≤ c.toNat ∧ c.toNat ≤ 57) := by
        intro hb
        have : c.isDigit = true := by
          simp only [Char.isDigit, Bool.and_eq_true, decide_eq_true_eq]
          exact ⟨hb.1, hb.2⟩
        rw [hd] at this
        exact absurd this (by decide)
      unfold digitIn
      simp only [hb, if_false]
      split_ifs <;> simp [Option.bind] <;> omega
    simp only [h1, h2]
    simp [List.takeWhile, h3, radixVal]

/-- C16, as stated, fails: the identifier `12abc` only starts with digits, yet it is
accepted: the lot `12abc` is selected and the data-entry view is shown. -/
theorem handleCarregarLote_accepts_trailing_letters :
    (handleCarregarLote estadoSelecao (some "12abc".toList)).alertas = [] ∧
    (handleCarregarLote estadoSelecao (some "12abc".toList)).state.selectedLote =
      some "12abc".toList ∧
    (handleCarregarLote estadoSelecao (some "12abc".toList)).state.view = .lancamento := by
  decide

/-- C16, amended: `handleCarregarLote` selects the identifier (the argument, or the lot
input when the argument is absent or empty), copying it to the lot input and switching
to the data-entry view, exactly when it is not empty and `parseInt` of it is not `NaN`;
otherwise it shows the invalid-lot alert and changes nothing. Every non-empty string of
decimal digits is selected, and so is every string that starts with a non-zero digit,
whatever follows; a string whose first non-blank character is neither a digit nor a
sign is rejected. -/
theorem handleCarregarLote_selects_iff (s : LoteManager) (lote : Option JSString) :
    ((loteEscolhido s lote ≠ [] ∧ parseInt (loteEscolhido s lote) ≠ none) →
      handleCarregarLote s lote =
        { state := { s with selectedLote := some (loteEscolhido s lote)
                            loteInput := loteEscolhido s lote
                            view := .lancamento }
          alertas := []
          escritas := [] }) ∧
    (¬ (loteEscolhido s lote ≠ [] ∧ parseInt (loteEscolhido s lote) ≠ none) →
      handleCarregarLote s lote =
        { state := s, alertas := [.loteInvalido], escritas := [] }) ∧
    ((handleCarregarLote s lote).alertas = [] ↔
      (loteEscolhido s lote ≠ [] ∧ parseInt (loteEscolhido s lote) ≠ none)) ∧
    (∀ t : JSString, t ≠ [] → t.all Char.isDigit = true → parseInt t ≠ none) ∧
    (∀ (c : Char) (t : JSString), c.isDigit = true → c ≠ '0' → parseInt (c :: t) ≠ none) ∧
    (∀ t : JSString,
      (∀ c ∈ (trimStart t).head?, c.isDigit = false ∧ c ≠ '+' ∧ c ≠ '-') →
      parseInt t = none) := by
  have hyes : (loteEscolhido s lote ≠ [] ∧ parseInt (loteEscolhido s lote) ≠ none) →
      handleCarregarLote s lote =
        { state := { s with selectedLote := some (loteEscolhido s lote)
                            loteInput := loteEscolhido s lote
                            view := .lancamento }
          alertas := []
          escritas := [] } := by
    rintro ⟨h1, h2⟩
    have h3 : (parseInt (loteEscolhido s lote)).isNone = false := by
      cases hp : parseInt (loteEscolhido s lote) with
      | none => exact absurd hp h2
      | some n => rfl
    unfold handleCarregarLote
    simp only [h1, h3, false_or, Bool.false_eq_true, if_false]
  have hno : ¬ (loteEscolhido s lote ≠ [] ∧ parseInt (loteEscolhido s lote) ≠ none) →
      handleCarregarLote s lote =
        { state := s, alertas := [.loteInvalido], escritas := [] } := by
    intro h
    have h3 : loteEscolhido s lote = [] ∨ (parseInt (loteEscolhido s lote)).isNone = true := by
      by_cases h1 : loteEscolhido s lote = []
      · exact Or.inl h1
      · right
        cases hp : parseInt (loteEscolhido s lote) with
        | none => rfl
        | some n => exact absurd ⟨h1, by rw [hp]; simp⟩ h
    unfold handleCarregarLote
    simp only [h3, if_true, rejeitar]
  refine ⟨hyes, hno, ?_, ?_, ?_, parseInt_none_of_head⟩
  · constructor
    · intro ha
      by_contra hn
      rw [hno hn] at ha
      simp at ha
    · intro h
      rw [hyes h]
  · intro t hne hall
    cases t with
    | nil => exact absurd rfl hne
    | cons c u =>
      simp only [List.all_cons, Bool.and_eq_true] at hall
      apply parseInt_some_of_digit c u hall.1
      right
      intro d hd
      cases u with
      | nil => simp at hd
      | cons e v =>
        simp only [List.head?_cons, Option.mem_def, Option.some.injEq] at hd
        subst hd
        simp only [List.all_cons, Bool.and_eq_true] at hall
        obtain ⟨_, _, _, hx, hX, _⟩ := digit_facts e hall.2.1
        exact ⟨hx, hX⟩
  · intro c t hc h0
    exact parseInt_some_of_digit c t hc (Or.inl h0)

/-- Instances of `handleCarregarLote_selects_iff`: the identifier `12` is selected, the
identifier `abc` and an empty input are rejected with the state unchanged. -/
theorem handleCarregarLote_selects_iff_witness :
    (handleCarregarLote estadoSelecao (some "12".toList)).state.selectedLote =
      some "12".toList ∧
    (handleCarregarLote estadoSelecao (some "12".toList)).state.view = .lancamento ∧
    handleCarregarLote estadoSelecao (some "abc".toList) =
      { state := estadoSelecao, alertas := [.loteInvalido], escritas := [] } ∧
    handleCarregarLote estadoSelecao none =
      { state := estadoSelecao, alertas := [.loteInvalido], escritas := [] } := by
  have h12 := (handleCarregarLote_selects_iff estadoSelecao (some "12".toList)).1
    ⟨by decide, by decide⟩
  refine ⟨by rw [h12]; rfl, by rw [h12], ?_, ?_⟩
  · exact (handleCarregarLote_selects_iff estadoSelecao (some "abc".toList)).2.1 (by decide)
  · exact (handleCarregarLote_selects_iff estadoSelecao none).2.1 (by decide)

/-! ## C17 -/

theorem keys_replaceProp (k : JSString) (v : List Registro) (l : Ledger) :
    keys (replaceProp k v l) = keys l := by
  induction l with
  | nil => rfl
  | cons p t ih =>
    obtain ⟨k1, v1⟩ := p
    by_cases hk : k1 = k
    · simp [replaceProp, hk, keys]
    · simp only [replaceProp, hk, if_false]
      simp only [keys, List.map_cons] at ih ⊢
      rw [ih]

theorem mem_keys_insertIndex (n : Nat) (k k2 : JSString) (v : List Registro) (l : Ledger) :
    k2 ∈ keys (insertIndex n k v l) ↔ (k2 = k ∨ k2 ∈ keys l) := by
  induction l with
  | nil => simp [insertIndex, keys]
  | cons p t ih =>
    obtain ⟨k1, v1⟩ := p
    unfold insertIndex
    split
    · split
      · simp only [keys, List.map_cons, List.mem_cons] at ih ⊢
        rw [ih]
        tauto
      · simp [keys]
    · simp [keys]

theorem mem_keys_setProp (l : Ledger) (k k2 : JSString) (v : List Registro) :
    k2 ∈ keys (setProp l k v) ↔ (k2 = k ∨ k2 ∈ keys l) := by
  unfold setProp
  split
  · next h =>
    rw [keys_replaceProp]
    constructor
    · intro hm; exact Or.inr hm
    · rintro (e | hm)
      · subst e
        obtain ⟨x, hx⟩ := Option.isSome_iff_exists.mp h
        exact mem_keys_of_getProp l _ x hx
      · exact hm
  · split
    · exact mem_keys_insertIndex _ k k2 v l
    · simp only [keys, List.map_append, List.map_cons, List.map_nil, List.mem_append,
        List.mem_singleton]
      tauto

/-- The store writes of `updateAllData` on a ledger in which one property was set. -/
theorem escritas_setProp (s : LoteManager) (l : Ledger) (L : JSString) (v : List Registro) :
    (L, v) ∈ (updateAllData s (setProp l L v)).escritas ∧
    (updateAllData s (setProp l L v)).escritas.map Prod.fst = keys (setProp l L v) ∧
    (∀ p ∈ (updateAllData s (setProp l L v)).escritas,
      p.2 = getOrEmpty (setProp l L v) p.1 ∧
      (p.1 ≠ L → p.2 = getOrEmpty l p.1 ∧ p.1 ∈ keys l)) ∧
    (∀ k ∈ keys l, k ∈ (updateAllData s (setProp l L v)).escritas.map Prod.fst) := by
  have hmap : (updateAllData s (setProp l L v)).escritas.map Prod.fst = keys (setProp l L v) := by
    simp [updateAllData, List.map_map, Function.comp_def]
  refine ⟨?_, hmap, ?_, ?_⟩
  · simp only [updateAllData, List.mem_map]
    refine ⟨L, (mem_keys_setProp l L L v).mpr (Or.inl rfl), ?_⟩
    rw [getProp_setProp_self]
    rfl
  · intro p hp
    simp only [updateAllData, List.mem_map] at hp
    obtain ⟨k, hk, rfl⟩ := hp
    refine ⟨rfl, ?_⟩
    intro hne
    simp only at hne ⊢
    rw [getProp_setProp_ne l L k v hne]
    refine ⟨rfl, ?_⟩
    rcases (mem_keys_setProp l L k v).mp hk with e | e
    · exact absurd e hne
    · exact e
  · intro k hk
    rw [hmap]
    exact (mem_keys_setProp l L k v).mpr (Or.inr hk)

theorem formAbril_aceito_doisLotes :
    (handleSave estadoDoisLotes formAbril none 1743500000000).alertas = [] := by
  rw [handleSave_alertas_nil_iff]
  refine ⟨by decide, ?_, by decide⟩
  show JSNum.lt (parseFloat "130".toList) (parseFloat "100".toList) = false
  rw [parseFloat_130, parseFloat_100]
  simp [JSNum.lt]
  norm_num

/-- C17, as stated, fails: a successful create on lot 12, in a ledger that also holds
lot 15, issues store writes for the keys 12 and 15, the second with the unchanged
record list of lot 15. -/
theorem updateAllData_writes_other_lots :
    (handleSave estadoDoisLotes formAbril none 1743500000000).alertas = [] ∧
    (handleSave estadoDoisLotes formAbril none 1743500000000).escritas.map Prod.fst =
      ["12".toList, "15".toList] ∧
    ("15".toList, [registroAbril]) ∈
      (handleSave estadoDoisLotes formAbril none 1743500000000).escritas := by
  obtain ⟨h1, h2, _⟩ := (handleSave_alertas_nil_iff _ _ _ _).1 formAbril_aceito_doisLotes
  refine ⟨formAbril_aceito_doisLotes, ?_, ?_⟩
  · rw [handleSave_of_ok_create _ _ _ _ h1 h2 (by decide) (by decide)]
    rw [(escritas_setProp _ _ _ _).2.1]
    decide
  · rw [handleSave_of_ok_create _ _ _ _ h1 h2 (by decide) (by decide)]
    simp only [updateAllData, List.mem_map]
    refine ⟨"15".toList, ?_, ?_⟩
    · decide
    · rw [getProp_setProp_ne _ _ _ _ (by decide)]
      rfl

/-- C17, amended: a successful create or edit, and any delete, on the selected lot `L`
issues a store write for key `L` whose payload is `L`'s full updated record list, and
also one write for every other lot key of the ledger, whose payload is that lot's
unchanged record list: the keys written are exactly the keys of the updated ledger. -/
theorem mutation_store_writes (s : LoteManager) (data : FormData) (id : Option Nat)
    (now : Nat) :
    ((handleSave s data id now).alertas = [] →
      (propKey s.selectedLote,
        getOrEmpty (handleSave s data id now).state.allData (propKey s.selectedLote)) ∈
        (handleSave s data id now).escritas ∧
      (handleSave s data id now).escritas.map Prod.fst =
        keys (handleSave s data id now).state.allData ∧
      (∀ p ∈ (handleSave s data id now).escritas,
        p.2 = getOrEmpty (handleSave s data id now).state.allData p.1 ∧
        (p.1 ≠ propKey s.selectedLote → p.2 = getOrEmpty s.allData p.1 ∧ p.1 ∈ keys s.allData)) ∧
      (∀ k ∈ keys s.allData, k ∈ (handleSave s data id now).escritas.map Prod.fst)) ∧
    ((propKey s.selectedLote,
        getOrEmpty (handleDelete s).state.allData (propKey s.selectedLote)) ∈
        (handleDelete s).escritas ∧
      (handleDelete s).escritas.map Prod.fst = keys (handleDelete s).state.allData ∧
      (∀ p ∈ (handleDelete s).escritas,
        p.2 = getOrEmpty (handleDelete s).state.allData p.1 ∧
        (p.1 ≠ propKey s.selectedLote → p.2 = getOrEmpty s.allData p.1 ∧ p.1 ∈ keys s.allData)) ∧
      (∀ k ∈ keys s.allData, k ∈ (handleDelete s).escritas.map Prod.fst)) := by
  constructor
  · intro h
    obtain ⟨h1, h2, h4⟩ := (handleSave_alertas_nil_iff s data id now).1 h
    cases h3 : idTruthy id with
    | true =>
      simp only [h3, if_true] at h4
      rw [handleSave_of_ok_edit s data id now h1 h2 h3 h4]
      have hE := escritas_setProp { s with editingRecord := none } s.allData
        (propKey s.selectedLote)
        ((getOrEmpty s.allData (propKey s.selectedLote)).map (fun r =>
          if some r.id = id then
            atualizado r (periodoDe data)
              (data.leituraAtual.parseFloat.sub data.leituraAnterior.parseFloat)
              ((data.leituraAtual.parseFloat.sub data.leituraAnterior.parseFloat).mul
                data.tarifa.parseFloat)
              (parseData data)
          else r))
      rw [updateAllData_allData, getOrEmpty_setProp_self]
      exact hE
    | false =>
      simp only [h3] at h4
      have h4' : (getOrEmpty s.allData (propKey s.selectedLote)).any
          (fun r => decide (r.mesAno = periodoDe data)) = false := by
        simpa using h4
      rw [handleSave_of_ok_create s data id now h1 h2 h3 h4']
      have hE := escritas_setProp s s.allData (propKey s.selectedLote)
        (getOrEmpty s.allData (propKey s.selectedLote) ++
          [novoRegistro now (periodoDe data)
            (data.leituraAtual.parseFloat.sub data.leituraAnterior.parseFloat)
            ((data.leituraAtual.parseFloat.sub data.leituraAnterior.parseFloat).mul
              data.tarifa.parseFloat)
            (parseData data)])
      rw [updateAllData_allData, getOrEmpty_setProp_self]
      exact hE
  · have hE := escritas_setProp s s.allData (propKey s.selectedLote)
      ((registros s).filter (fun r => idDiffers r.id s.recordToDelete))
    have e1 : (handleDelete s).escritas =
        (updateAllData s (setProp s.allData (propKey s.selectedLote)
          ((registros s).filter (fun r => idDiffers r.id s.recordToDelete)))).escritas := rfl
    have e2 : (handleDelete s).state.allData =
        setProp s.allData (propKey s.selectedLote)
          ((registros s).filter (fun r => idDiffers r.id s.recordToDelete)) := rfl
    rw [e1, e2, getOrEmpty_setProp_self]
    exact hE

/-- Instance of `mutation_store_writes`: the create of April 2025 on lot 12 next to lot
15 writes lot 12 with its two records and rewrites lot 15. -/
theorem mutation_store_writes_witness :
    (handleSave estadoDoisLotes formAbril none 1743500000000).alertas = [] ∧
    (propKey estadoDoisLotes.selectedLote,
      getOrEmpty (handleSave estadoDoisLotes formAbril none 1743500000000).state.allData
        (propKey estadoDoisLotes.selectedLote)) ∈
      (handleSave estadoDoisLotes formAbril none 1743500000000).escritas ∧
    (∀ k ∈ keys estadoDoisLotes.allData,
      k ∈ (handleSave estadoDoisLotes formAbril none 1743500000000).escritas.map Prod.fst) :=
  ⟨formAbril_aceito_doisLotes,
    ((mutation_store_writes estadoDoisLotes formAbril none 1743500000000).1
      formAbril_aceito_doisLotes).1,
    ((mutation_store_writes estadoDoisLotes formAbril none 1743500000000).1
      formAbril_aceito_doisLotes).2.2.2⟩

/-! ## C19 -/

/-- C19 on the import script: two rows of lot 78 with the distinct labels
`Janeiro / Fevereiro` and `Junho / Julho` are both given the period `2025-01`, the
second because the label is absent from the table, so the imported lot 78 holds two
records of one period. On the six labels of the table the periods are distinct. -/
theorem importarLotes_duplicate_period :
    linhaJaneiro.lote = linhaJunho.lote ∧
    linhaJaneiro.periodo ≠ linhaJunho.periodo ∧
    periodoParaMesAno linhaJaneiro.periodo = "2025-01".toList ∧
    periodoParaMesAno linhaJunho.periodo = "2025-01".toList ∧
    (getOrEmpty (importarLotes idImportado [linhaJaneiro, linhaJunho]) "78".toList).map
      (fun r => r.mesAno) = ["2025-01".toList, "2025-01".toList] ∧
    ¬ ((getOrEmpty (importarLotes idImportado [linhaJaneiro, linhaJunho]) "78".toList).map
      (fun r => r.mesAno)).Nodup ∧
    (∀ a ∈ mapa.map Prod.fst, ∀ b ∈ mapa.map Prod.fst,
      periodoParaMesAno a = periodoParaMesAno b → a = b) := by
  decide

/-! ## C18 -/

theorem split_no_sep (sep : Char) (p : JSString) (h : sep ∉ p) : split sep p = [p] := by
  induction p with
  | nil => rfl
  | cons c t ih =>
    have hc : c ≠ sep := fun e => h (by simp [e])
    have ht : sep ∉ t := fun e => h (by simp [e])
    simp [split, hc, ih ht]

theorem split_append_sep (sep : Char) (p rest : JSString) (h : sep ∉ p) :
    split sep (p ++ sep :: rest) = p :: split sep rest := by
  induction p with
  | nil => simp [split]
  | cons c t ih =>
    have hc : c ≠ sep := fun e => h (by simp [e])
    have ht : sep ∉ t := fun e => h (by simp [e])
    simp [split, hc, ih ht]

theorem split_intercalate (sep : Char) (parts : List JSString) (hne : parts ≠ [])
    (h : ∀ p ∈ parts, sep ∉ p) : split sep (List.intercalate [sep] parts) = parts := by
  induction parts with
  | nil => exact absurd rfl hne
  | cons p t ih =>
    cases t with
    | nil =>
      simp only [List.intercalate, List.intersperse, List.flatten, List.append_nil]
      exact split_no_sep sep p (h p (by simp))
    | cons q u =>
      have e : List.intercalate [sep] (p :: q :: u) =
          p ++ sep :: List.intercalate [sep] (q :: u) := by
        simp [List.intercalate, List.intersperse, List.flatten]
      rw [e, split_append_sep sep p _ (h p (by simp)),
        ih (by simp) (fun x hx => h x (by simp [hx]))]

theorem mem_of_mem_split (sep : Char) (s p : JSString) (c : Char)
    (hp : p ∈ split sep s) (hc : c ∈ p) : c ∈ s := by
  induction s generalizing p with
  | nil =>
    simp [split] at hp
    subst hp
    simp at hc
  | cons d t ih =>
    by_cases hd : d = sep
    · simp only [split, hd, if_true, List.mem_cons] at hp
      rcases hp with e | e
      · subst e; simp at hc
      · exact List.mem_cons_of_mem _ (ih p e hc)
    · simp only [split, hd, if_false] at hp
      cases hs : split sep t with
      | nil =>
        simp only [hs, List.mem_singleton] at hp
        subst hp
        simp only [List.mem_singleton] at hc
        subst hc
        simp
      | cons q qs =>
        simp only [hs, List.mem_cons] at hp
        rcases hp with e | e
        · subst e
          rcases List.mem_cons.mp hc with e2 | e2
          · subst e2; simp
          · exact List.mem_cons_of_mem _ (ih q (by rw [hs]; simp) e2)
        · exact List.mem_cons_of_mem _ (ih p (by rw [hs]; simp [e]) hc)

theorem mem_join (sep : Char) (parts : List JSString) (c : Char)
    (hc : c ∈ join sep parts) : c = sep ∨ ∃ p ∈ parts, c ∈ p := by
  unfold join at hc
  induction parts with
  | nil => simp [List.intercalate, List.intersperse] at hc
  | cons p t ih =>
    cases t with
    | nil =>
      simp [List.intercalate, List.intersperse] at hc
      exact Or.inr ⟨p, by simp, hc⟩
    | cons q u =>
      have e : List.intercalate [sep] (p :: q :: u) =
          p ++ sep :: List.intercalate [sep] (q :: u) := by
        simp [List.intercalate, List.intersperse, List.flatten]
      rw [e] at hc
      rcases List.mem_append.mp hc with h | h
      · exact Or.inr ⟨p, by simp, h⟩
      · rcases List.mem_cons.mp h with h2 | h2
        · exact Or.inl h2
        · rcases ih h2 with h3 | ⟨x, hx, hcx⟩
          · exact Or.inl h3
          · exact Or.inr ⟨x, by simp [List.mem_cons.mp hx], hcx⟩

theorem mem_periodoInvertido (mesAno : JSString) (c : Char)
    (hc : c ∈ periodoInvertido mesAno) : c = '/' ∨ c ∈ mesAno := by
  rcases mem_join '/' _ c hc with h | ⟨p, hp, hcp⟩
  · exact Or.inl h
  · exact Or.inr (mem_of_mem_split '-' mesAno p c (List.mem_reverse.mp hp) hcp)

theorem isDigit_ofNat (d : Nat) (h : d < 10) : (Char.ofNat (48 + d)).isDigit = true := by
  interval_cases d <;> decide

theorem natDigits_all_digits (fuel n : Nat) (acc : JSString)
    (h : ∀ c ∈ acc, c.isDigit = true) : ∀ c ∈ natDigits fuel n acc, c.isDigit = true := by
  induction fuel generalizing n acc with
  | zero => simpa [natDigits] using h
  | succ k ih =>
    have hacc : ∀ c ∈ Char.ofNat (48 + n % 10) :: acc, c.isDigit = true := by
      intro c hc
      rcases List.mem_cons.mp hc with e | e
      · rw [e]; exact isDigit_ofNat _ (Nat.mod_lt _ (by decide))
      · exact h c e
    unfold natDigits
    simp only
    split
    · exact hacc
    · exact ih _ _ hacc

theorem natDigits_ne_nil (fuel n : Nat) (acc : JSString) (h : acc ≠ [] ∨ 0 < fuel) :
    natDigits fuel n acc ≠ [] := by
  induction fuel generalizing n acc with
  | zero =>
    rcases h with h | h
    · simpa [natDigits] using h
    · omega
  | succ k ih =>
    unfold natDigits
    simp only
    split
    · simp
    · exact ih _ _ (Or.inl (by simp))

/-- The shape of `fixedDigits` with a positive number of decimals: digits, a dot, and
exactly `f` digits. -/
theorem fixedDigits_shape (n f : Nat) (hf : 0 < f) :
    ∃ a b : JSString, fixedDigits n f = a ++ '.' :: b ∧ a ≠ [] ∧ b.length = f ∧
      (∀ c ∈ a, c.isDigit = true) ∧ (∀ c ∈ b, c.isDigit = true) := by
  have hm : ∀ c ∈ List.replicate (f + 1 - (natDigits (n + 1) n []).length) '0' ++
      natDigits (n + 1) n [], c.isDigit = true := by
    intro c hc
    rcases List.mem_append.mp hc with h | h
    · rw [(List.mem_replicate.mp h).2]; decide
    · exact natDigits_all_digits _ _ [] (by simp) c h
  have hlen : f + 1 ≤ (List.replicate (f + 1 - (natDigits (n + 1) n []).length) '0' ++
      natDigits (n + 1) n []).length := by
    simp only [List.length_append, List.length_replicate]
    omega
  have hfd : fixedDigits n f =
      (List.replicate (f + 1 - (natDigits (n + 1) n []).length) '0' ++
        natDigits (n + 1) n []).take
        ((List.replicate (f + 1 - (natDigits (n + 1) n []).length) '0' ++
          natDigits (n + 1) n []).length - f) ++
      '.' :: (List.replicate (f + 1 - (natDigits (n + 1) n []).length) '0' ++
        natDigits (n + 1) n []).drop
        ((List.replicate (f + 1 - (natDigits (n + 1) n []).length) '0' ++
          natDigits (n + 1) n []).length - f) := by
    unfold fixedDigits
    simp only [Nat.ne_of_gt hf, if_false]
  rw [hfd]
  generalize (List.replicate (f + 1 - (natDigits (n + 1) n []).length) '0' ++
    natDigits (n + 1) n []) = m2 at hm hlen
  refine ⟨m2.take (m2.length - f), m2.drop (m2.length - f), rfl, ?_, ?_, ?_, ?_⟩
  · intro e
    have := congrArg List.length e
    simp only [List.length_take, List.length_nil] at this
    omega
  · simp only [List.length_drop]
    omega
  · intro c hc
    exact hm c (List.mem_of_mem_take hc)
  · intro c hc
    exact hm c (List.mem_of_mem_drop hc)

/-- With no decimals `fixedDigits` is a non-empty run of digits. -/
theorem fixedDigits_zero (n : Nat) :
    fixedDigits n 0 ≠ [] ∧ ∀ c ∈ fixedDigits n 0, c.isDigit = true := by
  have hm : ∀ c ∈ List.replicate (0 + 1 - (natDigits (n + 1) n []).length) '0' ++
      natDigits (n + 1) n [], c.isDigit = true := by
    intro c hc
    rcases List.mem_append.mp hc with h | h
    · rw [(List.mem_replicate.mp h).2]; decide
    · exact natDigits_all_digits _ _ [] (by simp) c h
  unfold fixedDigits
  simp only [if_true]
  refine ⟨?_, hm⟩
  intro e
  have h2 := natDigits_ne_nil (n + 1) n [] (Or.inr (by omega))
  rw [List.append_eq_nil] at e
  exact h2 e.2

/-- A character that is not a digit, a dot or a minus sign and does not occur in `NaN`
or `Infinity` occurs in no result of `toFixed`, if it occurs in no result of `toStr`. -/
theorem not_mem_toFixed (toStr : JSNum → JSString) (x : Char) (f : Nat) (v : JSNum)
    (hd : x.isDigit = false) (hdot : x ≠ '.') (hminus : x ≠ '-')
    (hw : x ∉ "NaNInfinity".toList) (hs : ∀ n, x ∉ toStr n) : x ∉ toFixed toStr f v := by
  have hsinal : ∀ q : ℚ, x ∉ (if q < 0 then ['-'] else ([] : JSString)) := by
    intro q
    split
    · simp [hminus]
    · simp
  have hfix : ∀ n, x ∉ fixedDigits n f := by
    intro n hx
    by_cases hf : f = 0
    · subst hf
      have := (fixedDigits_zero n).2 x hx
      rw [hd] at this
      exact absurd this (by decide)
    · obtain ⟨a, b, e, _, _, ha, hb⟩ := fixedDigits_shape n f (Nat.pos_of_ne_zero hf)
      rw [e] at hx
      rcases List.mem_append.mp hx with h | h
      · have := ha x h
        rw [hd] at this
        exact absurd this (by decide)
      · rcases List.mem_cons.mp h with h2 | h2
        · exact hdot h2
        · have := hb x h2
          rw [hd] at this
          exact absurd this (by decide)
  cases v with
  | nan =>
    intro hx
    apply hw
    have : toFixed toStr f .nan = "NaN".toList := rfl
    rw [this] at hx
    simp only [String.toList, List.mem_cons] at hx ⊢
    tauto
  | posInf =>
    intro hx
    apply hw
    have : toFixed toStr f .posInf = "Infinity".toList := rfl
    rw [this] at hx
    simp only [String.toList, List.mem_cons] at hx ⊢
    tauto
  | negInf =>
    intro hx
    have : toFixed toStr f .negInf = '-' :: "Infinity".toList := rfl
    rw [this] at hx
    rcases List.mem_cons.mp hx with h | h
    · exact hminus h
    · apply hw
      simp only [String.toList, List.mem_cons] at h ⊢
      tauto
  | fin q =>
    unfold toFixed
    simp only
    split
    · intro hx
      rcases List.mem_append.mp hx with h | h
      · exact hsinal q h
      · exact hs _ h
    · intro hx
      rcases List.mem_append.mp hx with h | h
      · exact hsinal q h
      · exact hfix _ h

theorem not_mem_campos (toStr : JSNum → JSString) (x : Char) (r : Registro)
    (hd : x.isDigit = false) (hdot : x ≠ '.') (hminus : x ≠ '-')
    (hw : x ∉ "NaNInfinity".toList) (hbar : x ≠ '/') (hq : x ≠ '"')
    (hs : ∀ n, x ∉ toStr n) (hm : x ∉ r.mesAno) : ∀ p ∈ camposCSV toStr r, x ∉ p := by
  have hf := fun f v => not_mem_toFixed toStr x f v hd hdot hminus hw hs
  intro p hp
  simp only [camposCSV, List.mem_cons, List.mem_singleton, List.not_mem_nil, or_false] at hp
  rcases hp with e | e | e | e | e | e | e <;> subst e
  · intro hx
    rcases List.mem_cons.mp hx with h | h
    · exact hq h
    · rcases List.mem_append.mp h with h2 | h2
      · rcases mem_periodoInvertido _ _ h2 with h3 | h3
        · exact hbar h3
        · exact hm h3
      · simp at h2
        exact hq h2
  · exact hs _
  · exact hs _
  · exact hf _ _
  · exact hf _ _
  · exact hf _ _
  · exact hf _ _

theorem intercalate_cons_cons (sep : JSString) (p q : JSString) (t : List JSString) :
    List.intercalate sep (p :: q :: t) = p ++ sep ++ List.intercalate sep (q :: t) := by
  simp [List.intercalate, List.intersperse, List.flatten]

theorem periodoInvertido_wf (y1 y2 y3 y4 m1 m2 : Char)
    (h1 : y1.isDigit = true) (h2 : y2.isDigit = true) (h3 : y3.isDigit = true)
    (h4 : y4.isDigit = true) (h5 : m1.isDigit = true) (h6 : m2.isDigit = true) :
    periodoInvertido [y1, y2, y3, y4, '-', m1, m2] = [m1, m2, '/', y1, y2, y3, y4] := by
  unfold periodoInvertido
  rw [split_wf y1 y2 y3 y4 m1 m2 h1 h2 h3 h4 h5 h6]
  rfl

theorem textoCSV_eq_intercalate (toStr : JSNum → JSString) (sel : Option JSString)
    (regs : List Registro) (hne : regs ≠ []) :
    textoCSV toStr sel regs =
      List.intercalate ['\n']
        (tituloCSV sel :: [] :: join ';' headers ::
          regs.map (fun r => join ';' (camposCSV toStr r))) := by
  obtain ⟨r0, t0, hrt⟩ := List.exists_cons_of_ne_nil hne
  unfold textoCSV
  rw [hrt]
  simp only [List.map_cons, intercalate_cons_cons]
  simp

/-- The lines of the CSV text, when no line feed occurs in the lot key, in the periods
or in the rendered numbers. -/
theorem split_textoCSV (toStr : JSNum → JSString) (sel : Option JSString)
    (regs : List Registro) (hne : regs ≠ [])
    (hk : '\n' ∉ propKey sel) (hmes : ∀ r ∈ regs, '\n' ∉ r.mesAno)
    (hstr : ∀ n, '\n' ∉ toStr n) :
    split '\n' (textoCSV toStr sel regs) =
      tituloCSV sel :: [] :: join ';' headers ::
        regs.map (fun r => join ';' (camposCSV toStr r)) := by
  rw [textoCSV_eq_intercalate toStr sel regs hne]
  apply split_intercalate _ _ (by simp)
  intro p hp
  simp only [List.mem_cons, List.mem_map] at hp
  rcases hp with e | e | e | ⟨r, hr, e⟩
  · subst e
    intro hx
    have h1 : '\n' ∉ ('"' :: "Relatório para o Lote: ".toList) := by decide
    have h2 : '\n' ∉ ['"'] := by decide
    unfold tituloCSV at hx
    rcases List.mem_append.mp hx with h | h
    · rcases List.mem_append.mp h with h3 | h3
      · exact h1 h3
      · exact hk h3
    · exact h2 h
  · subst e; simp
  · subst e; decide
  · subst e
    intro hx
    rcases mem_join ';' _ _ hx with h | ⟨p, hp, hcp⟩
    · exact absurd h (by decide)
    · exact not_mem_campos toStr '\n' r (by decide) (by decide) (by decide) (by decide)
        (by decide) (by decide) hstr (hmes r hr) p hp hcp

/-- The fields of a CSV row, when no semicolon occurs in the period or in the rendered
numbers. -/
theorem split_linhaCSV (toStr : JSNum → JSString) (r : Registro)
    (hm : ';' ∉ r.mesAno) (hs : ∀ n, ';' ∉ toStr n) :
    split ';' (join ';' (camposCSV toStr r)) = camposCSV toStr r := by
  unfold join
  apply split_intercalate _ _ (by simp [camposCSV])
  exact not_mem_campos toStr ';' r (by decide) (by decide) (by decide) (by decide)
    (by decide) (by decide) hs hm

/-- C18, amended: for an empty record list `handleExportCSV` shows the alert and exports
nothing. Otherwise the CSV text is the quoted title, an empty line, the header row of
7 column names joined by semicolons, and one row per record in list order, each row
being 7 fields joined by semicolons: the quoted period (month, slash, year for a
well-formed period), `leituraAnterior` and `leituraAtual` as `String` renders them,
`consumo.toFixed(2)`, `(consumo * 1000).toFixed(0)`, `tarifa.toFixed(2)` and
`custo.toFixed(2)`. The lines and the fields are recovered by splitting when the
period, the lot key and the rendered numbers contain no line feed or semicolon. For a
finite value below `10 ^ 21` `toFixed(2)` gives digits, a dot and two digits, and
`toFixed(0)` gives digits only; for `NaN` it gives the text `NaN`. -/
theorem handleExportCSV_layout (toStr : JSNum → JSString) (s : LoteManager) :
    (registros s = [] → handleExportCSV toStr s = .error .nenhumRegistro) ∧
    (registros s ≠ [] →
      handleExportCSV toStr s =
        .ok { csvContent := "data:text/csv;charset=utf-8,".toList ++
                textoCSV toStr s.selectedLote (registros s)
              download := "historico_lote_".toList ++ propKey s.selectedLote ++
                ".csv".toList } ∧
      textoCSV toStr s.selectedLote (registros s) =
        List.intercalate ['\n']
          (tituloCSV s.selectedLote :: [] :: join ';' headers ::
            (registros s).map (fun r => join ';' (camposCSV toStr r))) ∧
      ('\n' ∉ propKey s.selectedLote → (∀ r ∈ registros s, '\n' ∉ r.mesAno) →
        (∀ n, '\n' ∉ toStr n) →
        split '\n' (textoCSV toStr s.selectedLote (registros s)) =
          tituloCSV s.selectedLote :: [] :: join ';' headers ::
            (registros s).map (fun r => join ';' (camposCSV toStr r)))) ∧
    (headers.length = 7 ∧ split ';' (join ';' headers) = headers) ∧
    (∀ r : Registro, (camposCSV toStr r).length = 7 ∧
      (';' ∉ r.mesAno → (∀ n, ';' ∉ toStr n) →
        split ';' (join ';' (camposCSV toStr r)) = camposCSV toStr r)) ∧
    (∀ y1 y2 y3 y4 m1 m2 : Char, periodoBemFormado [y1, y2, y3, y4, '-', m1, m2] = true →
      periodoInvertido [y1, y2, y3, y4, '-', m1, m2] = [m1, m2, '/', y1, y2, y3, y4]) ∧
    (∀ (q : ℚ) (f : Nat), |q| < (10 : ℚ) ^ 21 → 0 < f →
      ∃ a b : JSString,
        toFixed toStr f (.fin q) = (if q < 0 then ['-'] else []) ++ (a ++ '.' :: b) ∧
        a ≠ [] ∧ b.length = f ∧ (∀ c ∈ a, c.isDigit = true) ∧ (∀ c ∈ b, c.isDigit = true)) ∧
    (∀ q : ℚ, |q| < (10 : ℚ) ^ 21 →
      ∃ a : JSString, toFixed toStr 0 (.fin q) = (if q < 0 then ['-'] else []) ++ a ∧
        a ≠ [] ∧ (∀ c ∈ a, c.isDigit = true)) ∧
    toFixed toStr 2 .nan = "NaN".toList := by
  refine ⟨?_, ?_, ⟨rfl, ?_⟩, ?_, ?_, ?_, ?_, rfl⟩
  · intro h
    unfold handleExportCSV
    simp [h]
  · intro hne
    have hlen : (registros s).length ≠ 0 := fun e => hne (List.length_eq_zero.mp e)
    refine ⟨?_, textoCSV_eq_intercalate toStr _ _ hne, ?_⟩
    · unfold handleExportCSV
      simp only [hlen, if_false]
    · intro hk hmes hstr
      exact split_textoCSV toStr _ _ hne hk hmes hstr
  · decide
  · intro r
    exact ⟨rfl, fun hm hs => split_linhaCSV toStr r hm hs⟩
  · intro y1 y2 y3 y4 m1 m2 hw
    obtain ⟨a1, a2, a3, a4, a5, a6, e, h1, h2, h3, h4, h5, h6, _, _⟩ := wf_shape _ hw
    simp only [List.cons.injEq, and_true, true_and] at e
    obtain ⟨e1, e2, e3, e4, e5, e6⟩ := e
    subst e1 e2 e3 e4 e5 e6
    exact periodoInvertido_wf _ _ _ _ _ _ h1 h2 h3 h4 h5 h6
  · intro q f hq hf
    obtain ⟨a, b, e, h1, h2, h3, h4⟩ :=
      fixedDigits_shape (Int.toNat (Int.floor (|q| * (10 : ℚ) ^ f + 1 / 2))) f hf
    refine ⟨a, b, ?_, h1, h2, h3, h4⟩
    unfold toFixed
    simp only [not_le.mpr hq, if_false, e]
  · intro q hq
    obtain ⟨h1, h2⟩ := fixedDigits_zero (Int.toNat (Int.floor (|q| * (10 : ℚ) ^ 0 + 1 / 2)))
    refine ⟨_, ?_, h1, h2⟩
    unfold toFixed
    simp only [not_le.mpr hq, if_false]

theorem toFixed_eval (toStr : JSNum → JSString) (f n : Nat) (q : ℚ) (h0 : 0 ≤ q)
    (h1 : q < (10 : ℚ) ^ 21) (h2 : (n : ℚ) ≤ q * (10 : ℚ) ^ f + 1 / 2)
    (h3 : q * (10 : ℚ) ^ f + 1 / 2 < (n : ℚ) + 1) :
    toFixed toStr f (.fin q) = fixedDigits n f := by
  have habs : |q| = q := abs_of_nonneg h0
  have hfl : Int.floor (q * (10 : ℚ) ^ f + 1 / 2) = (n : Int) := by
    rw [Int.floor_eq_iff]
    constructor
    · exact_mod_cast h2
    · exact_mod_cast h3
  unfold toFixed
  simp only [habs, not_lt.mpr h0, if_false, not_le.mpr h1, hfl, Int.toNat_ofNat,
    List.nil_append]

theorem textoDeNumero_int (z : Int) : textoDeNumero (.fin (z : ℚ)) = intToString (some z) := by
  simp [textoDeNumero]

theorem not_mem_intToString (x : Char) (hd : x.isDigit = false) (hminus : x ≠ '-')
    (hw : x ∉ "NaNInfinity".toList) (z : Option Int) : x ∉ intToString z := by
  have hnat : ∀ fuel n, x ∉ natDigits fuel n [] := by
    intro fuel n hx
    have := natDigits_all_digits fuel n [] (by simp) x hx
    rw [hd] at this
    exact absurd this (by decide)
  cases z with
  | none =>
    intro hx
    apply hw
    have : intToString none = "NaN".toList := rfl
    rw [this] at hx
    simp only [String.toList, List.mem_cons] at hx ⊢
    tauto
  | some v =>
    cases v with
    | ofNat n => exact hnat _ _
    | negSucc n =>
      intro hx
      have : intToString (some (Int.negSucc n)) = '-' :: natDigits (n + 2) (n + 1) [] := rfl
      rw [this] at hx
      rcases List.mem_cons.mp hx with h | h
      · exact hminus h
      · exact hnat _ _ h

theorem not_mem_textoDeNumero (x : Char) (hd : x.isDigit = false) (hminus : x ≠ '-')
    (hw : x ∉ "NaNInfinity".toList) (v : JSNum) : x ∉ textoDeNumero v := by
  cases v with
  | nan => exact not_mem_intToString x hd hminus hw none
  | posInf =>
    intro hx
    apply hw
    have : textoDeNumero .posInf = "Infinity".toList := rfl
    rw [this] at hx
    simp only [String.toList, List.mem_cons] at hx ⊢
    tauto
  | negInf =>
    intro hx
    have : textoDeNumero .negInf = '-' :: "Infinity".toList := rfl
    rw [this] at hx
    rcases List.mem_cons.mp hx with h | h
    · exact hminus h
    · apply hw
      simp only [String.toList, List.mem_cons] at h ⊢
      tauto
  | fin q =>
    show x ∉ (if q.den = 1 then intToString (some q.num) else [])
    split
    · exact not_mem_intToString x hd hminus hw _
    · simp

theorem campos_registroMarco :
    camposCSV textoDeNumero registroMarco =
      ["\"03/2025\"".toList, "90".toList, "100".toList, "10.00".toList, "10000".toList,
       "5.00".toList, "50.00".toList] := by
  have e1 : textoDeNumero (.fin 90) = "90".toList := by
    have := textoDeNumero_int 90
    simpa using this
  have e2 : textoDeNumero (.fin 100) = "100".toList := by
    have := textoDeNumero_int 100
    simpa using this
  have e3 : toFixed textoDeNumero 2 (.fin 10) = "10.00".toList := by
    rw [toFixed_eval textoDeNumero 2 1000 10 (by norm_num) (by norm_num) (by norm_num)
      (by norm_num)]
    decide
  have e4 : toFixed textoDeNumero 0 ((JSNum.fin 10).mul (.fin 1000)) = "10000".toList := by
    show toFixed textoDeNumero 0 (.fin (10 * 1000)) = _
    rw [toFixed_eval textoDeNumero 0 10000 (10 * 1000) (by norm_num) (by norm_num)
      (by norm_num) (by norm_num)]
    decide
  have e5 : toFixed textoDeNumero 2 (.fin 5) = "5.00".toList := by
    rw [toFixed_eval textoDeNumero 2 500 5 (by norm_num) (by norm_num) (by norm_num)
      (by norm_num)]
    decide
  have e6 : toFixed textoDeNumero 2 (.fin 50) = "50.00".toList := by
    rw [toFixed_eval textoDeNumero 2 5000 50 (by norm_num) (by norm_num) (by norm_num)
      (by norm_num)]
    decide
  have e0 : periodoInvertido registroMarco.mesAno = "03/2025".toList := by decide
  show ['"' :: periodoInvertido registroMarco.mesAno ++ ['"'], textoDeNumero (.fin 90),
    textoDeNumero (.fin 100), toFixed textoDeNumero 2 (.fin 10),
    toFixed textoDeNumero 0 ((JSNum.fin 10).mul (.fin 1000)), toFixed textoDeNumero 2 (.fin 5),
    toFixed textoDeNumero 2 (.fin 50)] = _
  rw [e0, e1, e2, e3, e4, e5, e6]
  rfl

/-- C18, as stated, fails: for lot 12 with its one record of March 2025 the text has
four lines, the second of which is empty, between the title and the header; and for a
record whose `consumo` is `NaN` the fields for `consumo` are the text `NaN`, without
decimals. -/
theorem csv_blank_line_and_nan_field :
    split '\n' (textoCSV textoDeNumero estadoLote12.selectedLote (registros estadoLote12)) =
      ["\"Relatório para o Lote: 12\"".toList, [],
       "Mes/Ano;Leitura Anterior (m³);Leitura Atual (m³);Consumo (m³);Consumo (litros);Tarifa (R$/m³);Custo Total (R$)".toList,
       "\"03/2025\";90;100;10.00;10000;5.00;50.00".toList] ∧
    (registros estadoConsumoNaN) = [registroConsumoNaN] ∧
    (camposCSV textoDeNumero registroConsumoNaN)[3]? = some "NaN".toList ∧
    (camposCSV textoDeNumero registroConsumoNaN)[4]? = some "NaN".toList := by
  refine ⟨?_, by decide, rfl, rfl⟩
  rw [split_textoCSV textoDeNumero _ _ (by decide) (by decide) (by decide)
    (fun n => not_mem_textoDeNumero '\n' (by decide) (by decide) (by decide) n)]
  have hr : registros estadoLote12 = [registroMarco] := by decide
  rw [hr]
  simp only [List.map_cons, List.map_nil, campos_registroMarco]
  decide

/-- Instance of `handleExportCSV_layout`: the export of lot 12 with its record of March
2025 is a download whose row splits into the 7 fields of that record. -/
theorem handleExportCSV_layout_witness :
    registros estadoLote12 ≠ [] ∧
    handleExportCSV textoDeNumero estadoLote12 =
      .ok { csvContent := "data:text/csv;charset=utf-8,".toList ++
              textoCSV textoDeNumero estadoLote12.selectedLote (registros estadoLote12)
            download := "historico_lote_12.csv".toList } ∧
    split ';' (join ';' (camposCSV textoDeNumero registroMarco)) =
      ["\"03/2025\"".toList, "90".toList, "100".toList, "10.00".toList, "10000".toList,
       "5.00".toList, "50.00".toList] := by
  have h := handleExportCSV_layout textoDeNumero estadoLote12
  refine ⟨by decide, ?_, ?_⟩
  · rw [(h.2.1 (by decide)).1]
    rfl
  · rw [(h.2.2.2.1 registroMarco).2 (by decide)
      (fun n => not_mem_textoDeNumero ';' (by decide) (by decide) (by decide) n)]
    exact campos_registroMarco

/-! ## C21 -/

theorem JSNum.ge_zero_cases (x : JSNum) (h : x.ge (.fin 0) = true) :
    x = .posInf ∨ ∃ q : ℚ, x = .fin q ∧ 0 ≤ q := by
  cases x with
  | nan => simp [JSNum.ge, JSNum.isNaN] at h
  | posInf => exact Or.inl rfl
  | negInf => simp [JSNum.ge, JSNum.isNaN, JSNum.lt] at h
  | fin q =>
    refine Or.inr ⟨q, rfl, ?_⟩
    simpa [JSNum.ge, JSNum.isNaN, JSNum.lt] using h

theorem foldl_add_posInf (xs : List JSNum) (h : ∀ x ∈ xs, x.ge (.fin 0) = true) :
    xs.foldl JSNum.add .posInf = .posInf := by
  induction xs with
  | nil => rfl
  | cons x t ih =>
    have hx := JSNum.ge_zero_cases x (h x (List.mem_cons_self _ _))
    have ht : ∀ y ∈ t, y.ge (.fin 0) = true := fun y hy => h y (List.mem_cons_of_mem _ hy)
    rw [List.foldl_cons]
    rcases hx with hx | ⟨q, hx, _⟩
    · rw [hx]
      exact ih ht
    · rw [hx]
      exact ih ht

theorem foldl_add_of_posInf_mem (xs : List JSNum) (a : ℚ)
    (h : ∀ x ∈ xs, x.ge (.fin 0) = true) (hm : JSNum.posInf ∈ xs) :
    xs.foldl JSNum.add (.fin a) = .posInf := by
  induction xs generalizing a with
  | nil => simp at hm
  | cons x t ih =>
    have hx := JSNum.ge_zero_cases x (h x (List.mem_cons_self _ _))
    have ht : ∀ y ∈ t, y.ge (.fin 0) = true := fun y hy => h y (List.mem_cons_of_mem _ hy)
    rw [List.foldl_cons]
    rcases hx with hx | ⟨q, hx, _⟩
    · rw [hx]
      exact foldl_add_posInf t ht
    · rw [hx]
      have hm2 : JSNum.posInf ∈ t := by
        rcases List.mem_cons.mp hm with e | e
        · rw [hx] at e
          exact absurd e (by simp)
        · exact e
      exact ih (a + q) ht hm2

theorem exists_map_fin (xs : List JSNum) (h : ∀ x ∈ xs, ∃ q : ℚ, x = .fin q ∧ 0 ≤ q) :
    ∃ qs : List ℚ, xs = qs.map JSNum.fin ∧ ∀ q ∈ qs, 0 ≤ q := by
  induction xs with
  | nil => exact ⟨[], rfl, by simp⟩
  | cons x t ih =>
    obtain ⟨q, hq, hq0⟩ := h x (List.mem_cons_self _ _)
    obtain ⟨qs, hqs, hqs0⟩ := ih (fun y hy => h y (List.mem_cons_of_mem _ hy))
    refine ⟨q :: qs, by rw [hq, hqs]; rfl, ?_⟩
    intro p hp
    rcases List.mem_cons.mp hp with e | e
    · rw [e]
      exact hq0
    · exact hqs0 p e

theorem length_mul_lt_sum (qs : List ℚ) (t : ℚ) (h : ∀ q ∈ qs, t < q) (hne : qs ≠ []) :
    (qs.length : ℚ) * t < qs.sum := by
  induction qs with
  | nil => exact absurd rfl hne
  | cons q tl ih =>
    have hq := h q (List.mem_cons_self _ _)
    by_cases htl : tl = []
    · subst htl
      simpa using hq
    · have := ih (fun p hp => h p (List.mem_cons_of_mem _ hp)) htl
      simp only [List.length_cons, List.sum_cons, Nat.cast_add, Nat.cast_one]
      linarith

theorem filter_eq_take_of_pairwise {α : Type} (p : α → Bool) (l : List α)
    (h : l.Pairwise (fun a b => p b = true → p a = true)) :
    l.filter p = l.take (l.filter p).length := by
  induction l with
  | nil => rfl
  | cons a t ih =>
    rw [List.pairwise_cons] at h
    cases hpa : p a with
    | true =>
      rw [List.filter_cons_of_pos hpa, List.length_cons, List.take_succ_cons, ← ih h.2]
    | false =>
      have hnil : t.filter p = [] := by
        rw [List.filter_eq_nil_iff]
        intro b hb hpb
        have := h.1 b hb hpb
        rw [hpa] at this
        exact absurd this (by simp)
      rw [List.filter_cons_of_neg (by simp [hpa]), hnil]
      rfl

theorem JSNum.gt_posInf (x : JSNum) : x.gt .posInf = false := by
  cases x <;> rfl

theorem JSNum.gt_of_not_lt (a b t : JSNum) (ha : a ≠ .nan) (hb : b ≠ .nan) (ht : t ≠ .nan)
    (hab : a.lt b = false) (hb2 : b.gt t = true) : a.gt t = true := by
  unfold JSNum.gt at hb2 ⊢
  rw [JSNum.lt_iff_ordem _ _ ht hb] at hb2
  rw [JSNum.lt_iff_ordem _ _ ht ha]
  have h1 : ¬ a.ordem < b.ordem := by
    rw [← JSNum.lt_iff_ordem _ _ ha hb, hab]
    simp
  exact lt_of_lt_of_le hb2 (not_lt.mp h1)

/-- Among latest-period data with `consumo >= 0`, the entries above one and a half
times the mean are the first `k` of the ranking, for some `k` below the number of
entries. -/
theorem altas_take (dados : List Entrada) (hne : dados ≠ [])
    (hpos : ∀ e ∈ dados, e.reg.consumo.ge (.fin 0) = true) :
    ∃ k, k < dados.length ∧
      (sort (fun a b : Entrada => (b.reg.consumo.sub a.reg.consumo).gt (.fin 0)) dados).filter
          (fun r => r.reg.consumo.gt
            (((somaConsumo dados).div (.ofNat dados.length)).mul (.fin (3 / 2)))) =
        (sort (fun a b : Entrada => (b.reg.consumo.sub a.reg.consumo).gt (.fin 0)) dados).take
          k := by
  have hlen : 0 < dados.length := List.length_pos.mpr hne
  have hposm : ∀ x ∈ dados.map (fun e => e.reg.consumo), x.ge (.fin 0) = true := by
    intro x hx
    obtain ⟨e, he, rfl⟩ := List.mem_map.mp hx
    exact hpos e he
  by_cases hinf : ∃ e ∈ dados, e.reg.consumo = .posInf
  · obtain ⟨e, he, hei⟩ := hinf
    have hs : somaConsumo dados = .posInf := by
      rw [somaConsumo_eq_foldl]
      exact foldl_add_of_posInf_mem _ 0 hposm (List.mem_map.mpr ⟨e, he, hei⟩)
    have ht : (JSNum.posInf.div (.ofNat dados.length)).mul (.fin (3 / 2)) = .posInf := by
      have h0 : ¬ ((dados.length : ℚ) < 0) := not_lt.mpr (Nat.cast_nonneg _)
      simp only [JSNum.ofNat, JSNum.div, h0, if_false]
      simp [JSNum.mul, JSNum.signo]
      norm_num
    refine ⟨0, hlen, ?_⟩
    rw [hs, ht, List.take_zero, List.filter_eq_nil_iff]
    intro a _
    rw [JSNum.gt_posInf]
    simp
  · have hfin : ∀ x ∈ dados.map (fun e => e.reg.consumo), ∃ q : ℚ, x = .fin q ∧ 0 ≤ q := by
      intro x hx
      rcases JSNum.ge_zero_cases x (hposm x hx) with h | h
      · obtain ⟨e, he, rfl⟩ := List.mem_map.mp hx
        exact absurd ⟨e, he, h⟩ hinf
      · exact h
    obtain ⟨qs, hqs, hqs0⟩ := exists_map_fin _ hfin
    have hql : qs.length = dados.length := by
      have := congrArg List.length hqs
      simpa using this.symm
    have hs : somaConsumo dados = .fin qs.sum := by
      rw [somaConsumo_eq_foldl, hqs, foldl_add_fin, zero_add]
    have hn0 : (dados.length : ℚ) ≠ 0 := by
      have : (0 : ℚ) < dados.length := by exact_mod_cast hlen
      exact ne_of_gt this
    have ht : ((JSNum.fin qs.sum).div (.ofNat dados.length)).mul (.fin (3 / 2)) =
        .fin (qs.sum / dados.length * (3 / 2)) := by
      simp only [JSNum.ofNat, JSNum.div, hn0, if_false, JSNum.mul]
    have hnan : ∀ e ∈ dados, e.reg.consumo ≠ .nan := by
      intro e he hc
      have := hpos e he
      rw [hc] at this
      simp [JSNum.ge, JSNum.isNaN] at this
    have hperm : (sort (fun a b : Entrada => (b.reg.consumo.sub a.reg.consumo).gt (.fin 0))
        dados).Perm dados := by
      unfold sort
      exact List.perm_insertionSort _ _
    have hpw := ranking_pairwise dados hnan
    rw [hs, ht]
    refine ⟨_, ?_, filter_eq_take_of_pairwise _ _ ?_⟩
    · refine lt_of_lt_of_eq ?_ hperm.length_eq
      rw [List.length_filter_lt_length_iff_exists]
      by_contra hall
      have hall2 : ∀ q ∈ qs, qs.sum / dados.length * (3 / 2) < q := by
        intro q hq
        have hm : JSNum.fin q ∈ dados.map (fun e => e.reg.consumo) := by
          rw [hqs]
          exact List.mem_map.mpr ⟨q, hq, rfl⟩
        obtain ⟨e, he, hec⟩ := List.mem_map.mp hm
        by_contra hlt
        apply hall
        refine ⟨e, hperm.mem_iff.mpr he, ?_⟩
        have hec2 : e.reg.consumo = .fin q := hec
        rw [hec2]
        simpa [JSNum.gt, JSNum.lt] using hlt
      have hqne : qs ≠ [] := by
        intro hc
        rw [hc] at hql
        simp at hql
        omega
      have h1 := length_mul_lt_sum qs _ hall2 hqne
      have h2 : 0 ≤ qs.sum := List.sum_nonneg hqs0
      rw [hql] at h1
      have h3 : (dados.length : ℚ) * (qs.sum / dados.length * (3 / 2)) = qs.sum * (3 / 2) := by
        field_simp
        ring
      rw [h3] at h1
      linarith
    · refine List.Pairwise.imp_of_mem ?_ hpw
      intro a b ha hb hab hpb
      exact JSNum.gt_of_not_lt _ _ _ (hnan a (hperm.mem_iff.mp ha))
        (hnan b (hperm.mem_iff.mp hb)) (by simp) hab hpb

theorem ledgerExemplo_consumos (k : JSString) (regs : List Registro) (r : Registro)
    (hg : getProp ledgerExemplo k = some regs) (hr : r ∈ regs) :
    r.consumo.ge (.fin 0) = true := by
  rcases ledgerExemplo_registros k regs r hg hr with e | e <;> rw [e]
  · show JSNum.ge (.fin 10) (.fin 0) = true
    simp [JSNum.ge, JSNum.isNaN, JSNum.lt]
  · show JSNum.ge (.fin 50) (.fin 0) = true
    simp [JSNum.ge, JSNum.isNaN, JSNum.lt]

/-- C21: for a ledger with at least one record, whose records all carry a period (as
every record written by `handleSave` or by the import does) and whose records of the
latest period all have `consumo >= 0`, the ranking has `verificados` entries, with
`verificados >= 1`, and `anomalias.altas` is made of its first `k` entries for some `k`
strictly smaller than `verificados`; so `anomalias.altas` has fewer entries than there
are verified lots. -/
theorem dashboardData_altas_prefix (allData : Ledger)
    (hrec : ∃ k regs r, getProp allData k = some regs ∧ r ∈ regs)
    (hper : ∀ k regs r, getProp allData k = some regs → r ∈ regs → r.mesAno ≠ [])
    (hpos : ∀ k regs r, getProp allData k = some regs → r ∈ regs →
      r.mesAno = ultimoMesAno allData → r.consumo.ge (.fin 0) = true) :
    1 ≤ (dashboardData allData).verificados ∧
    (dashboardData allData).ranking.length = (dashboardData allData).verificados ∧
    (∃ k, k < (dashboardData allData).verificados ∧
      (dashboardData allData).altas = (dashboardData allData).ranking.take k) ∧
    (dashboardData allData).altas.length < (dashboardData allData).verificados := by
  obtain ⟨k, regs, r, hg, hr⟩ := hrec
  have hne : r.mesAno ≠ [] := hper k regs r hg hr
  have hmemP : r.mesAno ∈ periodosLidos allData :=
    (mem_periodosLidos allData _).mpr ⟨k, regs, hg, r, hr, rfl⟩
  have hu : ultimoMesAno allData ≠ [] := by
    rw [ultimoMesAno_eq_foldl]
    exact foldl_maior_ne_nil _ _ (Or.inr ⟨_, hmemP, hne⟩)
  have hmem : ultimoMesAno allData ∈ periodosLidos allData := by
    have := foldl_maior_mem (periodosLidos allData) []
    rw [← ultimoMesAno_eq_foldl] at this
    rcases this with e | e
    · exact absurd e hu
    · exact e
  have hd := dadosUltimoMes_ne_nil allData _ hmem
  have hposd : ∀ e ∈ dadosUltimoMes allData (ultimoMesAno allData),
      e.reg.consumo.ge (.fin 0) = true := by
    intro e he
    obtain ⟨regs2, hg2, hr2, hm2⟩ := mem_dadosUltimoMes allData _ e he
    exact hpos e.loteId regs2 e.reg hg2 hr2 hm2
  obtain ⟨n, hn, hneq⟩ := altas_take _ hd hposd
  have hlen : (sort (fun a b : Entrada => (b.reg.consumo.sub a.reg.consumo).gt (.fin 0))
      (dadosUltimoMes allData (ultimoMesAno allData))).length =
      (dadosUltimoMes allData (ultimoMesAno allData)).length := by
    unfold sort
    exact (List.perm_insertionSort _ _).length_eq
  rw [dashboardData_of_ne_nil allData hu]
  refine ⟨List.length_pos.mpr hd, hlen, ⟨n, hn, hneq⟩, ?_⟩
  show (List.filter _ _).length < _
  rw [hneq, List.length_take]
  exact lt_of_le_of_lt (min_le_left _ _) hn

/-- Instance of `dashboardData_altas_prefix`: the example ledger, whose records of
March 2025 have `consumo` 10 and 50; the ranking is lot 2, lot 1 and `anomalias.altas`
is its first entry, lot 2. -/
theorem dashboardData_altas_prefix_witness :
    (∃ k regs r, getProp ledgerExemplo k = some regs ∧ r ∈ regs) ∧
    (∀ k regs r, getProp ledgerExemplo k = some regs → r ∈ regs → r.mesAno ≠ []) ∧
    (∀ k regs r, getProp ledgerExemplo k = some regs → r ∈ regs →
      r.mesAno = ultimoMesAno ledgerExemplo → r.consumo.ge (.fin 0) = true) ∧
    1 ≤ (dashboardData ledgerExemplo).verificados ∧
    (dashboardData ledgerExemplo).ranking.length = (dashboardData ledgerExemplo).verificados ∧
    (∃ k, k < (dashboardData ledgerExemplo).verificados ∧
      (dashboardData ledgerExemplo).altas = (dashboardData ledgerExemplo).ranking.take k) ∧
    (dashboardData ledgerExemplo).altas.length < (dashboardData ledgerExemplo).verificados :=
  ⟨⟨"1".toList, [registroConsumo10], registroConsumo10, by decide, by decide⟩,
    ledgerExemplo_periodos,
    fun k regs r hg hr _ => ledgerExemplo_consumos k regs r hg hr,
    dashboardData_altas_prefix ledgerExemplo
      ⟨"1".toList, [registroConsumo10], registroConsumo10, by decide, by decide⟩
      ledgerExemplo_periodos
      (fun k regs r hg hr _ => ledgerExemplo_consumos k regs r hg hr)⟩

/-! ## C22 -/

theorem toNat_ofNat_digit (d : Nat) (h : d < 10) : (Char.ofNat (48 + d)).toNat = 48 + d := by
  interval_cases d <;> rfl

theorem natDigits_append (fuel n : Nat) (acc : JSString) :
    natDigits fuel n acc = natDigits fuel n [] ++ acc := by
  induction fuel generalizing n acc with
  | zero => rfl
  | succ k ih =>
    unfold natDigits
    simp only
    split
    · rfl
    · rw [ih _ (_ :: acc), ih _ [_], List.append_assoc]
      rfl

theorem digitsVal_append_singleton (l : JSString) (c : Char) :
    digitsVal (l ++ [c]) = 10 * digitsVal l + (c.toNat - 48) := by
  unfold digitsVal
  rw [List.foldl_append]
  rfl

/-- The decimal numeral of `n` denotes `n`. -/
theorem digitsVal_natDigits (fuel n : Nat) (h : n < 10 ^ fuel) :
    digitsVal (natDigits fuel n []) = n := by
  induction fuel generalizing n with
  | zero =>
    have : n = 0 := by
      simp at h
      exact h
    rw [this]
    rfl
  | succ k ih =>
    have hc : (Char.ofNat (48 + n % 10)).toNat - 48 = n % 10 := by
      rw [toNat_ofNat_digit _ (Nat.mod_lt _ (by decide))]
      omega
    unfold natDigits
    simp only
    split
    · next h0 =>
      show 10 * 0 + ((Char.ofNat (48 + n % 10)).toNat - 48) = n
      rw [hc]
      omega
    · rw [natDigits_append, digitsVal_append_singleton, hc, ih (n / 10)]
      · omega
      · rw [pow_succ] at h
        omega

theorem lt_ten_pow_succ (n : Nat) : n < 10 ^ (n + 1) :=
  lt_trans (Nat.lt_pow_self (by decide) n) (Nat.pow_lt_pow_right (by decide) (Nat.lt_succ_self n))

theorem foldl_digitIn (ds : JSString) (a : Nat) (h : ∀ c ∈ ds, c.isDigit = true) :
    ds.foldl (fun acc c => acc.bind (fun a => (digitIn 10 c).map (fun d => 10 * a + d)))
        (some a) =
      some (ds.foldl (fun acc c => 10 * acc + (c.toNat - 48)) a) := by
  induction ds generalizing a with
  | nil => rfl
  | cons c t ih =>
    obtain ⟨_, _, _, _, _, dc⟩ := digit_facts c (h c (List.mem_cons_self _ _))
    simp only [List.foldl_cons, Option.bind, dc, Option.map_some']
    exact ih _ (fun d hd => h d (List.mem_cons_of_mem _ hd))

theorem takeWhile_digits (ds : JSString) (h : ∀ c ∈ ds, c.isDigit = true) :
    ds.takeWhile (fun c => (digitIn 10 c).isSome) = ds := by
  rw [List.takeWhile_eq_self_iff]
  intro c hc
  obtain ⟨_, _, _, _, _, dc⟩ := digit_facts c (h c hc)
  rw [dc]
  rfl

/-- `parseInt` reads a non-empty run of decimal digits as its value. -/
theorem parseInt_digits (ds : JSString) (hne : ds ≠ []) (h : ∀ c ∈ ds, c.isDigit = true) :
    parseInt ds = some (digitsVal ds : Int) := by
  cases ds with
  | nil => exact absurd rfl hne
  | cons c t =>
    have hc := h c (List.mem_cons_self _ _)
    obtain ⟨wc, _, _, _, _, _⟩ := digit_facts c hc
    have ht : trimStart (c :: t) = c :: t := by simp [trimStart, List.dropWhile, wc]
    have hr : scanRadix (c :: t) = (10, c :: t) := by
      cases t with
      | nil =>
        unfold scanRadix
        split
        · next heq => simp at heq
        · next heq => simp at heq
        · rfl
      | cons d t2 =>
        exact scanRadix_digits c d t2 (h d (by simp))
    unfold parseInt
    simp only [ht, scanSign_digit c t hc, hr, takeWhile_digits _ h]
    unfold radixVal
    rw [if_neg (by simp), foldl_digitIn _ _ h]
    rfl

theorem intToString_natCast (n : Nat) : intToString (some (n : Int)) = natDigits (n + 1) n [] :=
  rfl

theorem digitsVal_replicate_zero (k : Nat) (s : JSString) :
    digitsVal (List.replicate k '0' ++ s) = digitsVal s := by
  induction k with
  | zero => rfl
  | succ j ih =>
    have h0 : digitsVal (List.replicate (j + 1) '0' ++ s) =
        digitsVal (List.replicate j '0' ++ s) := by
      unfold digitsVal
      rw [List.replicate_succ, List.cons_append, List.foldl_cons]
      rfl
    rw [h0, ih]

theorem numeral_facts (n : Nat) :
    natDigits (n + 1) n [] ≠ [] ∧ (∀ c ∈ natDigits (n + 1) n [], c.isDigit = true) ∧
    '-' ∉ natDigits (n + 1) n [] ∧ digitsVal (natDigits (n + 1) n []) = n := by
  have hd : ∀ c ∈ natDigits (n + 1) n [], c.isDigit = true :=
    natDigits_all_digits _ _ [] (by simp)
  refine ⟨natDigits_ne_nil _ _ _ (Or.inr (Nat.succ_pos n)), hd, ?_,
    digitsVal_natDigits _ _ (lt_ten_pow_succ n)⟩
  intro hm
  exact absurd (hd _ hm) (by decide)

theorem padStart2_facts (s : JSString) (hne : s ≠ []) (hd : ∀ c ∈ s, c.isDigit = true) :
    padStart2 s ≠ [] ∧ (∀ c ∈ padStart2 s, c.isDigit = true) ∧ '-' ∉ padStart2 s ∧
    digitsVal (padStart2 s) = digitsVal s := by
  have hd2 : ∀ c ∈ padStart2 s, c.isDigit = true := by
    intro c hc
    unfold padStart2 at hc
    rcases List.mem_append.mp hc with e | e
    · rw [(List.mem_replicate.mp e).2]
      decide
    · exact hd c e
  refine ⟨?_, hd2, ?_, digitsVal_replicate_zero _ _⟩
  · unfold padStart2
    simp [hne]
  · intro hm
    exact absurd (hd2 _ hm) (by decide)

/-- The year and month that the pre-filled form holds, as decimal numerals of numbers
that follow the year and month of every record. -/
theorem proximoFormulario_campos (regs : List Registro) (hoje : Hoje) (hne : regs ≠ [])
    (hwf : ∀ r ∈ regs, periodoBemFormado r.mesAno = true) :
    ∃ y m : Nat,
      (proximoFormulario regs hoje).ano = natDigits (y + 1) y [] ∧
      (proximoFormulario regs hoje).mes = padStart2 (natDigits (m + 1) m []) ∧
      1 ≤ m ∧ m ≤ 12 ∧
      ∀ r ∈ regs, anoDe r.mesAno < y ∨ (anoDe r.mesAno = y ∧ mesDe r.mesAno < m) := by
  obtain ⟨u, hlast, humem, hle⟩ := sort_data_last regs hne hwf
  have hw := hwf u humem
  have hf := proximoFormulario_of_last regs hoje u hlast hw
  obtain ⟨hm1, hm2⟩ := wf_mes_bounds _ hw
  have hord : ∀ r ∈ regs, anoDe r.mesAno < anoDe u.mesAno ∨
      (anoDe r.mesAno = anoDe u.mesAno ∧ mesDe r.mesAno ≤ mesDe u.mesAno) := by
    intro r hr
    obtain ⟨hr1, hr2⟩ := wf_mes_bounds _ (hwf r hr)
    exact (diaDoPeriodo_le_iff _ _ hr1 hr2 hm1 hm2).mp (hle r hr)
  by_cases h12 : mesDe u.mesAno = 12
  · refine ⟨anoDe u.mesAno + 1, 1, ?_, ?_, le_refl 1, by decide, ?_⟩
    · rw [hf]
      simp only [h12, if_true]
      exact intToString_natCast (anoDe u.mesAno + 1)
    · rw [hf]
      simp only [h12, if_true]
      rfl
    · intro r hr
      have := hord r hr
      omega
  · refine ⟨anoDe u.mesAno, mesDe u.mesAno + 1, ?_, ?_, by omega, by omega, ?_⟩
    · rw [hf]
      simp only [h12, if_false]
      rfl
    · rw [hf]
      simp only [h12, if_false]
      exact congrArg padStart2 (intToString_natCast (mesDe u.mesAno + 1))
    · intro r hr
      have := hord r hr
      omega

theorem periodo_ne_of_campos (p ano mes : JSString) (y m : Nat)
    (hp : periodoBemFormado p = true)
    (hano : ano = natDigits (y + 1) y [])
    (hmes : mes = padStart2 (natDigits (m + 1) m []))
    (hord : anoDe p < y ∨ (anoDe p = y ∧ mesDe p < m)) :
    p ≠ ano ++ '-' :: mes := by
  intro he
  obtain ⟨y1, y2, y3, y4, m1, m2, hshape, h1, h2, h3, h4, h5, h6, _, _⟩ := wf_shape _ hp
  obtain ⟨_, _, hy3, hy4⟩ := numeral_facts y
  obtain ⟨hn1, hn2, _, hn4⟩ := numeral_facts m
  obtain ⟨_, _, hp3, hp4⟩ := padStart2_facts _ hn1 hn2
  have hs1 : split '-' p = [[y1, y2, y3, y4], [m1, m2]] := by
    rw [hshape]
    exact split_wf y1 y2 y3 y4 m1 m2 h1 h2 h3 h4 h5 h6
  have hs2 : split '-' p = [ano, mes] := by
    rw [he, split_append_sep '-' ano mes (by rw [hano]; exact hy3),
      split_no_sep '-' mes (by rw [hmes]; exact hp3)]
  rw [hs1] at hs2
  have ha : [y1, y2, y3, y4] = ano := by
    have := List.cons.inj hs2
    exact this.1
  have hb : [m1, m2] = mes := by
    have := List.cons.inj (List.cons.inj hs2).2
    exact this.1
  have hya : anoDe p = y := by
    rw [hshape]
    show digitsVal [y1, y2, y3, y4] = y
    rw [ha, hano, hy4]
  have hmb : mesDe p = m := by
    rw [hshape]
    show digitsVal [m1, m2] = m
    rw [hb, hmes, hp4, hn4]
  omega

/-- C22: for a non-empty record list with well-formed `YYYY-MM` periods, the form that
`prepararProximoFormulario` pre-fills holds the decimal numeral of a year `y` and the
two-digit numeral of a month `m` from 1 to 12, which `parseInt` reads back as `y` and
`m`, such that every record has an earlier year, or the year `y` and an earlier month.
So the period `ano + "-" + mes` of the form is the period of no record, and
`handleSave`, creating a record in the lot of those records from data with that year
and month, does not raise the duplicate-period alert. -/
theorem prepararProximoFormulario_new_period (s : LoteManager) (regs : List Registro)
    (hoje : Hoje) (hne : regs ≠ [])
    (hwf : ∀ r ∈ regs, periodoBemFormado r.mesAno = true) :
    (∃ y m : Nat,
      (prepararProximoFormulario s regs hoje).formData.ano = intToString (some (y : Int)) ∧
      (prepararProximoFormulario s regs hoje).formData.mes =
        padStart2 (intToString (some (m : Int))) ∧
      parseInt (prepararProximoFormulario s regs hoje).formData.ano = some (y : Int) ∧
      parseInt (prepararProximoFormulario s regs hoje).formData.mes = some (m : Int) ∧
      1 ≤ m ∧ m ≤ 12 ∧
      ∀ r ∈ regs, anoDe r.mesAno < y ∨ (anoDe r.mesAno = y ∧ mesDe r.mesAno < m)) ∧
    (∀ r ∈ regs, r.mesAno ≠ periodoDe (prepararProximoFormulario s regs hoje).formData) ∧
    (∀ (data : FormData) (now : Nat),
      getOrEmpty s.allData (propKey s.selectedLote) = regs →
      data.ano = (prepararProximoFormulario s regs hoje).formData.ano →
      data.mes = (prepararProximoFormulario s regs hoje).formData.mes →
      Alerta.periodoDuplicado ∉ (handleSave s data none now).alertas) := by
  obtain ⟨y, m, hano, hmes, hm1, hm2, hord⟩ := proximoFormulario_campos regs hoje hne hwf
  obtain ⟨hy1, hy2, _, hy4⟩ := numeral_facts y
  obtain ⟨hn1, hn2, _, hn4⟩ := numeral_facts m
  obtain ⟨hp1, hp2, _, hp4⟩ := padStart2_facts _ hn1 hn2
  have hnovo : ∀ r ∈ regs, r.mesAno ≠ periodoDe (proximoFormulario regs hoje) := fun r hr =>
    periodo_ne_of_campos r.mesAno _ _ y m (hwf r hr) hano hmes (hord r hr)
  refine ⟨⟨y, m, hano, hmes, ?_, ?_, hm1, hm2, hord⟩, hnovo, ?_⟩
  · show parseInt (proximoFormulario regs hoje).ano = _
    rw [hano, parseInt_digits _ hy1 hy2, hy4]
  · show parseInt (proximoFormulario regs hoje).mes = _
    rw [hmes, parseInt_digits _ hp1 hp2, hp4, hn4]
  · intro data now hregs hda hdm hmem
    have hper : periodoDe data = periodoDe (proximoFormulario regs hoje) := by
      unfold periodoDe
      rw [hda, hdm]
      rfl
    have h4 : (getOrEmpty s.allData (propKey s.selectedLote)).any
        (fun r => decide (r.mesAno = periodoDe data)) = false := by
      rw [List.any_eq_false]
      intro r hr
      rw [hregs] at hr
      rw [hper]
      simpa using hnovo r hr
    cases h1 : camposInvalidos (parseData data) with
    | true =>
      rw [handleSave_of_invalidos s data none now h1] at hmem
      simp [rejeitar] at hmem
    | false =>
      cases h2 : data.leituraAtual.parseFloat.lt data.leituraAnterior.parseFloat with
      | true =>
        rw [handleSave_of_menor s data none now h1 h2] at hmem
        simp [rejeitar] at hmem
      | false =>
        rw [handleSave_of_ok_create s data none now h1 h2 rfl h4] at hmem
        simp [updateAllData] at hmem

/-- Instance of `prepararProximoFormulario_new_period`: lot 12 holds the record of March
2025; the pre-filled period 2025-04 is the period of no record, and saving the form of
April 2025 raises no duplicate-period alert. -/
theorem prepararProximoFormulario_new_period_witness :
    [registroMarco] ≠ [] ∧
    (∀ r ∈ [registroMarco], periodoBemFormado r.mesAno = true) ∧
    getOrEmpty estadoLote12.allData (propKey estadoLote12.selectedLote) = [registroMarco] ∧
    formAbril.ano =
      (prepararProximoFormulario estadoLote12 [registroMarco] hojeJaneiro).formData.ano ∧
    formAbril.mes =
      (prepararProximoFormulario estadoLote12 [registroMarco] hojeJaneiro).formData.mes ∧
    (∀ r ∈ [registroMarco], r.mesAno ≠
      periodoDe (prepararProximoFormulario estadoLote12 [registroMarco] hojeJaneiro).formData) ∧
    Alerta.periodoDuplicado ∉ (handleSave estadoLote12 formAbril none 1743500000000).alertas :=
  ⟨by decide, by decide, by decide, by decide, by decide,
    (prepararProximoFormulario_new_period estadoLote12 [registroMarco] hojeJaneiro
      (by decide) (by decide)).2.1,
    (prepararProximoFormulario_new_period estadoLote12 [registroMarco] hojeJaneiro
      (by decide) (by decide)).2.2 formAbril 1743500000000 (by decide) (by decide)
      (by decide)⟩

end Hidrometros
